import Mathlib

/-!
Payproc: the protocol record, the preorder store and the gateway client

A shallow embedding of the key-value list of `src/util.c` (`keyvalue_find`,
`keyvalue_put`, `keyvalue_del`, `keyvalue_putf`, `keyvalue_get`,
`keyvalue_snatch`, `keyvalue_append_with_nl`, `keyvalue_remove_nl`, together
with `strconcat` and `memstr`), of the preorder store of `src/preorder.c`
(`make_sepa_ref`, `db_datetime_now`, `insert_preorder_record`,
`preorder_store_record`) and of the gateway client of `src/stripe.c`
(`call_stripe`, `extract_error_from_json`, `stripe_create_card_token`,
`stripe_charge_card`), followed by the theorems about them.

Modelling conventions.

* A C string is the list of its characters before the terminating NUL
  (`CStr`); a nullable `char *` is an `Option CStr`.
* The singly linked list `keyvalue_t` is the list of its nodes, head first.
  A pointer to a node of a list is the index of the node; a nullable node
  pointer is an `Option`.
* Functions that mutate the list through a pointer return the new list next
  to their C return value.
* Every function that allocates takes a flag `mem` telling whether the
  allocations requested by the call succeed.  All failure paths of one call
  have the same effect, so one flag per call is enough.
* A `gpg_error_t` is represented by its error code; the error source, a
  process-wide constant, is not tracked.
* What lies outside the program (random bytes, the clock, sqlite, the HTTP
  transport) is a parameter: `store_env` and `stripe_env` hold the answers
  the outside gives, and the results list the rows given to `sqlite3_step`
  and the requests handed to the transport.
* A `goto retry` loop is a function with an iteration bound that returns
  `none` when the bound is too small; the theorems show that it is not.
* An `int` is an `Int` in the range of 32 bits: `atoi` is `strtol` followed
  by the conversion of the `long` to `int`, which wraps.
-/

namespace Payproc

/-! ## Strings, errno and error codes -/

/-- A C string: the characters before the terminating NUL. -/
abbrev CStr := List Char

/-- The terminating NUL character of a C string. -/
def NUL : Char := Char.ofNat 0

/-- The values of `errno` set on the paths embedded here. -/
inductive Errno where
  | ENOMEM
  | EINVAL
deriving DecidableEq, Repr

/-- The error codes of libgpg-error that the embedded code produces. -/
inductive gpg_err_code_t where
  | GPG_ERR_NO_ERROR
  | GPG_ERR_GENERAL
  | GPG_ERR_INV_VALUE
  | GPG_ERR_MISSING_VALUE
  | GPG_ERR_NOT_FOUND
  | GPG_ERR_ENOMEM
  | GPG_ERR_EINVAL
deriving DecidableEq, Repr

open Errno gpg_err_code_t

/-- An error value, represented by its code. -/
abbrev gpg_error_t := gpg_err_code_t

/-- The libgpg-error mapping of `errno` to an error code. -/
def gpg_err_code_from_syserror : Errno → gpg_err_code_t
  | ENOMEM => GPG_ERR_ENOMEM
  | EINVAL => GPG_ERR_EINVAL

/-- Attach the default error source to a code (the source is not tracked). -/
def gpg_error (code : gpg_err_code_t) : gpg_error_t := code

/-- The error for the current `errno`, with the default source. -/
def gpg_error_from_syserror (e : Errno) : gpg_error_t :=
  gpg_error (gpg_err_code_from_syserror e)

/-- Duplicate a string; `NULL` with `errno = ENOMEM` when out of memory. -/
def xtrystrdup (mem : Bool) (string : CStr) : Except Errno CStr :=
  if mem then .ok string else .error ENOMEM

/-! ## strconcat -/

/-- Number of slots of the local array `argv` of `do_strconcat`. -/
def DIM_argv : Nat := 48

/-- The argument-collecting loop of `do_strconcat`, started with `argc`
arguments already stored: `true` when all remaining arguments fit, `false`
when the loop bails out with `EINVAL`. -/
def do_strconcat_collect : Nat → List CStr → Bool
  | _, [] => true
  | argc, _ :: rest =>
    if argc ≥ DIM_argv - 1 then false else do_strconcat_collect (argc + 1) rest

/-- Embedding of `do_strconcat`: `s1` is the first string and `args` are the
following ones up to the terminating `NULL`. -/
def do_strconcat (mem : Bool) (s1 : CStr) (args : List CStr) : Except Errno CStr :=
  if do_strconcat_collect 1 args then
    if mem then .ok ((s1 :: args).foldl (fun p a => p ++ a) [])
    else .error ENOMEM
  else .error EINVAL

/-- Embedding of `strconcat`: a `NULL` first argument yields the empty
string, whatever follows. -/
def strconcat (mem : Bool) (s1 : Option CStr) (args : List CStr) : Except Errno CStr :=
  match s1 with
  | none => xtrystrdup mem []
  | some s => do_strconcat mem s args

/-! ## The key-value list -/

/-- One node of the list: `name` is the key stored in the node, `value` the
nullable value pointer. -/
structure keyvalue_s where
  name : CStr
  value : Option CStr
deriving DecidableEq, Repr

/-- The list, as the sequence of its nodes starting at the head. -/
abbrev keyvalue_t := List keyvalue_s

/-- Embedding of `keyvalue_find`: the first node whose name equals `key`. -/
def keyvalue_find : keyvalue_t → CStr → Option Nat
  | [], _ => none
  | kv :: next, key =>
    if kv.name = key then some 0 else (keyvalue_find next key).map (· + 1)

/-- Embedding of `keyvalue_create`: a fresh node, or `NULL` when out of memory. -/
def keyvalue_create (mem : Bool) (key value : CStr) : Option keyvalue_s :=
  if mem then some { name := key, value := some value } else none

/-- The assignment `kv->value = buf` for the node `kv` of `list`. -/
def set_value : keyvalue_t → Nat → Option CStr → keyvalue_t
  | [], _, _ => []
  | kv :: next, 0, buf => { kv with value := buf } :: next
  | kv :: next, i + 1, buf => kv :: set_value next i buf

/-- Embedding of `keyvalue_append_with_nl` on the node `kv`. -/
def keyvalue_append_with_nl (mem : Bool) (kv : keyvalue_s) (value : CStr) :
    gpg_error_t × keyvalue_s :=
  match strconcat mem kv.value [['\n'], value] with
  | .error e => (gpg_err_code_from_syserror e, kv)
  | .ok p => (GPG_ERR_NO_ERROR, { kv with value := some p })

/-- The memory image of a C string: its characters and the terminating NUL. -/
def cstr_buffer (s : CStr) : List Char := s ++ [NUL]

/-- The C string held by a buffer: the characters before the first NUL. -/
def buffer_cstr (buf : List Char) : CStr := buf.takeWhile (fun c => c ≠ NUL)

/-- The copying loop of `keyvalue_remove_nl` on the buffer `buf` with read
position `s` and write position `d`; returns the buffer and the final `d`.
The first argument bounds the number of iterations. -/
def keyvalue_remove_nl_loop : Nat → List Char → Nat → Nat → List Char × Nat
  | 0, buf, _, d => (buf, d)
  | fuel + 1, buf, s, d =>
    let c := buf.getD s NUL
    if c = NUL then (buf, d)
    else if c ≠ '\n' then keyvalue_remove_nl_loop fuel (buf.set d c) (s + 1) (d + 1)
    else keyvalue_remove_nl_loop fuel buf (s + 1) d

/-- Embedding of `keyvalue_remove_nl` on a nullable node pointer: the value
buffer is rewritten in place and terminated at the final write position. -/
def keyvalue_remove_nl (kv : Option keyvalue_s) : Option keyvalue_s :=
  match kv with
  | none => none
  | some node =>
    match node.value with
    | none => some node
    | some v =>
      let r := keyvalue_remove_nl_loop (cstr_buffer v).length (cstr_buffer v) 0 0
      some { node with value := some (buffer_cstr (r.1.set r.2 NUL)) }

/-- Embedding of `keyvalue_put`; the key is a nullable pointer. -/
def keyvalue_put (mem : Bool) (list : keyvalue_t) (key : Option CStr)
    (value : Option CStr) : gpg_error_t × keyvalue_t :=
  match key with
  | none => (gpg_error GPG_ERR_INV_VALUE, list)
  | some key =>
    if key = [] then (gpg_error GPG_ERR_INV_VALUE, list)
    else
      match keyvalue_find list key with
      | some kv =>
        match value with
        | some v =>
          match xtrystrdup mem v with
          | .error e => (gpg_error_from_syserror e, list)
          | .ok buf => (GPG_ERR_NO_ERROR, set_value list kv (some buf))
        | none => (GPG_ERR_NO_ERROR, set_value list kv none)
      | none =>
        match value with
        | some v =>
          match keyvalue_create mem key v with
          | none => (gpg_error_from_syserror ENOMEM, list)
          | some kv => (GPG_ERR_NO_ERROR, kv :: list)
        | none => (GPG_ERR_NO_ERROR, list)

/-- What a caller sees through its own head pointer `list` after a callee
that worked on a copy of that pointer left the nodes `list'`: nodes the
callee linked in front are not reachable from the caller's pointer. -/
def caller_view (list list' : keyvalue_t) : keyvalue_t :=
  list'.drop (list'.length - list.length)

/-- Embedding of `keyvalue_del`: `keyvalue_put` with a `NULL` value on a
copy of the head pointer. -/
def keyvalue_del (mem : Bool) (list : keyvalue_t) (key : Option CStr) :
    gpg_error_t × keyvalue_t :=
  let r := keyvalue_put mem list key none
  (r.1, caller_view list r.2)

/-- Embedding of `keyvalue_putf`; `formatted` is what `gpgrt_vbsprintf`
returned for the format and its arguments (`NULL` when out of memory). -/
def keyvalue_putf (mem : Bool) (list : keyvalue_t) (key : Option CStr)
    (formatted : Option CStr) : gpg_error_t × keyvalue_t :=
  match key with
  | none => (gpg_error GPG_ERR_INV_VALUE, list)
  | some k =>
    if k = [] then (gpg_error GPG_ERR_INV_VALUE, list)
    else
      match formatted with
      | none => (gpg_error_from_syserror ENOMEM, list)
      | some value => keyvalue_put mem list key (some value)

/-- Embedding of `keyvalue_get`. -/
def keyvalue_get : keyvalue_t → CStr → Option CStr
  | [], _ => none
  | kv :: next, key => if kv.name = key then kv.value else keyvalue_get next key

/-- Embedding of `keyvalue_snatch`: the returned pointer and the list. -/
def keyvalue_snatch : keyvalue_t → CStr → Option CStr × keyvalue_t
  | [], _ => (none, [])
  | kv :: next, key =>
    if kv.name = key then (kv.value, { kv with value := none } :: next)
    else ((keyvalue_snatch next key).1, kv :: (keyvalue_snatch next key).2)

/-- Embedding of `keyvalue_get_string`. -/
def keyvalue_get_string (list : keyvalue_t) (key : CStr) : CStr :=
  match keyvalue_get list key with
  | some s => s
  | none => []

/-! ## Sequences of operations on one record -/

/-- One call on a record.  Node arguments are positions in the list. -/
inductive Op where
  | put (mem : Bool) (key : Option CStr) (value : Option CStr)
  | putf (mem : Bool) (key : Option CStr) (formatted : Option CStr)
  | del (mem : Bool) (key : Option CStr)
  | snatch (key : CStr)
  | append_with_nl (mem : Bool) (kv : Nat) (value : CStr)
  | remove_nl (kv : Option Nat)
deriving DecidableEq, Repr

/-- The list after one call. -/
def Op.apply (list : keyvalue_t) : Op → keyvalue_t
  | .put mem key value => (keyvalue_put mem list key value).2
  | .putf mem key formatted => (keyvalue_putf mem list key formatted).2
  | .del mem key => (keyvalue_del mem list key).2
  | .snatch key => (keyvalue_snatch list key).2
  | .append_with_nl mem kv value =>
    match list[kv]? with
    | none => list
    | some node => list.set kv (keyvalue_append_with_nl mem node value).2
  | .remove_nl kv =>
    match kv with
    | none => list
    | some i =>
      match keyvalue_remove_nl list[i]? with
      | none => list
      | some node => list.set i node

/-- The list after a sequence of calls, first call first. -/
def run (ops : List Op) (list : keyvalue_t) : keyvalue_t :=
  ops.foldl Op.apply list

/-- The keys of the nodes, head first. -/
def keys (list : keyvalue_t) : List CStr := list.map (fun kv => kv.name)

/-- Number of nodes of the list whose name is `key`. -/
def entries (list : keyvalue_t) (key : CStr) : Nat :=
  (list.filter (fun kv => kv.name = key)).length

/-- At most one node per key. -/
def unique_keys (list : keyvalue_t) : Prop := (keys list).Nodup

instance (list : keyvalue_t) : Decidable (unique_keys list) := by
  unfold unique_keys; infer_instance

/-- The key a call may insert: the key argument of Put and Putf. -/
def Op.key : Op → Option CStr
  | .put _ key _ => key
  | .putf _ key _ => key
  | _ => none

/-- What a call with the insertable key `key` can do to the sequence of keys:
nothing, or put `key`, non-empty and not there before, in front. -/
def keys_step (list list' : keyvalue_t) (key : Option CStr) : Prop :=
  keys list' = keys list ∨
    ∃ k, key = some k ∧ k ≠ [] ∧ k ∉ keys list ∧ keys list' = k :: keys list

/-- Put every pair of `kvs`, in order, with successful allocations. -/
def put_all (kvs : List (CStr × CStr)) (list : keyvalue_t) : keyvalue_t :=
  run (kvs.map (fun p => Op.put true (some p.1) (some p.2))) list

/-- AppendLine applied to the node `kv` once for every text, in order, with
successful allocations. -/
def append_lines (kv : keyvalue_s) (texts : List CStr) : keyvalue_s :=
  texts.foldl (fun node text => (keyvalue_append_with_nl true node text).2) kv

/-! ## C library helpers used by the preorder store and the gateway client -/

/-- The `isspace` of the C locale. -/
def isspace (c : Char) : Bool :=
  c = ' ' || c = '\t' || c = '\n' || c = Char.ofNat 11 || c = Char.ofNat 12 || c = '\r'

/-- The `isdigit` of the C locale. -/
def isdigit (c : Char) : Bool := decide ('0'.toNat ≤ c.toNat ∧ c.toNat ≤ '9'.toNat)

/-- The digit loop of `atoi`: the value of the leading digits of the string,
continuing from `acc`. -/
def atoi_digits (acc : Nat) : List Char → Nat
  | [] => acc
  | c :: rest =>
    if isdigit c then atoi_digits (acc * 10 + (c.toNat - '0'.toNat)) rest else acc

/-- Largest value of a `long` (64 bits). -/
def LONG_MAX : Int := 9223372036854775807

/-- Smallest value of a `long` (64 bits). -/
def LONG_MIN : Int := -9223372036854775808

/-- The `strtol` of the C library for base 10 without end pointer: leading
white space, an optional sign and the leading digits; what follows them is
ignored, and a value outside the range of `long` is replaced by the nearest
bound. -/
def strtol (nptr : CStr) : Int :=
  match nptr.dropWhile isspace with
  | [] => 0
  | c :: rest =>
    if c = '-' then max LONG_MIN (- (atoi_digits 0 rest : Int))
    else if c = '+' then min LONG_MAX (atoi_digits 0 rest : Int)
    else min LONG_MAX (atoi_digits 0 (c :: rest) : Int)

/-- The conversion of a `long` to an `int` of 32 bits: the value modulo
`2^32` in the range from `-2^31` to `2^31 - 1`. -/
def long_to_int (n : Int) : Int := (n + 2147483648) % 4294967296 - 2147483648

/-- The `atoi` of the C library, which is `(int) strtol (nptr, NULL, 10)`:
the result is an `int`, so the digits of a number that does not fit wrap
around (`4294969326` reads as 2030). -/
def atoi (nptr : CStr) : Int := long_to_int (strtol nptr)

/-- Embedding of `keyvalue_get_int`; the result is the `int` that `atoi`
returns. -/
def keyvalue_get_int (list : keyvalue_t) (key : CStr) : Int :=
  match keyvalue_get list key with
  | none => 0
  | some s => atoi s

/-- The text the format `%d` produces for an `int`. -/
def format_d (n : Int) : CStr :=
  if n < 0 then '-' :: Nat.toDigits 10 n.natAbs else Nat.toDigits 10 n.natAbs

/-! ## The preorder store: reference generator and time stamp -/

/-- The table `codes` of `make_sepa_ref`. -/
def codes : List Char :=
  ['A', 'B', 'C', 'D', 'E', 'G', 'H', 'J',
   'K', 'L', 'N', 'R', 'S', 'T', 'W', 'X',
   'Y', 'Z', '0', '1', '2', '3', '4', '5',
   '6', '7', '8', '9']

/-- The 32-bit value `n` that `make_sepa_ref` builds from the first four
bytes of the nonce. -/
def sepa_ref_n (nonce : Fin 5 → Fin 256) : Nat :=
  (((nonce 0).val <<< 24) ||| ((nonce 1).val <<< 16)
    ||| ((nonce 2).val <<< 8) ||| (nonce 3).val) % 2 ^ 32

/-- Embedding of `make_sepa_ref`: the string left in the buffer, for the
five bytes `nonce` that `gcry_create_nonce` delivered. -/
def make_sepa_ref (nonce : Fin 5 → Fin 256) : CStr :=
  let i := 10 + sepa_ref_n nonce % 90
  [codes.getD ((nonce 0).val % 18) NUL]
    ++ ([1, 2, 3, 4] : List (Fin 5)).map (fun j => codes.getD ((nonce j).val % 28) NUL)
    ++ ['-', Char.ofNat ('0'.toNat + i / 10), Char.ofNat ('0'.toNat + i % 10)]

/-- Size of the buffer handed to `db_datetime_now`. -/
def DB_DATETIME_SIZE : Nat := 20

/-- Embedding of `db_datetime_now`: the assignments made, in order, to the
buffer as `get_current_time` left it. -/
def db_datetime_now (buffer : List Char) : List Char :=
  let b := buffer.set 19 NUL
  let b := b.set 18 (b.getD 14 NUL)
  let b := b.set 17 (b.getD 13 NUL)
  let b := b.set 16 ':'
  let b := b.set 15 (b.getD 12 NUL)
  let b := b.set 14 (b.getD 11 NUL)
  let b := b.set 13 ':'
  let b := b.set 12 (b.getD 10 NUL)
  let b := b.set 11 (b.getD 9 NUL)
  let b := b.set 10 ' '
  let b := b.set 9 (b.getD 7 NUL)
  let b := b.set 8 (b.getD 6 NUL)
  let b := b.set 7 '-'
  let b := b.set 6 (b.getD 5 NUL)
  let b := b.set 5 (b.getD 4 NUL)
  b.set 4 '-'

/-! ## The preorder store: inserting a record -/

/-- Result codes of sqlite3 that the code tests for. -/
def SQLITE_OK : Nat := 0

/-- Result code of a completed `sqlite3_step`. -/
def SQLITE_DONE : Nat := 101

/-- Extended result code of a primary-key collision. -/
def SQLITE_CONSTRAINT_PRIMARYKEY : Nat := 1555

/-- A value bound to a statement or stored in a column. -/
inductive sqlite_value where
  | null
  | integer (i : Int)
  | text (s : CStr)
deriving DecidableEq, Repr

/-- What `sqlite3_bind_text` binds for a nullable string. -/
def bind_text : Option CStr → sqlite_value
  | none => .null
  | some s => .text s

/-- One row of the table `preorder`, column by column. -/
structure preorder_row where
  ref : sqlite_value
  refnn : sqlite_value
  created : sqlite_value
  paid : sqlite_value
  npaid : sqlite_value
  amount : sqlite_value
  currency : sqlite_value
  desc : sqlite_value
  email : sqlite_value
  meta : sqlite_value
deriving DecidableEq, Repr

/-- The row of the statement prepared in `open_preorder_db`,
`INSERT INTO preorder VALUES (?1,?2,?3,NULL,0,?4,?5,?6,?7,?8)`, for the
bound parameters `p 1`, ..., `p 8`. -/
def preorder_insert_stmt (p : Nat → sqlite_value) : preorder_row :=
  { ref := p 1, refnn := p 2, created := p 3, paid := .null, npaid := .integer 0,
    amount := p 4, currency := p 5, desc := p 6, email := p 7, meta := p 8 }

/-- Everything outside the program that a call of `preorder_store_record`
depends on.  The fields indexed by a number are asked once per pass through
the label `retry`, the number being `retrycount` at that moment. -/
structure store_env where
  /-- Whether `preorder_db` is already open. -/
  db_open : Bool
  /-- Result of `sqlite3_open_v2`. -/
  open_rc : Nat
  /-- Result of preparing the `CREATE TABLE` statement. -/
  create_prepare_rc : Nat
  /-- Result of stepping the `CREATE TABLE` statement. -/
  create_step_rc : Nat
  /-- Result of preparing the `INSERT` statement. -/
  insert_prepare_rc : Nat
  /-- The bytes delivered by `gcry_create_nonce`. -/
  nonce : Nat → Fin 5 → Fin 256
  /-- Whether the allocation of `keyvalue_put` succeeds. -/
  mem : Nat → Bool
  /-- The buffer as `get_current_time` leaves it. -/
  get_current_time : Nat → List Char
  /-- Result of the `sqlite3_bind_*` call for the given parameter. -/
  bind : Nat → Nat → Nat
  /-- The function `meta_field_to_string` of the journal. -/
  meta_field_to_string : keyvalue_t → Option CStr
  /-- Result of `sqlite3_step` for the row built from the bound values. -/
  step : Nat → preorder_row → Nat

/-- The key `SEPA-Ref`. -/
def SEPA_Ref : CStr := "SEPA-Ref".toList

/-- The values `insert_preorder_record` binds to the parameters 1 to 8 of the
insert statement, for the reference `separef` and the dictionary `dict`. -/
def insert_params (env : store_env) (retrycount : Nat) (separef : CStr)
    (dict : keyvalue_t) (i : Nat) : sqlite_value :=
  match i with
  | 1 => bind_text (some (separef.take 5))
  | 2 => .integer (atoi (separef.drop 6))
  | 3 => bind_text (some (buffer_cstr (db_datetime_now (env.get_current_time retrycount))))
  | 4 => bind_text (some (keyvalue_get_string dict "Amount".toList))
  | 5 => bind_text (some "EUR".toList)
  | 6 => bind_text (keyvalue_get dict "Desc".toList)
  | 7 => bind_text (keyvalue_get dict "Email".toList)
  | 8 => bind_text (env.meta_field_to_string dict)
  | _ => .null

/-- The chain of `if (!res) res = sqlite3_bind_...` over the parameters 1 to
8: the first non-zero result, or zero. -/
def bind_all (rc : Nat → Nat) : Nat :=
  [1, 2, 3, 4, 5, 6, 7, 8].foldl (fun res i => if res = 0 then rc i else res) 0

/-- How one pass through the body of `insert_preorder_record` ends. -/
inductive pass_result where
  /-- The function returns; `stepped` is the row given to `sqlite3_step`, if
  the pass got that far. -/
  | returned (err : gpg_error_t) (dict : keyvalue_t) (stepped : Option preorder_row)
  /-- The pass ends in `goto retry`. -/
  | again (dict : keyvalue_t) (row : preorder_row)

/-- One pass through the body of `insert_preorder_record`, from the label
`retry` with the given `retrycount` and dictionary. -/
def insert_preorder_record_pass (env : store_env) (retrycount : Nat)
    (dict : keyvalue_t) : pass_result :=
  let separef := make_sepa_ref (env.nonce retrycount)
  let r := keyvalue_put (env.mem retrycount) dict (some SEPA_Ref) (some separef)
  if r.1 ≠ GPG_ERR_NO_ERROR then .returned r.1 r.2 none
  else if bind_all (env.bind retrycount) ≠ 0 then
    .returned (gpg_error GPG_ERR_GENERAL) r.2 none
  else
    let row := preorder_insert_stmt (insert_params env retrycount separef r.2)
    let res := env.step retrycount row
    if res = SQLITE_DONE then .returned GPG_ERR_NO_ERROR r.2 (some row)
    else if res = SQLITE_CONSTRAINT_PRIMARYKEY ∧ retrycount + 1 < 11000 then .again r.2 row
    else .returned (gpg_error GPG_ERR_GENERAL) r.2 (some row)

/-- What a call leaves behind: the return value, the dictionary, and the
rows given to `sqlite3_step`, in order. -/
structure store_result where
  err : gpg_error_t
  dict : keyvalue_t
  attempts : List preorder_row

/-- The passes of `insert_preorder_record` from the label `retry` on, with
the rows stepped so far; the first argument bounds the number of passes and
`none` means that the bound was too small. -/
def insert_preorder_record_retry (env : store_env) :
    Nat → Nat → keyvalue_t → List preorder_row → Option store_result
  | 0, _, _, _ => none
  | fuel + 1, retrycount, dict, attempts =>
    match insert_preorder_record_pass env retrycount dict with
    | .returned err dict' stepped =>
      some { err := err, dict := dict', attempts := attempts ++ stepped.toList }
    | .again dict' row =>
      insert_preorder_record_retry env fuel (retrycount + 1) dict' (attempts ++ [row])

/-- Embedding of `insert_preorder_record`. -/
def insert_preorder_record (env : store_env) (dict : keyvalue_t) : Option store_result :=
  insert_preorder_record_retry env 11000 0 dict []

/-- Embedding of `open_preorder_db` (the lock is not modelled). -/
def open_preorder_db (env : store_env) : gpg_error_t :=
  if env.db_open then GPG_ERR_NO_ERROR
  else if env.open_rc ≠ 0 then gpg_error GPG_ERR_GENERAL
  else if env.create_prepare_rc ≠ 0 then gpg_error GPG_ERR_GENERAL
  else if env.create_step_rc ≠ SQLITE_DONE then gpg_error GPG_ERR_GENERAL
  else if env.insert_prepare_rc ≠ 0 then gpg_error GPG_ERR_GENERAL
  else GPG_ERR_NO_ERROR

/-- Embedding of `preorder_store_record`. -/
def preorder_store_record (env : store_env) (dict : keyvalue_t) : Option store_result :=
  if open_preorder_db env ≠ GPG_ERR_NO_ERROR then
    some { err := open_preorder_db env, dict := dict, attempts := [] }
  else insert_preorder_record env dict

/-! ## Definitions used to state the properties of the preorder store -/

/-- The first 18 entries of `codes`: the letters a reference may start with. -/
def first_codes : List Char :=
  ['A', 'B', 'C', 'D', 'E', 'G', 'H', 'J', 'K', 'L', 'N', 'R', 'S', 'T', 'W', 'X', 'Y', 'Z']

/-- The decimal digits. -/
def digit_chars : List Char := ['0', '1', '2', '3', '4', '5', '6', '7', '8', '9']

/-- The five reference characters for the table positions `i`. -/
def prefix_of (i : Fin 18 × Fin 28 × Fin 28 × Fin 28 × Fin 28) : CStr :=
  [codes.getD i.1.val NUL, codes.getD i.2.1.val NUL, codes.getD i.2.2.1.val NUL,
   codes.getD i.2.2.2.1.val NUL, codes.getD i.2.2.2.2.val NUL]

/-- A nonce whose bytes are the given table positions. -/
def nonce_of (i : Fin 18 × Fin 28 × Fin 28 × Fin 28 × Fin 28) : Fin 5 → Fin 256 :=
  fun j =>
    if j = 0 then ⟨i.1.val, by omega⟩
    else if j = 1 then ⟨i.2.1.val, by omega⟩
    else if j = 2 then ⟨i.2.2.1.val, by omega⟩
    else if j = 3 then ⟨i.2.2.2.1.val, by omega⟩
    else ⟨i.2.2.2.2.val, by omega⟩

/-- The dictionary at the label `retry` when `retrycount` is `k`, provided
all earlier passes went on to `goto retry`. -/
def dict_at (env : store_env) (dict : keyvalue_t) : Nat → keyvalue_t
  | 0 => dict
  | k + 1 =>
    (keyvalue_put true (dict_at env dict k) (some SEPA_Ref)
      (some (make_sepa_ref (env.nonce k)))).2

/-- The row that the pass with `retrycount = k` gives to `sqlite3_step`. -/
def row_at (env : store_env) (dict : keyvalue_t) (k : Nat) : preorder_row :=
  preorder_insert_stmt
    (insert_params env k (make_sepa_ref (env.nonce k)) (dict_at env dict (k + 1)))

/-- The rows of the passes `0`, ..., `n - 1`. -/
def rows_upto (env : store_env) (dict : keyvalue_t) (n : Nat) : List preorder_row :=
  (List.range n).map (row_at env dict)

/-- The pass with `retrycount = j` stores the reference, binds all values
and hits a primary-key collision. -/
def pass_collides (env : store_env) (dict : keyvalue_t) (j : Nat) : Prop :=
  env.mem j = true ∧ bind_all (env.bind j) = 0 ∧
    env.step j (row_at env dict j) = SQLITE_CONSTRAINT_PRIMARYKEY

/-- The ways `insert_preorder_record` can end in the pass with
`retrycount = k`, after collisions in all earlier passes: the allocation of
`keyvalue_put` fails; a bind fails; the step succeeds; the step fails for
good (no collision, or the collision that exhausts the retries). -/
def insert_outcome (env : store_env) (dict : keyvalue_t) (r : store_result)
    (k : Nat) : Prop :=
  k < 11000 ∧ (∀ j, j < k → pass_collides env dict j) ∧
  ((env.mem k = false ∧
      r = { err := GPG_ERR_ENOMEM, dict := dict_at env dict k,
            attempts := rows_upto env dict k }) ∨
   (env.mem k = true ∧ bind_all (env.bind k) ≠ 0 ∧
      r = { err := GPG_ERR_GENERAL, dict := dict_at env dict (k + 1),
            attempts := rows_upto env dict k }) ∨
   (env.mem k = true ∧ bind_all (env.bind k) = 0 ∧
      env.step k (row_at env dict k) = SQLITE_DONE ∧
      r = { err := GPG_ERR_NO_ERROR, dict := dict_at env dict (k + 1),
            attempts := rows_upto env dict (k + 1) }) ∨
   (env.mem k = true ∧ bind_all (env.bind k) = 0 ∧
      env.step k (row_at env dict k) ≠ SQLITE_DONE ∧
      (env.step k (row_at env dict k) = SQLITE_CONSTRAINT_PRIMARYKEY → k + 1 = 11000) ∧
      r = { err := GPG_ERR_GENERAL, dict := dict_at env dict (k + 1),
            attempts := rows_upto env dict (k + 1) }))

/-- An environment in which the database is open, every allocation and every
bind succeeds, the nonce is all zero, the clock shows noon of 2015-01-01 and
`sqlite3_step` answers as `step` says. -/
def sample_env (step : Nat → preorder_row → Nat) : store_env :=
  { db_open := true, open_rc := 0, create_prepare_rc := 0, create_step_rc := SQLITE_DONE,
    insert_prepare_rc := 0, nonce := fun _ _ => 0, mem := fun _ => true,
    get_current_time := fun _ => "20150101T120000".toList ++ [NUL, NUL, NUL, NUL, NUL],
    bind := fun _ _ => 0, meta_field_to_string := fun _ => none, step := step }

/-! ## The gateway client: JSON values and the HTTP call -/

/-- A parsed JSON value, by the node types of cJSON; a number carries its
`valueint`, a string its `valuestring`. -/
inductive cjson where
  | null
  | bool (b : Bool)
  | number (valueint : Int)
  | string (valuestring : CStr)
  | array (items : List cjson)
  | object (members : List (CStr × cjson))

/-- Modelled from the spec: `cJSON.c` is not among the sources.  The item
`name` of an object is its first member of that name; a value that is no
object has no items. -/
def cJSON_GetObjectItem (object : cjson) (name : CStr) : Option cjson :=
  match object with
  | .object members => (members.find? (fun m => m.1 = name)).map (fun m => m.2)
  | _ => none

/-- What the transport and the gateway answer to one request: the first
error of `http_session_new`, `http_open`, `encode_formdata` and
`http_wait_response` (no error: `GPG_ERR_NO_ERROR`), the status code, and the
body as read and parsed by `cJSON_Parse` (or the `errno` of the failure). -/
structure http_reply where
  err : gpg_error_t
  status : Nat
  body : Except Errno cjson

/-- How `call_stripe` returns: with an error and the status stored so far,
or with success, the status and the parsed body. -/
inductive call_result where
  | failed (err : gpg_error_t) (status : Nat)
  | ok (status : Nat) (json : cjson)

/-- The host all requests go to. -/
def STRIPE_HOST : CStr := "https://api.stripe.com".toList

/-- Embedding of `call_stripe` for the transport `http`, which maps the URL
and the form data to the reply; next to the result, the requests handed to
the transport. -/
def call_stripe (mem : Bool) (http : CStr → keyvalue_t → http_reply) (method : CStr)
    (data : Option CStr) (formdata : keyvalue_t) :
    call_result × List (CStr × keyvalue_t) :=
  match strconcat mem (some STRIPE_HOST)
      (["/v1/".toList, method] ++
        (match data with
         | some d => ["/".toList, d]
         | none => [])) with
  | .error e => (.failed (gpg_error_from_syserror e) 0, [])
  | .ok url =>
    let reply := http url formdata
    if reply.err ≠ GPG_ERR_NO_ERROR then (.failed reply.err 0, [(url, formdata)])
    else if reply.status / 100 = 2 ∨ reply.status / 100 = 4 then
      match reply.body with
      | .error e => (.failed (gpg_error_from_syserror e) reply.status, [(url, formdata)])
      | .ok root => (.ok reply.status root, [(url, formdata)])
    else (.failed (gpg_error GPG_ERR_NOT_FOUND) reply.status, [(url, formdata)])

/-- The string of a JSON item if it is there and a string, else the empty
string: the way `extract_error_from_json` reads `message` and `code`. -/
def string_or_empty : Option cjson → CStr
  | some (.string s) => s
  | _ => []

/-- Embedding of `extract_error_from_json`; `mem1` and `mem2` tell whether
the allocations of the first and of the second `keyvalue_put` succeed. -/
def extract_error_from_json (mem1 mem2 : Bool) (dict : keyvalue_t) (json : cjson) :
    gpg_error_t × keyvalue_t :=
  match cJSON_GetObjectItem json "error".toList with
  | some (.object members) =>
    match cJSON_GetObjectItem (.object members) "type".toList with
    | some (.string type) =>
      let mesg := string_or_empty (cJSON_GetObjectItem (.object members) "message".toList)
      let code := string_or_empty (cJSON_GetObjectItem (.object members) "code".toList)
      if type = "invalid_request_error".toList then
        keyvalue_put mem1 dict (some "failure".toList) (some "invalid request to stripe".toList)
      else if type = "api_error".toList then
        keyvalue_put mem1 dict (some "failure".toList) (some "bad request to stripe".toList)
      else if type = "card_error".toList then
        let r := keyvalue_put mem1 dict (some "failure".toList)
          (some (if code ≠ [] then code else "card error".toList))
        if r.1 = GPG_ERR_NO_ERROR ∧ mesg ≠ [] then
          keyvalue_put mem2 r.2 (some "failure-mesg".toList) (some mesg)
        else r
      else keyvalue_put mem1 dict (some "failure".toList) (some "unknown error".toList)
    | _ => (GPG_ERR_NO_ERROR, dict)
  | _ => (GPG_ERR_NO_ERROR, dict)

/-! ## The gateway client: creating a card token -/

/-- Everything outside the program that a call of the gateway client depends
on: `mem i` tells whether the allocations of the `i`-th allocating call of
the function succeed (in program order, counted from 0), `http` is the
transport. -/
structure stripe_env where
  mem : Nat → Bool
  http : CStr → keyvalue_t → http_reply

/-- What a call of the gateway client leaves behind: the return value, the
dictionary, and the requests handed to the transport. -/
structure stripe_result where
  err : gpg_error_t
  dict : keyvalue_t
  calls : List (CStr × keyvalue_t)

/-- The state of `stripe_create_card_token` while it builds the query: the
value of `err` (an error means that `goto leave` was taken), the dictionary
and the query. -/
abbrev query_state := gpg_error_t × keyvalue_t × keyvalue_t

/-- The block of `stripe_create_card_token` for `Number`. -/
def token_number (mem : Bool) (dict : keyvalue_t) : query_state :=
  let s := keyvalue_get_string dict "Number".toList
  if s = [] then (gpg_error GPG_ERR_MISSING_VALUE, dict, [])
  else
    let q := keyvalue_put mem [] (some "card[number]".toList) (some s)
    if q.1 ≠ GPG_ERR_NO_ERROR then (q.1, dict, q.2)
    else (GPG_ERR_NO_ERROR, (keyvalue_del true dict (some "Number".toList)).2, q.2)

/-- The block of `stripe_create_card_token` for one numeric field, which the
source has three times: for `Exp-Year` (2014 to 2199), `Exp-Month` (1 to 12)
and `Cvc` (100 to 9999).  `memf` is the allocation of the formatted value,
`memp` the one of `keyvalue_put`. -/
def token_int_field (memf memp : Bool) (key qkey : CStr) (lo hi : Int)
    (v : query_state) : query_state :=
  if v.1 ≠ GPG_ERR_NO_ERROR then v
  else
    let s := keyvalue_get_string v.2.1 key
    if s = [] ∨ atoi s < lo ∨ atoi s > hi then (gpg_error GPG_ERR_INV_VALUE, v.2.1, v.2.2)
    else
      let q := keyvalue_putf memp v.2.2 (some qkey)
        (if memf then some (format_d (atoi s)) else none)
      if q.1 ≠ GPG_ERR_NO_ERROR then (q.1, v.2.1, q.2)
      else (GPG_ERR_NO_ERROR, (keyvalue_del true v.2.1 (some key)).2, q.2)

/-- The block of `stripe_create_card_token` for the optional `Name`. -/
def token_name (mem : Bool) (v : query_state) : query_state :=
  if v.1 ≠ GPG_ERR_NO_ERROR then v
  else
    let s := keyvalue_get_string v.2.1 "Name".toList
    if s ≠ [] then
      let q := keyvalue_put mem v.2.2 (some "card[name]".toList) (some s)
      (q.1, v.2.1, q.2)
    else v

/-- The part of `stripe_create_card_token` before `call_stripe`: the checks
of the card fields and the construction of the query, block after block. -/
def stripe_create_card_token_query (env : stripe_env) (dict : keyvalue_t) : query_state :=
  token_name (env.mem 7)
    (token_int_field (env.mem 5) (env.mem 6) "Cvc".toList "card[cvc]".toList 100 9999
      (token_int_field (env.mem 3) (env.mem 4) "Exp-Month".toList "card[exp_month]".toList 1 12
        (token_int_field (env.mem 1) (env.mem 2) "Exp-Year".toList "card[exp_year]".toList
          2014 2199 (token_number (env.mem 0) dict))))

/-- The part of `stripe_create_card_token` after a reply with status 200:
the checks of `id`, `livemode` and `card.last4` and the three results put
into the dictionary. -/
def stripe_create_card_token_response (env : stripe_env) (dict : keyvalue_t)
    (json : cjson) : gpg_error_t × keyvalue_t :=
  match cJSON_GetObjectItem json "id".toList with
  | some (.string id) =>
    match cJSON_GetObjectItem json "livemode".toList with
    | some (.bool livemode) =>
      match (cJSON_GetObjectItem json "card".toList).bind
          (fun j_card => cJSON_GetObjectItem j_card "last4".toList) with
      | some (.string last4) =>
        let r1 := keyvalue_put (env.mem 9) dict (some "Live".toList)
          (some (if livemode then "t".toList else "f".toList))
        if r1.1 ≠ GPG_ERR_NO_ERROR then r1
        else
          let r2 := keyvalue_put (env.mem 10) r1.2 (some "Last4".toList) (some last4)
          if r2.1 ≠ GPG_ERR_NO_ERROR then r2
          else keyvalue_put (env.mem 11) r2.2 (some "Token".toList) (some id)
      | _ => (gpg_error GPG_ERR_GENERAL, dict)
    | _ => (gpg_error GPG_ERR_GENERAL, dict)
  | _ => (gpg_error GPG_ERR_GENERAL, dict)

/-- Embedding of `stripe_create_card_token`. -/
def stripe_create_card_token (env : stripe_env) (dict : keyvalue_t) : stripe_result :=
  let v := stripe_create_card_token_query env dict
  if v.1 ≠ GPG_ERR_NO_ERROR then { err := v.1, dict := v.2.1, calls := [] }
  else
    let c := call_stripe (env.mem 8) env.http "tokens".toList none v.2.2
    match c.1 with
    | .failed err _ => { err := err, dict := v.2.1, calls := c.2 }
    | .ok status json =>
      if status ≠ 200 then
        let e := extract_error_from_json (env.mem 9) (env.mem 10) v.2.1 json
        { err := if e.1 ≠ GPG_ERR_NO_ERROR then e.1 else gpg_error GPG_ERR_GENERAL,
          dict := e.2, calls := c.2 }
      else
        let r := stripe_create_card_token_response env v.2.1 json
        { err := r.1, dict := r.2, calls := c.2 }

/-! ## The gateway client: charging a card -/

/-- The block of `stripe_charge_card` for a required field, which the source
has three times: for `Currency`, `_amount` and `Card-Token`. -/
def charge_required (mem : Bool) (key qkey : CStr) (v : query_state) : query_state :=
  if v.1 ≠ GPG_ERR_NO_ERROR then v
  else
    let s := keyvalue_get_string v.2.1 key
    if s = [] then (gpg_error GPG_ERR_MISSING_VALUE, v.2.1, v.2.2)
    else
      let q := keyvalue_put mem v.2.2 (some qkey) (some s)
      (q.1, v.2.1, q.2)

/-- The call `keyvalue_del (*dict, "Card-Token")` that ends the block for
`Card-Token`. -/
def charge_consume_token (v : query_state) : query_state :=
  if v.1 ≠ GPG_ERR_NO_ERROR then v
  else (v.1, (keyvalue_del true v.2.1 (some "Card-Token".toList)).2, v.2.2)

/-- The block of `stripe_charge_card` for an optional field: `Desc` and
`Stmt-Desc`. -/
def charge_optional (mem : Bool) (key qkey : CStr) (v : query_state) : query_state :=
  if v.1 ≠ GPG_ERR_NO_ERROR then v
  else
    let s := keyvalue_get_string v.2.1 key
    if s ≠ [] then
      let q := keyvalue_put mem v.2.2 (some qkey) (some s)
      (q.1, v.2.1, q.2)
    else v

/-- The part of `stripe_charge_card` before `call_stripe`: the checks of the
required fields and the construction of the query, block after block. -/
def stripe_charge_card_query (env : stripe_env) (dict : keyvalue_t) : query_state :=
  charge_optional (env.mem 4) "Stmt-Desc".toList "statement_description".toList
    (charge_optional (env.mem 3) "Desc".toList "description".toList
      (charge_consume_token
        (charge_required (env.mem 2) "Card-Token".toList "card".toList
          (charge_required (env.mem 1) "_amount".toList "amount".toList
            (charge_required (env.mem 0) "Currency".toList "currency".toList
              (GPG_ERR_NO_ERROR, dict, []))))))

/-- The string of a JSON item if it is there and a string, else `NULL`: the
way `stripe_charge_card` reads `balance_transaction` and `card.last4`. -/
def string_or_null : Option cjson → Option CStr
  | some (.string s) => some s
  | _ => none

/-- The block of `stripe_charge_card` for `id`. -/
def charge_id (mem : Bool) (json : cjson) (dict : keyvalue_t) : gpg_error_t × keyvalue_t :=
  match cJSON_GetObjectItem json "id".toList with
  | some (.string id) => keyvalue_put mem dict (some "Charge-Id".toList) (some id)
  | _ => (gpg_error GPG_ERR_GENERAL, dict)

/-- The block of `stripe_charge_card` for `balance_transaction`. -/
def charge_balance (mem : Bool) (json : cjson) (r : gpg_error_t × keyvalue_t) :
    gpg_error_t × keyvalue_t :=
  if r.1 ≠ GPG_ERR_NO_ERROR then r
  else
    keyvalue_put mem r.2 (some "balance-transaction".toList)
      (string_or_null (cJSON_GetObjectItem json "balance_transaction".toList))

/-- The block of `stripe_charge_card` for `livemode`. -/
def charge_live (mem : Bool) (json : cjson) (r : gpg_error_t × keyvalue_t) :
    gpg_error_t × keyvalue_t :=
  if r.1 ≠ GPG_ERR_NO_ERROR then r
  else
    match cJSON_GetObjectItem json "livemode".toList with
    | some (.bool livemode) =>
      keyvalue_put mem r.2 (some "Live".toList)
        (some (if livemode then "t".toList else "f".toList))
    | _ => (gpg_error GPG_ERR_GENERAL, r.2)

/-- The block of `stripe_charge_card` for `currency`. -/
def charge_currency (mem : Bool) (json : cjson) (r : gpg_error_t × keyvalue_t) :
    gpg_error_t × keyvalue_t :=
  if r.1 ≠ GPG_ERR_NO_ERROR then r
  else
    match cJSON_GetObjectItem json "currency".toList with
    | some (.string currency) => keyvalue_put mem r.2 (some "Currency".toList) (some currency)
    | _ => (gpg_error GPG_ERR_GENERAL, r.2)

/-- The block of `stripe_charge_card` for `amount`; `memf` is the allocation
of the formatted value, `memp` the one of `keyvalue_put`. -/
def charge_amount (memf memp : Bool) (json : cjson) (r : gpg_error_t × keyvalue_t) :
    gpg_error_t × keyvalue_t :=
  if r.1 ≠ GPG_ERR_NO_ERROR then r
  else
    match cJSON_GetObjectItem json "amount".toList with
    | some (.number valueint) =>
      keyvalue_putf memp r.2 (some "_amount".toList)
        (if memf then some (format_d valueint) else none)
    | _ => (gpg_error GPG_ERR_GENERAL, r.2)

/-- The block of `stripe_charge_card` for `card.last4`. -/
def charge_last4 (mem : Bool) (json : cjson) (r : gpg_error_t × keyvalue_t) :
    gpg_error_t × keyvalue_t :=
  if r.1 ≠ GPG_ERR_NO_ERROR then r
  else
    keyvalue_put mem r.2 (some "Last4".toList)
      (string_or_null ((cJSON_GetObjectItem json "card".toList).bind
        (fun j_tmp => cJSON_GetObjectItem j_tmp "last4".toList)))

/-- The part of `stripe_charge_card` after a reply with status 200, block
after block. -/
def stripe_charge_card_response (env : stripe_env) (dict : keyvalue_t) (json : cjson) :
    gpg_error_t × keyvalue_t :=
  charge_last4 (env.mem 12) json
    (charge_amount (env.mem 10) (env.mem 11) json
      (charge_currency (env.mem 9) json
        (charge_live (env.mem 8) json
          (charge_balance (env.mem 7) json
            (charge_id (env.mem 6) json dict)))))

/-- Embedding of `stripe_charge_card`. -/
def stripe_charge_card (env : stripe_env) (dict : keyvalue_t) : stripe_result :=
  let v := stripe_charge_card_query env dict
  if v.1 ≠ GPG_ERR_NO_ERROR then { err := v.1, dict := v.2.1, calls := [] }
  else
    let c := call_stripe (env.mem 5) env.http "charges".toList none v.2.2
    match c.1 with
    | .failed err _ => { err := err, dict := v.2.1, calls := c.2 }
    | .ok status json =>
      if status ≠ 200 then
        let e := extract_error_from_json (env.mem 6) (env.mem 7) v.2.1 json
        { err := if e.1 ≠ GPG_ERR_NO_ERROR then e.1 else gpg_error GPG_ERR_GENERAL,
          dict := e.2, calls := c.2 }
      else
        let r := stripe_charge_card_response env v.2.1 json
        { err := r.1, dict := r.2, calls := c.2 }

/-! ## Definitions used to state the properties of the gateway client -/

/-- The check of `Number`: the field is not empty. -/
def number_ok (dict : keyvalue_t) : Prop := keyvalue_get_string dict "Number".toList ≠ []

/-- The check of a numeric card field: the field is not empty and the
integer that `atoi` reads from it lies between `lo` and `hi`. -/
def int_field_ok (dict : keyvalue_t) (key : CStr) (lo hi : Int) : Prop :=
  keyvalue_get_string dict key ≠ [] ∧ lo ≤ atoi (keyvalue_get_string dict key) ∧
    atoi (keyvalue_get_string dict key) ≤ hi

/-- The checks of `Exp-Year`, `Exp-Month` and `Cvc`. -/
def expiry_cvc_ok (dict : keyvalue_t) : Prop :=
  int_field_ok dict "Exp-Year".toList 2014 2199 ∧ int_field_ok dict "Exp-Month".toList 1 12 ∧
    int_field_ok dict "Cvc".toList 100 9999

/-- All four checks of `stripe_create_card_token`. -/
def card_valid (dict : keyvalue_t) : Prop := number_ok dict ∧ expiry_cvc_ok dict

instance (dict : keyvalue_t) : Decidable (number_ok dict) := by
  unfold number_ok; infer_instance

instance (dict : keyvalue_t) (key : CStr) (lo hi : Int) : Decidable (int_field_ok dict key lo hi) := by
  unfold int_field_ok; infer_instance

instance (dict : keyvalue_t) : Decidable (expiry_cvc_ok dict) := by
  unfold expiry_cvc_ok; infer_instance

instance (dict : keyvalue_t) : Decidable (card_valid dict) := by
  unfold card_valid; infer_instance

/-- The dictionary after the four card fields were deleted. -/
def card_fields_deleted (dict : keyvalue_t) : keyvalue_t :=
  (keyvalue_del true (keyvalue_del true (keyvalue_del true
    (keyvalue_del true dict (some "Number".toList)).2 (some "Exp-Year".toList)).2
    (some "Exp-Month".toList)).2 (some "Cvc".toList)).2

/-- The card of the example: number 4242424242424242, expiring 12/2030, CVC
123. -/
def sample_card : keyvalue_t :=
  [⟨"Number".toList, some "4242424242424242".toList⟩, ⟨"Exp-Year".toList, some "2030".toList⟩,
   ⟨"Exp-Month".toList, some "12".toList⟩, ⟨"Cvc".toList, some "123".toList⟩]

/-- The body of the example reply: id `tok_1`, livemode false, card.last4
`4242`. -/
def sample_token_json : cjson :=
  .object [("id".toList, .string "tok_1".toList), ("livemode".toList, .bool false),
    ("card".toList, .object [("last4".toList, .string "4242".toList)])]

/-- An environment in which every allocation succeeds and the gateway
answers every request with status 200 and the example body. -/
def sample_stripe_env : stripe_env :=
  { mem := fun _ => true,
    http := fun _ _ => { err := GPG_ERR_NO_ERROR, status := 200, body := .ok sample_token_json } }

/-- An environment in which every allocation succeeds and the gateway
answers every request with the given status and body. -/
def reply_env (status : Nat) (json : cjson) : stripe_env :=
  { mem := fun _ => true,
    http := fun _ _ => { err := GPG_ERR_NO_ERROR, status := status, body := .ok json } }

/-- A reply body whose `livemode` is a string. -/
def bad_token_json : cjson :=
  .object [("id".toList, .string "tok_1".toList), ("livemode".toList, .string "no".toList),
    ("card".toList, .object [("last4".toList, .string "4242".toList)])]

/-- The card of the example with the expiry year 2000. -/
def year_2000_card : keyvalue_t :=
  [⟨"Number".toList, some "4242424242424242".toList⟩, ⟨"Exp-Year".toList, some "2000".toList⟩,
   ⟨"Exp-Month".toList, some "12".toList⟩, ⟨"Cvc".toList, some "123".toList⟩]

/-- The checks of `stripe_charge_card`: `Currency`, `_amount` and
`Card-Token` are present and not empty. -/
def charge_valid (dict : keyvalue_t) : Prop :=
  keyvalue_get_string dict "Currency".toList ≠ [] ∧
    keyvalue_get_string dict "_amount".toList ≠ [] ∧
    keyvalue_get_string dict "Card-Token".toList ≠ []

instance (dict : keyvalue_t) : Decidable (charge_valid dict) := by
  unfold charge_valid; infer_instance

/-- The value of `failure` for an error object with the given `type` and
`code`. -/
def failure_for (type code : CStr) : CStr :=
  if type = "invalid_request_error".toList then "invalid request to stripe".toList
  else if type = "api_error".toList then "bad request to stripe".toList
  else if type = "card_error".toList then (if code ≠ [] then code else "card error".toList)
  else "unknown error".toList

/-- The record `after` is the record `before` with the failure of an error
object reported in it: `failure` is set by type and code, `failure-mesg` is
the message for a `card_error` with a message that is not empty and is
untouched otherwise, and no other field differs. -/
def failure_reported (before after : keyvalue_t) (type code mesg : CStr) : Prop :=
  keyvalue_get after "failure".toList = some (failure_for type code) ∧
  keyvalue_get after "failure-mesg".toList =
    (if type = "card_error".toList ∧ mesg ≠ [] then some mesg
     else keyvalue_get before "failure-mesg".toList) ∧
  ∀ key : CStr, key ≠ "failure".toList → key ≠ "failure-mesg".toList →
    keyvalue_get after key = keyvalue_get before key

/-- The charge of the example: 500 of the smallest unit of EUR on the card
token `tok_1`. -/
def sample_charge : keyvalue_t :=
  [⟨"Currency".toList, some "EUR".toList⟩, ⟨"_amount".toList, some "500".toList⟩,
   ⟨"Card-Token".toList, some "tok_1".toList⟩]

/-- The body of the example error reply: a declined card. -/
def declined_json : cjson :=
  .object [("error".toList, .object [("type".toList, .string "card_error".toList),
    ("code".toList, .string "card_declined".toList),
    ("message".toList, .string "Your card was declined.".toList)])]

/-- The body of a successful charge: id `ch_1`, live mode, 500 eur, no
settlement transaction and no card. -/
def sample_charge_json : cjson :=
  .object [("id".toList, .string "ch_1".toList), ("livemode".toList, .bool true),
    ("currency".toList, .string "eur".toList), ("amount".toList, .number 500)]

/-- A reply body that has an `id` and a `balance_transaction` but no
`livemode`. -/
def partial_charge_json : cjson :=
  .object [("id".toList, .string "ch_1".toList),
    ("balance_transaction".toList, .string "txn_1".toList)]

/-! ## The record by key: tombstones and removal -/

/-- One operation of the record, by key. -/
inductive RecordOp where
  | Put (key : CStr) (value : Option CStr)
  | Putf (key : CStr) (formatted : CStr)
  | Delete (key : CStr)
  | AppendLine (key : CStr) (text : CStr)
  | StripNewlines (key : CStr)
  | Snatch (key : CStr)
deriving DecidableEq, Repr

/-- Modelled from the spec: the callers of `keyvalue_append_with_nl` and
`keyvalue_remove_nl` are not among the sources, so the choice between the
functions is taken from the spec's words.  The list after one operation by
key, all allocations succeeding: Put, Putf, Delete and Snatch are the
source's functions; AppendLine calls `keyvalue_append_with_nl` on the node
of the key if the value is present and is Put otherwise; StripNewlines calls
`keyvalue_remove_nl` on the node that `keyvalue_find` returns. -/
def RecordOp.apply (list : keyvalue_t) : RecordOp → keyvalue_t
  | .Put key value => (keyvalue_put true list (some key) value).2
  | .Putf key formatted => (keyvalue_putf true list (some key) (some formatted)).2
  | .Delete key => (keyvalue_del true list (some key)).2
  | .AppendLine key text =>
    match keyvalue_get list key, keyvalue_find list key with
    | some _, some kv => Op.apply list (.append_with_nl true kv text)
    | _, _ => (keyvalue_put true list (some key) (some text)).2
  | .StripNewlines key => Op.apply list (.remove_nl (keyvalue_find list key))
  | .Snatch key => (keyvalue_snatch list key).2

/-- The list after a sequence of operations by key, first operation first. -/
def record_run (ops : List RecordOp) (list : keyvalue_t) : keyvalue_t :=
  ops.foldl RecordOp.apply list

/-- Modelled from the spec: a record that removes the entry on Delete.  It
holds the entries with a present value only. -/
abbrev removal_record := List (CStr × CStr)

/-- Modelled from the spec: Get on the removal record. -/
def removal_get : removal_record → CStr → Option CStr
  | [], _ => none
  | e :: rest, key => if e.1 = key then some e.2 else removal_get rest key

/-- Modelled from the spec: the removal of the entry of `key`. -/
def removal_delete (r : removal_record) (key : CStr) : removal_record :=
  r.filter (fun e => e.1 ≠ key)

/-- Modelled from the spec: Put of a present value on the removal record,
insert or update; an empty key is refused. -/
def removal_put (r : removal_record) (key value : CStr) : removal_record :=
  if key = [] then r
  else
    match removal_get r key with
    | some _ => r.map (fun e => if e.1 = key then (e.1, value) else e)
    | none => (key, value) :: r

/-- Modelled from the spec: the removal record after one operation.  Put of
an absent value, Delete and Snatch remove the entry; AppendLine joins with a
newline when the value is present and is Put otherwise; StripNewlines drops
the newlines of the value. -/
def removal_apply (r : removal_record) : RecordOp → removal_record
  | .Put key (some value) => removal_put r key value
  | .Put key none => removal_delete r key
  | .Putf key formatted => removal_put r key formatted
  | .Delete key => removal_delete r key
  | .AppendLine key text =>
    match removal_get r key with
    | some old => removal_put r key (old ++ '\n' :: text)
    | none => removal_put r key text
  | .StripNewlines key =>
    match removal_get r key with
    | some old => removal_put r key (old.filter (fun c => c ≠ '\n'))
    | none => r
  | .Snatch key => removal_delete r key

/-- Modelled from the spec: the removal record after a sequence of
operations, first operation first. -/
def removal_run (ops : List RecordOp) (r : removal_record) : removal_record :=
  ops.foldl removal_apply r

/-- Modelled from the spec: GetString on the removal record, empty if
absent. -/
def removal_get_string (r : removal_record) (key : CStr) : CStr :=
  match removal_get r key with
  | some s => s
  | none => []

/-- Modelled from the spec: GetInt on the removal record, 0 if absent,
else the leading integer. -/
def removal_get_int (r : removal_record) (key : CStr) : Int :=
  match removal_get r key with
  | none => 0
  | some s => atoi s

/-- Modelled from the spec: what Snatch returns on the removal record, the
current value. -/
def removal_snatch (r : removal_record) (key : CStr) : Option CStr × removal_record :=
  (removal_get r key, removal_delete r key)

/-- Modelled from the spec: what Get returns after one operation by key, as
a function of what it returned before (`g`). -/
def get_after (g : CStr → Option CStr) : RecordOp → CStr → Option CStr
  | .Put k (some v), x => if k ≠ [] ∧ x = k then some v else g x
  | .Put k none, x => if x = k then none else g x
  | .Putf k f, x => if k ≠ [] ∧ x = k then some f else g x
  | .Delete k, x => if x = k then none else g x
  | .AppendLine k t, x =>
    match g k with
    | some old => if k ≠ [] ∧ x = k then some (old ++ '\n' :: t) else g x
    | none => if k ≠ [] ∧ x = k then some t else g x
  | .StripNewlines k, x =>
    match g k with
    | some old => if k ≠ [] ∧ x = k then some (old.filter (fun c => c ≠ '\n')) else g x
    | none => g x
  | .Snatch k, x => if x = k then none else g x

/-- The values the operation brings are C strings: they hold no NUL. -/
def RecordOp.cstrings : RecordOp → Bool
  | .Put _ (some v) => !v.contains NUL
  | .Putf _ f => !f.contains NUL
  | .AppendLine _ t => !t.contains NUL
  | _ => true

/-! ## memstr -/

/-- The inner loop of `memstr`, entered with `n` bytes of the buffer left at
position `t` and `s` the position in `sub`: it runs while `n && *t == *s`
and returns the final `s`.  `sub` is the memory at the pointer SUB: the
string, its terminating NUL and the bytes that follow it. -/
def memstr_inner (buffer sub : List Char) : Nat → Nat → Nat → Nat
  | 0, _, s => s
  | n + 1, t, s =>
    if buffer.getD t NUL = sub.getD s NUL then memstr_inner buffer sub n (t + 1) (s + 1)
    else s

/-- The outer loop of `memstr` with `n` bytes left at position `t`. -/
def memstr_loop (buffer sub : List Char) : Nat → Nat → Option Nat
  | 0, _ => none
  | n + 1, t =>
    if buffer.getD t NUL = sub.getD 0 NUL then
      if sub.getD (memstr_inner buffer sub n (t + 1) 1) NUL = NUL then some t
      else memstr_loop buffer sub n (t + 1)
    else memstr_loop buffer sub n (t + 1)

/-- Embedding of `memstr`: the position of the returned pointer in the
buffer, `none` for `NULL`. -/
def memstr (buffer : List Char) (buflen : Nat) (sub : List Char) : Option Nat :=
  memstr_loop buffer sub buflen 0

/-- The string `sub` occurs in the buffer at position `i`, wholly within the
first `buflen` bytes: byte `i + j` of the buffer is character `j` of `sub`. -/
def occurs_at (buffer : List Char) (buflen : Nat) (sub : CStr) (i : Nat) : Prop :=
  i + sub.length ≤ buflen ∧
    ∀ j, j < sub.length → buffer.getD (i + j) NUL = sub.getD j NUL

instance (buffer : List Char) (buflen : Nat) (sub : CStr) (i : Nat) :
    Decidable (occurs_at buffer buflen sub i) := by
  unfold occurs_at; infer_instance

/-- The words of the spec for a numeric field, an integer between `lo` and
`hi`: the string is not empty, holds decimal digits only, and the number they
spell lies in the range. -/
def integer_in_range (s : CStr) (lo hi : Int) : Prop :=
  s ≠ [] ∧ (∀ c ∈ s, isdigit c = true) ∧
    lo ≤ (atoi_digits 0 s : Int) ∧ (atoi_digits 0 s : Int) ≤ hi

instance (s : CStr) (lo hi : Int) : Decidable (integer_in_range s lo hi) := by
  unfold integer_in_range; infer_instance

/-- A card whose `Exp-Year` starts with the digits 2030 and goes on with
letters. -/
def year_2030abc_card : keyvalue_t :=
  [⟨"Number".toList, some "4242424242424242".toList⟩,
   ⟨"Exp-Year".toList, some "2030abc".toList⟩,
   ⟨"Exp-Month".toList, some "12".toList⟩, ⟨"Cvc".toList, some "123".toList⟩]

/-! ## Basic facts about the list functions -/

theorem keys_cons (kv : keyvalue_s) (next : keyvalue_t) :
    keys (kv :: next) = kv.name :: keys next := rfl

theorem find_eq_none_iff (list : keyvalue_t) (key : CStr) :
    keyvalue_find list key = none ↔ key ∉ keys list := by
  induction list with
  | nil => simp [keyvalue_find, keys]
  | cons kv next ih =>
    by_cases h : kv.name = key
    · simp [keyvalue_find, keys_cons, h]
    · have h2 : ¬ key = kv.name := fun e => h e.symm
      simp [keyvalue_find, keys_cons, h, h2, ih]

theorem find_lt_length (list : keyvalue_t) (key : CStr) (i : Nat)
    (h : keyvalue_find list key = some i) : i < list.length := by
  induction list generalizing i with
  | nil => simp [keyvalue_find] at h
  | cons kv next ih =>
    by_cases hn : kv.name = key
    · simp [keyvalue_find, hn] at h
      subst h
      simp
    · simp only [keyvalue_find, hn, if_false, Option.map_eq_some'] at h
      obtain ⟨j, hj, rfl⟩ := h
      have := ih j hj
      simp only [List.length_cons]
      omega

theorem get_eq_none_of_find (list : keyvalue_t) (key : CStr)
    (h : keyvalue_find list key = none) : keyvalue_get list key = none := by
  induction list with
  | nil => rfl
  | cons kv next ih =>
    by_cases hn : kv.name = key
    · simp [keyvalue_find, hn] at h
    · simp only [keyvalue_find, hn, if_false, Option.map_eq_none'] at h
      simp [keyvalue_get, hn, ih h]

theorem keys_set_value (list : keyvalue_t) (i : Nat) (buf : Option CStr) :
    keys (set_value list i buf) = keys list := by
  induction list generalizing i with
  | nil => rfl
  | cons kv next ih =>
    cases i with
    | zero => rfl
    | succ j => simp [set_value, keys_cons, ih]

theorem length_set_value (list : keyvalue_t) (i : Nat) (buf : Option CStr) :
    (set_value list i buf).length = list.length := by
  have h := congrArg List.length (keys_set_value list i buf)
  simpa [keys] using h

theorem get_set_value_found (list : keyvalue_t) (key : CStr) (i : Nat)
    (buf : Option CStr) (h : keyvalue_find list key = some i) :
    keyvalue_get (set_value list i buf) key = buf := by
  induction list generalizing i with
  | nil => simp [keyvalue_find] at h
  | cons kv next ih =>
    by_cases hn : kv.name = key
    · simp [keyvalue_find, hn] at h
      subst h
      simp [set_value, keyvalue_get, hn]
    · simp only [keyvalue_find, hn, if_false, Option.map_eq_some'] at h
      obtain ⟨j, hj, rfl⟩ := h
      simp [set_value, keyvalue_get, hn, ih j hj]

theorem get_set_value_other (list : keyvalue_t) (key other : CStr) (i : Nat)
    (buf : Option CStr) (h : keyvalue_find list key = some i) (hne : other ≠ key) :
    keyvalue_get (set_value list i buf) other = keyvalue_get list other := by
  induction list generalizing i with
  | nil => rfl
  | cons kv next ih =>
    by_cases hn : kv.name = key
    · simp [keyvalue_find, hn] at h
      subst h
      have : ¬ kv.name = other := fun e => hne (e.symm.trans hn)
      simp [set_value, keyvalue_get, this]
    · simp only [keyvalue_find, hn, if_false, Option.map_eq_some'] at h
      obtain ⟨j, hj, rfl⟩ := h
      simp [set_value, keyvalue_get, ih j hj]

/-- The result of `keyvalue_put` with a non-empty key and a present value
when the allocation succeeds. -/
theorem put_present_ok (list : keyvalue_t) (key v : CStr) (hk : key ≠ []) :
    keyvalue_put true list (some key) (some v) =
      (GPG_ERR_NO_ERROR,
        match keyvalue_find list key with
        | some kv => set_value list kv (some v)
        | none => { name := key, value := some v } :: list) := by
  unfold keyvalue_put
  cases hf : keyvalue_find list key <;> simp [hk, hf, xtrystrdup, keyvalue_create]

theorem entries_eq_zero (list : keyvalue_t) (key : CStr) (hm : key ∉ keys list) :
    entries list key = 0 := by
  induction list with
  | nil => rfl
  | cons kv next ih =>
    rw [keys_cons, List.mem_cons, not_or] at hm
    have hn : ¬ kv.name = key := fun e => hm.1 e.symm
    have := ih hm.2
    unfold entries at this ⊢
    simp [List.filter_cons, hn, this]

theorem entries_eq_one (list : keyvalue_t) (key : CStr) (hu : unique_keys list)
    (hm : key ∈ keys list) : entries list key = 1 := by
  induction list with
  | nil => simp [keys] at hm
  | cons kv next ih =>
    unfold unique_keys at hu
    rw [keys_cons, List.nodup_cons] at hu
    by_cases hn : kv.name = key
    · have h0 := entries_eq_zero next key (hn ▸ hu.1)
      unfold entries at h0 ⊢
      simp [List.filter_cons, hn, h0]
    · rw [keys_cons, List.mem_cons] at hm
      have hm2 : key ∈ keys next := hm.resolve_left (fun e => hn e.symm)
      have := ih hu.2 hm2
      unfold entries at this ⊢
      simp [List.filter_cons, hn, this]

theorem keys_put_present (list : keyvalue_t) (key v : CStr) (hk : key ≠ []) :
    keys (keyvalue_put true list (some key) (some v)).2 =
      if key ∈ keys list then keys list else key :: keys list := by
  rw [put_present_ok list key v hk]
  cases hf : keyvalue_find list key with
  | none =>
    have hm : key ∉ keys list := (find_eq_none_iff list key).1 hf
    simp [hm, keys_cons]
  | some i =>
    have hm : key ∈ keys list := by
      by_contra hc
      rw [← find_eq_none_iff, hf] at hc
      cases hc
    simp [hm, keys_set_value]

theorem get_put_present (list : keyvalue_t) (key v : CStr) (hk : key ≠ []) :
    keyvalue_get (keyvalue_put true list (some key) (some v)).2 key = some v := by
  rw [put_present_ok list key v hk]
  cases hf : keyvalue_find list key with
  | none => simp [keyvalue_get]
  | some i => exact get_set_value_found list key i (some v) hf

theorem get_put_present_other (list : keyvalue_t) (key other v : CStr) (hk : key ≠ [])
    (hne : other ≠ key) :
    keyvalue_get (keyvalue_put true list (some key) (some v)).2 other =
      keyvalue_get list other := by
  rw [put_present_ok list key v hk]
  cases hf : keyvalue_find list key with
  | none =>
    have : ¬ key = other := fun e => hne e.symm
    simp [keyvalue_get, this]
  | some i => exact get_set_value_other list key other i (some v) hf hne

/-! ## Put and Get -/

/-- C1. For a record with at most one entry per key, a non-empty key `k` and
present values: `Put(k, v1)` succeeds (allocation permitting), `Get(k)` then
returns `v1`, and `Get` of every other key returns what it returned before;
after a following `Put(k, v2)` the record has exactly one entry for `k` and
`Get(k)` returns `v2`. -/
theorem put_get (list : keyvalue_t) (k v1 v2 : CStr) (hk : k ≠ [])
    (hu : unique_keys list) :
    (keyvalue_put true list (some k) (some v1)).1 = GPG_ERR_NO_ERROR ∧
    keyvalue_get (keyvalue_put true list (some k) (some v1)).2 k = some v1 ∧
    (∀ other : CStr, other ≠ k →
      keyvalue_get (keyvalue_put true list (some k) (some v1)).2 other =
        keyvalue_get list other) ∧
    (keyvalue_put true (keyvalue_put true list (some k) (some v1)).2 (some k) (some v2)).1
      = GPG_ERR_NO_ERROR ∧
    entries (keyvalue_put true (keyvalue_put true list (some k) (some v1)).2
      (some k) (some v2)).2 k = 1 ∧
    keyvalue_get (keyvalue_put true (keyvalue_put true list (some k) (some v1)).2
      (some k) (some v2)).2 k = some v2 := by
  refine ⟨by rw [put_present_ok list k v1 hk], get_put_present list k v1 hk,
    fun other hne => get_put_present_other list k other v1 hk hne,
    by rw [put_present_ok _ k v2 hk], ?_, get_put_present _ k v2 hk⟩
  have h1 := keys_put_present list k v1 hk
  have h2 := keys_put_present (keyvalue_put true list (some k) (some v1)).2 k v2 hk
  have hmem : k ∈ keys (keyvalue_put true list (some k) (some v1)).2 := by
    rw [h1]; split <;> simp [*]
  have hnd : (keys (keyvalue_put true list (some k) (some v1)).2).Nodup := by
    rw [h1]
    split
    · exact hu
    · exact List.nodup_cons.2 ⟨by assumption, hu⟩
  rw [if_pos hmem] at h2
  apply entries_eq_one
  · unfold unique_keys
    rw [h2]
    exact hnd
  · rw [h2]
    exact hmem

/-- Witness for C1: two puts of the key `a` into a record holding `b`. -/
theorem put_get_witness :
    ['a'] ≠ [] ∧ unique_keys [⟨['b'], some ['0']⟩] ∧
    entries (keyvalue_put true (keyvalue_put true [⟨['b'], some ['0']⟩]
      (some ['a']) (some ['1'])).2 (some ['a']) (some ['2'])).2 ['a'] = 1 ∧
    keyvalue_get (keyvalue_put true (keyvalue_put true [⟨['b'], some ['0']⟩]
      (some ['a']) (some ['1'])).2 (some ['a']) (some ['2'])).2 ['a'] = some ['2'] :=
  ⟨by decide, by decide,
    (put_get [⟨['b'], some ['0']⟩] ['a'] ['1'] ['2'] (by decide) (by decide)).2.2.2.2⟩

/-! ## The invariant: at most one entry per key -/

theorem keys_step_put (mem : Bool) (list : keyvalue_t) (key value : Option CStr) :
    keys_step list (keyvalue_put mem list key value).2 key := by
  unfold keyvalue_put
  cases key with
  | none => exact Or.inl rfl
  | some k =>
    by_cases hk : k = []
    · simp only [hk, if_true]; exact Or.inl rfl
    · simp only [hk, if_false]
      cases hf : keyvalue_find list k with
      | some i =>
        cases value with
        | none => exact Or.inl (keys_set_value _ _ _)
        | some v =>
          cases mem
          · exact Or.inl rfl
          · exact Or.inl (keys_set_value _ _ _)
      | none =>
        cases value with
        | none => exact Or.inl rfl
        | some v =>
          cases mem
          · exact Or.inl rfl
          · exact Or.inr ⟨k, rfl, hk, (find_eq_none_iff list k).1 hf, rfl⟩

theorem keys_step_putf (mem : Bool) (list : keyvalue_t) (key formatted : Option CStr) :
    keys_step list (keyvalue_putf mem list key formatted).2 key := by
  unfold keyvalue_putf
  cases key with
  | none => exact Or.inl rfl
  | some k =>
    by_cases hk : k = []
    · simp only [hk, if_true]; exact Or.inl rfl
    · simp only [hk, if_false]
      cases formatted with
      | none => exact Or.inl rfl
      | some v => exact keys_step_put mem list (some k) (some v)

/-- With an absent value `keyvalue_put` keeps the number of nodes. -/
theorem length_put_absent (mem : Bool) (list : keyvalue_t) (key : Option CStr) :
    (keyvalue_put mem list key none).2.length = list.length := by
  unfold keyvalue_put
  cases key with
  | none => rfl
  | some k =>
    by_cases hk : k = []
    · simp only [hk, if_true]
    · simp only [hk, if_false]
      cases hf : keyvalue_find list k with
      | some i => exact length_set_value _ _ _
      | none => rfl

/-- The caller of `keyvalue_del` sees exactly the list `keyvalue_put` left. -/
theorem del_eq_put (mem : Bool) (list : keyvalue_t) (key : Option CStr) :
    keyvalue_del mem list key = keyvalue_put mem list key none := by
  unfold keyvalue_del caller_view
  simp [length_put_absent]

theorem keys_snatch (list : keyvalue_t) (key : CStr) :
    keys (keyvalue_snatch list key).2 = keys list := by
  induction list with
  | nil => rfl
  | cons kv next ih =>
    by_cases hn : kv.name = key
    · simp [keyvalue_snatch, hn, keys_cons]
    · simp [keyvalue_snatch, hn, keys_cons, ih]

theorem keys_set_same (list : keyvalue_t) (i : Nat) (node old : keyvalue_s)
    (h : list[i]? = some old) (hn : node.name = old.name) :
    keys (list.set i node) = keys list := by
  induction list generalizing i with
  | nil => rfl
  | cons kv next ih =>
    cases i with
    | zero =>
      simp at h
      subst h
      simp [keys_cons, hn]
    | succ j =>
      simp at h
      simp [keys_cons, ih j h]

theorem name_append_with_nl (mem : Bool) (kv : keyvalue_s) (value : CStr) :
    (keyvalue_append_with_nl mem kv value).2.name = kv.name := by
  unfold keyvalue_append_with_nl
  split <;> rfl

theorem name_remove_nl (kv node : keyvalue_s)
    (h : keyvalue_remove_nl (some kv) = some node) : node.name = kv.name := by
  unfold keyvalue_remove_nl at h
  cases hv : kv.value with
  | none => simp [hv] at h; rw [← h]
  | some v => simp [hv] at h; rw [← h]

theorem keys_step_apply (list : keyvalue_t) (op : Op) :
    keys_step list (op.apply list) op.key := by
  cases op with
  | put mem key value => exact keys_step_put mem list key value
  | putf mem key formatted => exact keys_step_putf mem list key formatted
  | del mem key =>
    show keys_step list (keyvalue_del mem list key).2 none
    rw [del_eq_put]
    rcases keys_step_put mem list key none with h | ⟨k, _, _, hk, h⟩
    · exact Or.inl h
    · have hl := congrArg List.length h
      simp only [keys, List.length_map, List.length_cons, length_put_absent] at hl
      omega
  | snatch key => exact Or.inl (keys_snatch list key)
  | append_with_nl mem kv value =>
    simp only [Op.apply]
    cases h : list[kv]? with
    | none => exact Or.inl rfl
    | some node => exact Or.inl (keys_set_same list kv _ node h (name_append_with_nl _ _ _))
  | remove_nl kv =>
    cases kv with
    | none => exact Or.inl rfl
    | some i =>
      simp only [Op.apply]
      cases h : list[i]? with
      | none => exact Or.inl rfl
      | some kv =>
        cases h2 : keyvalue_remove_nl (some kv) with
        | none => exact Or.inl rfl
        | some node => exact Or.inl (keys_set_same list i node kv h (name_remove_nl kv node h2))

theorem unique_keys_step (list list' : keyvalue_t) (key : Option CStr)
    (h : keys_step list list' key) (hu : unique_keys list) : unique_keys list' := by
  unfold unique_keys at hu ⊢
  rcases h with h | ⟨k, _, _, hk, h⟩
  · rw [h]; exact hu
  · rw [h]; exact List.nodup_cons.2 ⟨hk, hu⟩

theorem unique_keys_run (ops : List Op) (list : keyvalue_t) (hu : unique_keys list) :
    unique_keys (run ops list) := by
  induction ops generalizing list with
  | nil => exact hu
  | cons op rest ih =>
    exact ih (op.apply list) (unique_keys_step list _ _ (keys_step_apply list op) hu)

/-- C2. Every record reached from the empty record by any sequence of Put,
Putf, Delete, Snatch, AppendLine and StripNewlines calls, whatever their
arguments and whether or not their allocations succeed, has at most one
entry per key. -/
theorem unique_keys_reachable (ops : List Op) : unique_keys (run ops []) :=
  unique_keys_run ops [] List.nodup_nil

/-! ## Order of the entries -/

theorem put_all_fresh (kvs : List (CStr × CStr)) (list : keyvalue_t)
    (hne : ∀ p ∈ kvs, p.1 ≠ []) (hfresh : ∀ p ∈ kvs, p.1 ∉ keys list)
    (hd : (kvs.map (fun p => p.1)).Nodup) :
    put_all kvs list =
      (kvs.map (fun p => ({ name := p.1, value := some p.2 } : keyvalue_s))).reverse ++ list := by
  induction kvs generalizing list with
  | nil => rfl
  | cons p rest ih =>
    have hp : p.1 ≠ [] := hne p (List.mem_cons_self _ _)
    have hf : keyvalue_find list p.1 = none :=
      (find_eq_none_iff list p.1).2 (hfresh p (List.mem_cons_self _ _))
    have hstep : put_all (p :: rest) list =
        put_all rest ({ name := p.1, value := some p.2 } :: list) := by
      simp only [put_all, run, List.map_cons, List.foldl_cons, Op.apply]
      rw [put_present_ok list p.1 p.2 hp, hf]
    rw [List.map_cons, List.nodup_cons] at hd
    rw [hstep, ih _ (fun q hq => hne q (List.mem_cons_of_mem _ hq)) ?_ hd.2]
    · simp
    · intro q hq
      rw [keys_cons, List.mem_cons, not_or]
      refine ⟨?_, hfresh q (List.mem_cons_of_mem _ hq)⟩
      intro e
      have e2 : q.1 = p.1 := e
      exact hd.1 (e2 ▸ List.mem_map_of_mem (fun p => p.1) hq)

/-- C3, as stated, fails: `a` and `b` are distinct non-empty keys, and after
Put of `a` and then of `b` into the empty record the entries are listed in
the order `b`, `a`, not in the order `a`, `b` in which they were put. -/
theorem put_order_counterexample :
    (∀ p ∈ [((['a'] : CStr), (['1'] : CStr)), (['b'], ['2'])], p.1 ≠ []) ∧
    ([((['a'] : CStr), (['1'] : CStr)), (['b'], ['2'])].map (fun p => p.1)).Nodup ∧
    keys (put_all [(['a'], ['1']), (['b'], ['2'])] []) = [['b'], ['a']] ∧
    keys (put_all [(['a'], ['1']), (['b'], ['2'])] []) ≠
      [((['a'] : CStr), (['1'] : CStr)), (['b'], ['2'])].map (fun p => p.1) := by
  refine ⟨by decide, by decide, by decide, by decide⟩

/-- C3, amended. After Put of pairwise distinct non-empty keys `k1, ..., kn`
with present values into the empty record, the record lists its entries in
the reverse order `kn, ..., k1`, the newest first, each with the value put. -/
theorem put_order_reversed (kvs : List (CStr × CStr)) (hne : ∀ p ∈ kvs, p.1 ≠ [])
    (hd : (kvs.map (fun p => p.1)).Nodup) :
    put_all kvs [] =
      (kvs.map (fun p => ({ name := p.1, value := some p.2 } : keyvalue_s))).reverse ∧
    keys (put_all kvs []) = (kvs.map (fun p => p.1)).reverse := by
  have h := put_all_fresh kvs [] hne (fun _ _ => by simp [keys]) hd
  rw [List.append_nil] at h
  refine ⟨h, ?_⟩
  rw [h, keys, List.map_reverse, List.map_map]
  rfl

/-- Witness for C3 amended: the keys `a`, `b`, `c` put in this order are
listed as `c`, `b`, `a`. -/
theorem put_order_reversed_witness :
    keys (put_all [(['a'], ['1']), (['b'], ['2']), (['c'], ['3'])] []) =
      [['c'], ['b'], ['a']] :=
  (put_order_reversed [(['a'], ['1']), (['b'], ['2']), (['c'], ['3'])]
    (by decide) (by decide)).2

/-! ## Updates in place -/

theorem getElem?_set_value_ne (list : keyvalue_t) (i j : Nat) (buf : Option CStr)
    (h : j ≠ i) : (set_value list i buf)[j]? = list[j]? := by
  induction list generalizing i j with
  | nil => rfl
  | cons kv next ih =>
    cases i with
    | zero =>
      cases j with
      | zero => exact absurd rfl h
      | succ j => simp [set_value]
    | succ i =>
      cases j with
      | zero => simp [set_value]
      | succ j => simpa [set_value] using ih i j (fun e => h (by rw [e]))

/-- What `keyvalue_put` does when the key has a node: nothing but the
assignment to the value of that node, and not even that when the copy of the
value cannot be allocated. -/
theorem put_found (mem : Bool) (list : keyvalue_t) (k : CStr) (value : Option CStr)
    (i : Nat) (h : keyvalue_find list k = some i) :
    (keyvalue_put mem list (some k) value).2 = list ∨
      (keyvalue_put mem list (some k) value).2 = set_value list i value := by
  by_cases hk : k = []
  · exact Or.inl (by simp [keyvalue_put, hk])
  · unfold keyvalue_put
    simp only [hk, if_false, h]
    cases value with
    | none => exact Or.inr rfl
    | some v =>
      cases mem
      · exact Or.inl rfl
      · exact Or.inr rfl

/-- C4. Put(k, v) on a record whose first entry for `k` is at position `i`
(tombstoned or not), for every value `v`, present or absent: the sequence of
keys and the number of entries are unchanged, and every entry at a position
other than `i` is unchanged. -/
theorem put_existing_in_place (mem : Bool) (list : keyvalue_t) (k : CStr)
    (value : Option CStr) (i : Nat) (h : keyvalue_find list k = some i) :
    keys (keyvalue_put mem list (some k) value).2 = keys list ∧
    (keyvalue_put mem list (some k) value).2.length = list.length ∧
    ∀ j, j ≠ i → (keyvalue_put mem list (some k) value).2[j]? = list[j]? := by
  rcases put_found mem list k value i h with e | e <;> rw [e]
  · exact ⟨rfl, rfl, fun _ _ => rfl⟩
  · exact ⟨keys_set_value _ _ _, length_set_value _ _ _,
      fun j hj => getElem?_set_value_ne list i j value hj⟩

/-- Witness for C4: Put on the tombstoned key `b` of a three-entry record. -/
theorem put_existing_in_place_witness :
    keyvalue_find [⟨['a'], some ['1']⟩, ⟨['b'], none⟩, ⟨['c'], some ['3']⟩] ['b'] = some 1 ∧
    keys (keyvalue_put true [⟨['a'], some ['1']⟩, ⟨['b'], none⟩, ⟨['c'], some ['3']⟩]
      (some ['b']) (some ['2'])).2 = [['a'], ['b'], ['c']] :=
  ⟨by decide,
    (put_existing_in_place true [⟨['a'], some ['1']⟩, ⟨['b'], none⟩, ⟨['c'], some ['3']⟩]
      ['b'] (some ['2']) 1 (by decide)).1⟩

/-! ## Invalid keys -/

/-- C5. Put with an empty key (the empty string, or no string at all)
returns `GPG_ERR_INV_VALUE` and leaves the record unchanged, for every value,
present or absent; Put with a non-empty key never returns
`GPG_ERR_INV_VALUE`. -/
theorem put_empty_key (mem : Bool) (list : keyvalue_t) (value : Option CStr) :
    keyvalue_put mem list (some []) value = (GPG_ERR_INV_VALUE, list) ∧
    keyvalue_put mem list none value = (GPG_ERR_INV_VALUE, list) ∧
    ∀ k : CStr, k ≠ [] → (keyvalue_put mem list (some k) value).1 ≠ GPG_ERR_INV_VALUE := by
  refine ⟨rfl, rfl, ?_⟩
  intro k hk
  unfold keyvalue_put
  simp only [hk, if_false]
  cases keyvalue_find list k <;> cases value <;> cases mem <;>
    simp [xtrystrdup, keyvalue_create, gpg_error_from_syserror, gpg_error,
      gpg_err_code_from_syserror]

/-- Witness for C5: Put of the key `a` when the allocation fails returns an
error other than `GPG_ERR_INV_VALUE`. -/
theorem put_empty_key_witness :
    ['a'] ≠ [] ∧
    (keyvalue_put false [] (some ['a']) (some ['1'])).1 ≠ GPG_ERR_INV_VALUE :=
  ⟨by decide, (put_empty_key false [] (some ['1'])).2.2 ['a'] (by decide)⟩

/-! ## Delete -/

theorem not_mem_keys_run (ops : List Op) (list : keyvalue_t) (k : CStr)
    (h : k ∉ keys list) (hops : ∀ op ∈ ops, op.key ≠ some k) : k ∉ keys (run ops list) := by
  induction ops generalizing list with
  | nil => exact h
  | cons op rest ih =>
    apply ih (op.apply list) _ (fun o ho => hops o (List.mem_cons_of_mem _ ho))
    rcases keys_step_apply list op with e | ⟨k2, hk2, _, _, e⟩
    · rw [e]; exact h
    · rw [e, List.mem_cons, not_or]
      refine ⟨?_, h⟩
      intro ek
      exact hops op (List.mem_cons_self _ _) (by rw [hk2, ek])

theorem mem_keys_of_find (list : keyvalue_t) (k : CStr) (i : Nat)
    (h : keyvalue_find list k = some i) : k ∈ keys list := by
  by_contra hc
  rw [← find_eq_none_iff, h] at hc
  cases hc

/-- C6. Delete(k) leaves its caller exactly the record and return value of
Put(k, absent).  If `k` has an entry (first at position `i`) and is not the
empty key, Delete succeeds, Get(k) afterwards returns absent, the keys are
unchanged and so is every entry at another position; if `k` has no entry the
record is unchanged.  Get returns absent for a key without entry, and so for
a key that no Put or Putf of the calls made on the record named. -/
theorem del_spec (mem : Bool) (list : keyvalue_t) (key : Option CStr) (k : CStr) :
    keyvalue_del mem list key = keyvalue_put mem list key none ∧
    (∀ i, keyvalue_find list k = some i → (k ≠ [] ∨ [] ∉ keys list) →
      (keyvalue_del mem list (some k)).1 = GPG_ERR_NO_ERROR ∧
      keyvalue_get (keyvalue_del mem list (some k)).2 k = none ∧
      keys (keyvalue_del mem list (some k)).2 = keys list ∧
      (∀ j, j ≠ i → (keyvalue_del mem list (some k)).2[j]? = list[j]?) ∧
      (∀ other : CStr, other ≠ k →
        keyvalue_get (keyvalue_del mem list (some k)).2 other = keyvalue_get list other)) ∧
    (keyvalue_find list k = none → (keyvalue_del mem list (some k)).2 = list) ∧
    (keyvalue_find list k = none → keyvalue_get list k = none) ∧
    (∀ ops : List Op, (∀ op ∈ ops, op.key ≠ some k) → keyvalue_get (run ops []) k = none) := by
  refine ⟨del_eq_put mem list key, ?_, ?_, get_eq_none_of_find list k, ?_⟩
  · intro i hf hk
    have hne : k ≠ [] := by
      rcases hk with hk | hk
      · exact hk
      · intro e
        exact hk (e ▸ mem_keys_of_find list k i hf)
    have e : keyvalue_del mem list (some k) = (GPG_ERR_NO_ERROR, set_value list i none) := by
      rw [del_eq_put]
      simp [keyvalue_put, hne, hf]
    rw [e]
    exact ⟨rfl, get_set_value_found list k i none hf, keys_set_value _ _ _,
      fun j hj => getElem?_set_value_ne list i j none hj,
      fun other ho => get_set_value_other list k other i none hf ho⟩
  · intro hf
    rw [del_eq_put]
    by_cases hne : k = []
    · simp [keyvalue_put, hne]
    · simp [keyvalue_put, hne, hf]
  · intro ops hops
    apply get_eq_none_of_find
    rw [find_eq_none_iff]
    exact not_mem_keys_run ops [] k (by simp [keys]) hops

/-- Witness for C6: Delete of the key `b` in a two-entry record. -/
theorem del_spec_witness :
    keyvalue_find [⟨['a'], some ['1']⟩, ⟨['b'], some ['2']⟩] ['b'] = some 1 ∧
    keyvalue_get (keyvalue_del true [⟨['a'], some ['1']⟩, ⟨['b'], some ['2']⟩]
      (some ['b'])).2 ['b'] = none :=
  ⟨by decide,
    ((del_spec true [⟨['a'], some ['1']⟩, ⟨['b'], some ['2']⟩] none ['b']).2.1 1
      (by decide) (Or.inl (by decide))).2.1⟩

/-! ## AppendLine -/

theorem append_with_nl_present (name s text : CStr) :
    keyvalue_append_with_nl true { name := name, value := some s } text =
      (GPG_ERR_NO_ERROR, { name := name, value := some (s ++ '\n' :: text) }) := by
  simp [keyvalue_append_with_nl, strconcat, do_strconcat, do_strconcat_collect, DIM_argv]

/-- C7. AppendLine accumulates newline-joined segments in call order: on an
entry whose value is present and equal to `s0`, every call succeeds
(allocation permitting) and the calls with the texts `s1, ..., sn`, in this
order, leave the value `s0 + "\n" + s1 + ... + "\n" + sn` and the key
untouched, for every number of texts. -/
theorem append_lines_joined (name s0 : CStr) (texts : List CStr) :
    append_lines { name := name, value := some s0 } texts =
      { name := name, value := some (s0 ++ (texts.map (fun t => '\n' :: t)).flatten) } ∧
    ∀ s text : CStr,
      (keyvalue_append_with_nl true { name := name, value := some s } text).1
        = GPG_ERR_NO_ERROR := by
  refine ⟨?_, fun s text => by rw [append_with_nl_present]⟩
  induction texts generalizing s0 with
  | nil => simp [append_lines]
  | cons t rest ih =>
    have hstep : append_lines { name := name, value := some s0 } (t :: rest) =
        append_lines { name := name, value := some (s0 ++ '\n' :: t) } rest := by
      simp only [append_lines, List.foldl_cons, append_with_nl_present]
    rw [hstep, ih]
    simp

/-- C8. On an entry whose value is absent `keyvalue_append_with_nl` returns
success and leaves the empty string as value, so the appended text `abc` is
lost: Get returns the empty string, not `abc`.  The second part reaches the
absent value through Put, Delete and AppendLine on the empty record. -/
theorem append_with_nl_absent_loses_text :
    keyvalue_append_with_nl true { name := ['k'], value := none } ['a', 'b', 'c'] =
      (GPG_ERR_NO_ERROR, { name := ['k'], value := some [] }) ∧
    keyvalue_get (run [Op.put true (some ['k']) (some ['v']), Op.del true (some ['k']),
      Op.append_with_nl true 0 ['a', 'b', 'c']] []) ['k'] = some [] := by
  constructor <;> decide

/-! ## StripNewlines -/

theorem nl_ne_NUL : ¬ '\n' = NUL := by decide

theorem drop_eq_cons (buf : List Char) (s : Nat) (c : Char) (t : List Char)
    (h : buf.drop s = c :: t) : s < buf.length ∧ buf.getD s NUL = c ∧ buf.drop (s + 1) = t := by
  have hs : s < buf.length := by
    by_contra hc
    rw [List.drop_eq_nil_of_le (Nat.le_of_not_lt hc)] at h
    cases h
  rw [List.drop_eq_getElem_cons hs] at h
  injection h with h1 h2
  refine ⟨hs, ?_, h2⟩
  rw [List.getD_eq_getElem?_getD, List.getElem?_eq_getElem hs]
  exact h1

theorem take_succ_set (buf : List Char) (d : Nat) (c : Char) (h : d < buf.length) :
    (buf.set d c).take (d + 1) = buf.take d ++ [c] := by
  induction buf generalizing d with
  | nil => simp at h
  | cons a rest ih =>
    cases d with
    | zero => simp
    | succ d =>
      have hd : d < rest.length := by simpa using h
      simp [ih d hd]

/-- The copying loop, started at read position `s` and write position
`d ≤ s` of a buffer whose unread part is the NUL-free string `rest` and its
terminating NUL, appends to the `d` characters already written the
characters of `rest` other than newline, stays inside the buffer and does
not run out of fuel when given at least `rest.length`. -/
theorem remove_nl_loop_spec (rest : List Char) :
    ∀ (fuel : Nat) (buf : List Char) (s d : Nat), d ≤ s →
      buf.drop s = rest ++ [NUL] → NUL ∉ rest → rest.length ≤ fuel →
      (keyvalue_remove_nl_loop fuel buf s d).2 = d + (rest.filter (fun c => c ≠ '\n')).length ∧
      (keyvalue_remove_nl_loop fuel buf s d).1.take (keyvalue_remove_nl_loop fuel buf s d).2 =
        buf.take d ++ rest.filter (fun c => c ≠ '\n') ∧
      (keyvalue_remove_nl_loop fuel buf s d).1.length = buf.length ∧
      (keyvalue_remove_nl_loop fuel buf s d).2 < buf.length := by
  induction rest with
  | nil =>
    intro fuel buf s d hds hdrop _ _
    obtain ⟨hs, hget, _⟩ := drop_eq_cons buf s NUL [] hdrop
    have hr : keyvalue_remove_nl_loop fuel buf s d = (buf, d) := by
      cases fuel with
      | zero => rfl
      | succ f => simp only [keyvalue_remove_nl_loop, hget, if_true]
    rw [hr]
    exact ⟨by simp, by simp, rfl, by simp only; omega⟩
  | cons c rest ih =>
    intro fuel buf s d hds hdrop hnul hfuel
    obtain ⟨hs, hget, hdrop2⟩ := drop_eq_cons buf s c (rest ++ [NUL]) hdrop
    have hc : c ≠ NUL := fun e => hnul (e ▸ List.mem_cons_self _ _)
    have hnul2 : NUL ∉ rest := fun hm => hnul (List.mem_cons_of_mem _ hm)
    cases fuel with
    | zero => simp at hfuel
    | succ f =>
      have hf : rest.length ≤ f := by simpa using hfuel
      by_cases hnl : c = '\n'
      · have hr : keyvalue_remove_nl_loop (f + 1) buf s d =
            keyvalue_remove_nl_loop f buf (s + 1) d := by
          simp only [keyvalue_remove_nl_loop, hget]
          simp [hc, hnl, nl_ne_NUL]
        rw [hr]
        have := ih f buf (s + 1) d (by omega) hdrop2 hnul2 hf
        simpa [hnl] using this
      · have hr : keyvalue_remove_nl_loop (f + 1) buf s d =
            keyvalue_remove_nl_loop f (buf.set d c) (s + 1) (d + 1) := by
          simp only [keyvalue_remove_nl_loop, hget]
          simp [hc, hnl, nl_ne_NUL]
        rw [hr]
        have hdrop3 : (buf.set d c).drop (s + 1) = rest ++ [NUL] := by
          rw [List.drop_set_of_lt c buf (by omega : d < s + 1)]
          exact hdrop2
        have := ih f (buf.set d c) (s + 1) (d + 1) (by omega) hdrop3 hnul2 hf
        rw [take_succ_set buf d c (by omega), List.length_set] at this
        obtain ⟨h1, h2, h3, h4⟩ := this
        refine ⟨?_, ?_, h3, h4⟩
        · rw [h1]; simp [List.filter_cons, hnl]; omega
        · rw [h2]; simp [List.filter_cons, hnl]

theorem remove_nl_value (name v : CStr) (hv : NUL ∉ v) :
    keyvalue_remove_nl (some { name := name, value := some v }) =
      some { name := name, value := some (v.filter (fun c => c ≠ '\n')) } := by
  obtain ⟨h1, h2, h3, h4⟩ := remove_nl_loop_spec v (cstr_buffer v).length (cstr_buffer v) 0 0
    (Nat.le_refl 0) (by simp [cstr_buffer]) hv (by simp [cstr_buffer])
  simp only [keyvalue_remove_nl]
  congr 2
  rw [buffer_cstr, List.set_eq_take_append_cons_drop, if_pos (by rw [h3]; exact h4), h2]
  have hall : ∀ a ∈ v.filter (fun c => c ≠ '\n'), (fun c => decide (c ≠ NUL)) a = true := by
    intro a ha
    have : a ∈ v := (List.mem_filter.1 ha).1
    simp only [decide_eq_true_eq]
    intro e
    exact hv (e ▸ this)
  rw [List.take_zero, List.nil_append, List.takeWhile_append_of_pos hall]
  simp

/-- C9. StripNewlines removes every newline and nothing else: for every
present value `s` (a C string, so without NUL) the loop terminates and the
new value is exactly the characters of `s` other than newline in their
original order, a subsequence of `s` that contains no newline and whose
length is the length of `s` minus the number of newlines in `s`; the key is
untouched, an absent value stays absent and a null node is left alone. -/
theorem remove_nl_spec (name s : CStr) (hs : NUL ∉ s) :
    keyvalue_remove_nl (some { name := name, value := some s }) =
      some { name := name, value := some (s.filter (fun c => c ≠ '\n')) } ∧
    (s.filter (fun c => c ≠ '\n')).Sublist s ∧
    '\n' ∉ s.filter (fun c => c ≠ '\n') ∧
    (s.filter (fun c => c ≠ '\n')).length = s.length - s.countP (fun c => c = '\n') ∧
    keyvalue_remove_nl (some { name := name, value := none }) =
      some { name := name, value := none } ∧
    keyvalue_remove_nl none = none := by
  refine ⟨remove_nl_value name s hs, List.filter_sublist _, ?_, ?_, rfl, rfl⟩
  · simp [List.mem_filter]
  · have h := List.length_eq_countP_add_countP (fun c => decide (c = '\n')) s
    rw [List.countP_eq_length_filter, List.countP_eq_length_filter] at h
    rw [List.countP_eq_length_filter]
    have e : s.filter (fun c => decide (c ≠ '\n')) =
        s.filter (fun a => decide ¬ decide (a = '\n') = true) := by
      congr 1
      funext a
      simp
    rw [e]
    omega

/-- Witness for C9: the value `a\n\nb\n` becomes `ab`. -/
theorem remove_nl_spec_witness :
    NUL ∉ ['a', '\n', '\n', 'b', '\n'] ∧
    keyvalue_remove_nl (some { name := ['k'], value := some ['a', '\n', '\n', 'b', '\n'] }) =
      some { name := ['k'], value := some ['a', 'b'] } :=
  ⟨by decide, (remove_nl_spec ['k'] ['a', '\n', '\n', 'b', '\n'] (by decide)).1⟩

/-! ## Snatch -/

theorem snatch_eq (list : keyvalue_t) (k : CStr) :
    keyvalue_snatch list k =
      (keyvalue_get list k,
        match keyvalue_find list k with
        | some i => set_value list i none
        | none => list) := by
  induction list with
  | nil => rfl
  | cons kv next ih =>
    by_cases hn : kv.name = k
    · simp [keyvalue_snatch, keyvalue_get, keyvalue_find, hn, set_value]
    · rw [keyvalue_snatch, if_neg hn, ih]
      cases hf : keyvalue_find next k <;>
        simp [keyvalue_get, keyvalue_find, hn, hf, set_value]

/-- C10. Snatch(k) returns exactly what Get(k) returns on the record before
the call; a Get(k) right after it returns absent; the sequence of keys is
unchanged, every entry at a position other than the one of `k` is unchanged
(the whole record when `k` has no entry), and Get of every other key returns
what it returned before. -/
theorem snatch_spec (list : keyvalue_t) (k : CStr) :
    (keyvalue_snatch list k).1 = keyvalue_get list k ∧
    keyvalue_get (keyvalue_snatch list k).2 k = none ∧
    keys (keyvalue_snatch list k).2 = keys list ∧
    (∀ i, keyvalue_find list k = some i →
      ∀ j, j ≠ i → (keyvalue_snatch list k).2[j]? = list[j]?) ∧
    (keyvalue_find list k = none → (keyvalue_snatch list k).2 = list) ∧
    (∀ other : CStr, other ≠ k →
      keyvalue_get (keyvalue_snatch list k).2 other = keyvalue_get list other) := by
  rw [snatch_eq]
  cases hf : keyvalue_find list k with
  | none =>
    exact ⟨rfl, get_eq_none_of_find list k hf, rfl, fun i hi => (by cases hi),
      fun _ => rfl, fun _ _ => rfl⟩
  | some i =>
    refine ⟨rfl, get_set_value_found list k i none hf, keys_set_value _ _ _, ?_,
      fun h => (by cases h), fun other ho => get_set_value_other list k other i none hf ho⟩
    intro i2 hi2 j hj
    cases hi2
    exact getElem?_set_value_ne list i j none hj

/-- Witness for C10: Snatch of the key `a`, second of three entries. -/
theorem snatch_spec_witness :
    keyvalue_find [⟨['b'], some ['0']⟩, ⟨['a'], some ['1']⟩, ⟨['c'], none⟩] ['a'] = some 1 ∧
    (keyvalue_snatch [⟨['b'], some ['0']⟩, ⟨['a'], some ['1']⟩, ⟨['c'], none⟩] ['a']).2[0]?
      = some ⟨['b'], some ['0']⟩ :=
  ⟨by decide,
    (snatch_spec [⟨['b'], some ['0']⟩, ⟨['a'], some ['1']⟩, ⟨['c'], none⟩] ['a']).2.2.2.1 1
      (by decide) 0 (by decide)⟩

/-! ## The reference generator -/

theorem codes_first_mem (k : Nat) (h : k < 18) : codes.getD k NUL ∈ first_codes := by
  interval_cases k <;> decide

theorem codes_mem (k : Nat) (h : k < 28) : codes.getD k NUL ∈ codes := by
  interval_cases k <;> decide

theorem digit_char_mem (d : Nat) (h : d < 10) : Char.ofNat ('0'.toNat + d) ∈ digit_chars := by
  interval_cases d <;> decide

theorem digit_char_ne_zero (d : Nat) (h : d < 10) (h1 : 1 ≤ d) :
    Char.ofNat ('0'.toNat + d) ≠ '0' := by
  interval_cases d <;> decide

theorem atoi_two_digits (a b : Nat) (ha : a < 10) (hb : b < 10) :
    atoi [Char.ofNat ('0'.toNat + a), Char.ofNat ('0'.toNat + b)] = ((10 * a + b : Nat) : Int) := by
  interval_cases a <;> interval_cases b <;> rfl

theorem make_sepa_ref_eq (nonce : Fin 5 → Fin 256) :
    make_sepa_ref nonce =
      [codes.getD ((nonce 0).val % 18) NUL, codes.getD ((nonce 1).val % 28) NUL,
       codes.getD ((nonce 2).val % 28) NUL, codes.getD ((nonce 3).val % 28) NUL,
       codes.getD ((nonce 4).val % 28) NUL, '-',
       Char.ofNat ('0'.toNat + (10 + sepa_ref_n nonce % 90) / 10),
       Char.ofNat ('0'.toNat + (10 + sepa_ref_n nonce % 90) % 10)] := rfl

/-- C11. For every 5-byte draw the generated reference is the 8 characters
`AAAAA-NN`: the first is one of the 18 letters `ABCDEGHJKLNRSTWXYZ`, each of
the next four is one of the 28 symbols of `codes`, the sixth is `-`, and the
last two are decimal digits, the first of them not `0`, that spell a number
`nn` with `10 ≤ nn ≤ 99` (the number `atoi` reads from them). -/
theorem make_sepa_ref_format (nonce : Fin 5 → Fin 256) :
    ∃ (c0 c1 c2 c3 c4 d1 d0 : Char) (nn : Nat),
      make_sepa_ref nonce = [c0, c1, c2, c3, c4, '-', d1, d0] ∧
      c0 ∈ first_codes ∧ c1 ∈ codes ∧ c2 ∈ codes ∧ c3 ∈ codes ∧ c4 ∈ codes ∧
      d1 ∈ digit_chars ∧ d1 ≠ '0' ∧ d0 ∈ digit_chars ∧
      10 ≤ nn ∧ nn ≤ 99 ∧ atoi [d1, d0] = (nn : Int) ∧
      d1 = Char.ofNat ('0'.toNat + nn / 10) ∧ d0 = Char.ofNat ('0'.toNat + nn % 10) := by
  have hi : 10 ≤ 10 + sepa_ref_n nonce % 90 ∧ 10 + sepa_ref_n nonce % 90 ≤ 99 := by omega
  rw [make_sepa_ref_eq]
  generalize 10 + sepa_ref_n nonce % 90 = i at hi
  have h1 : i / 10 < 10 := by omega
  have h2 : 1 ≤ i / 10 := by omega
  have h0 : i % 10 < 10 := by omega
  refine ⟨_, _, _, _, _, _, _, i, rfl,
    codes_first_mem _ (Nat.mod_lt _ (by decide)), codes_mem _ (Nat.mod_lt _ (by decide)),
    codes_mem _ (Nat.mod_lt _ (by decide)), codes_mem _ (Nat.mod_lt _ (by decide)),
    codes_mem _ (Nat.mod_lt _ (by decide)), digit_char_mem _ h1, digit_char_ne_zero _ h1 h2,
    digit_char_mem _ h0, hi.1, hi.2, ?_, rfl, rfl⟩
  rw [atoi_two_digits _ _ h1 h0]
  congr 1
  omega

theorem codes_nodup : codes.Nodup := by decide

theorem codes_getD_inj (a b : Nat) (ha : a < 28) (hb : b < 28)
    (h : codes.getD a NUL = codes.getD b NUL) : a = b := by
  have hl : codes.length = 28 := rfl
  rw [List.getD_eq_getElem _ _ (by omega), List.getD_eq_getElem _ _ (by omega)] at h
  exact (List.Nodup.getElem_inj_iff codes_nodup).1 h

theorem prefix_of_injective : Function.Injective prefix_of := by
  intro i j h
  obtain ⟨i0, i1, i2, i3, i4⟩ := i
  obtain ⟨j0, j1, j2, j3, j4⟩ := j
  simp only [prefix_of, List.cons.injEq, and_true] at h
  obtain ⟨h0, h1, h2, h3, h4⟩ := h
  have e0 := codes_getD_inj _ _ (by omega) (by omega) h0
  have e1 := codes_getD_inj _ _ (by omega) (by omega) h1
  have e2 := codes_getD_inj _ _ (by omega) (by omega) h2
  have e3 := codes_getD_inj _ _ (by omega) (by omega) h3
  have e4 := codes_getD_inj _ _ (by omega) (by omega) h4
  simp only [Prod.mk.injEq]
  exact ⟨Fin.ext e0, Fin.ext e1, Fin.ext e2, Fin.ext e3, Fin.ext e4⟩

theorem take_make_sepa_ref (nonce : Fin 5 → Fin 256) :
    (make_sepa_ref nonce).take 5 =
      prefix_of (⟨(nonce 0).val % 18, Nat.mod_lt _ (by decide)⟩,
        ⟨(nonce 1).val % 28, Nat.mod_lt _ (by decide)⟩,
        ⟨(nonce 2).val % 28, Nat.mod_lt _ (by decide)⟩,
        ⟨(nonce 3).val % 28, Nat.mod_lt _ (by decide)⟩,
        ⟨(nonce 4).val % 28, Nat.mod_lt _ (by decide)⟩) := rfl

theorem take_make_sepa_ref_nonce_of (i : Fin 18 × Fin 28 × Fin 28 × Fin 28 × Fin 28) :
    (make_sepa_ref (nonce_of i)).take 5 = prefix_of i := by
  obtain ⟨i0, i1, i2, i3, i4⟩ := i
  rw [take_make_sepa_ref]
  simp only [prefix_of, nonce_of]
  simp [Nat.mod_eq_of_lt, i0.isLt, i1.isLt, i2.isLt, i3.isLt, i4.isLt]

theorem prefixes_eq :
    Finset.univ.image (fun nonce : Fin 5 → Fin 256 => (make_sepa_ref nonce).take 5) =
      Finset.univ.image prefix_of := by
  ext p
  simp only [Finset.mem_image, Finset.mem_univ, true_and]
  constructor
  · rintro ⟨nonce, rfl⟩
    exact ⟨_, (take_make_sepa_ref nonce).symm⟩
  · rintro ⟨i, rfl⟩
    exact ⟨nonce_of i, take_make_sepa_ref_nonce_of i⟩

theorem first_codes_index (c : Char) (h : c ∈ first_codes) :
    ∃ k : Fin 18, codes.getD k.val NUL = c := by
  obtain ⟨i, hi, rfl⟩ := List.mem_iff_getElem.1 h
  have hl : first_codes.length = 18 := rfl
  refine ⟨⟨i, by omega⟩, ?_⟩
  have hi2 : i < 18 := by omega
  simp only
  interval_cases i <;> rfl

theorem codes_index (c : Char) (h : c ∈ codes) : ∃ k : Fin 28, codes.getD k.val NUL = c := by
  obtain ⟨i, hi, rfl⟩ := List.mem_iff_getElem.1 h
  have hl : codes.length = 28 := rfl
  exact ⟨⟨i, by omega⟩, List.getD_eq_getElem _ _ hi⟩

/-- C12. The 28 symbols of `codes` are pairwise distinct; every combination
of one of the 18 first letters with four of the 28 symbols is the 5-character
prefix of the reference of some draw; and the set of the prefixes of all
5-byte draws has exactly `18 * 28 ^ 4 = 11063808` elements. -/
theorem sepa_ref_keyspace :
    codes.length = 28 ∧ codes.Nodup ∧
    (∀ c0 ∈ first_codes, ∀ c1 ∈ codes, ∀ c2 ∈ codes, ∀ c3 ∈ codes, ∀ c4 ∈ codes,
      ∃ nonce : Fin 5 → Fin 256, (make_sepa_ref nonce).take 5 = [c0, c1, c2, c3, c4]) ∧
    (Finset.univ.image
      (fun nonce : Fin 5 → Fin 256 => (make_sepa_ref nonce).take 5)).card = 18 * 28 ^ 4 ∧
    18 * 28 ^ 4 = 11063808 := by
  refine ⟨rfl, codes_nodup, ?_, ?_, by norm_num⟩
  · intro c0 h0 c1 h1 c2 h2 c3 h3 c4 h4
    obtain ⟨k0, rfl⟩ := first_codes_index c0 h0
    obtain ⟨k1, rfl⟩ := codes_index c1 h1
    obtain ⟨k2, rfl⟩ := codes_index c2 h2
    obtain ⟨k3, rfl⟩ := codes_index c3 h3
    obtain ⟨k4, rfl⟩ := codes_index c4 h4
    exact ⟨nonce_of (k0, k1, k2, k3, k4), take_make_sepa_ref_nonce_of _⟩
  · rw [prefixes_eq, Finset.card_image_of_injective _ prefix_of_injective]
    simp [Fintype.card_prod, Fintype.card_fin]

/-- Witness for C12: the prefix `Z9A0K` is produced by some draw. -/
theorem sepa_ref_keyspace_witness :
    'Z' ∈ first_codes ∧ '9' ∈ codes ∧ 'A' ∈ codes ∧ '0' ∈ codes ∧ 'K' ∈ codes ∧
    ∃ nonce : Fin 5 → Fin 256, (make_sepa_ref nonce).take 5 = ['Z', '9', 'A', '0', 'K'] :=
  ⟨by decide, by decide, by decide, by decide, by decide,
    sepa_ref_keyspace.2.2.1 'Z' (by decide) '9' (by decide) 'A' (by decide)
      '0' (by decide) 'K' (by decide)⟩

/-! ## The preorder store: how a call ends -/

theorem SEPA_Ref_ne_nil : SEPA_Ref ≠ [] := by decide

theorem put_present_fail (list : keyvalue_t) (key v : CStr) (hk : key ≠ []) :
    keyvalue_put false list (some key) (some v) = (GPG_ERR_ENOMEM, list) := by
  unfold keyvalue_put
  cases hf : keyvalue_find list key <;>
    simp [hk, hf, xtrystrdup, keyvalue_create, gpg_error_from_syserror, gpg_error,
      gpg_err_code_from_syserror]

theorem rows_upto_succ (env : store_env) (dict : keyvalue_t) (n : Nat) :
    rows_upto env dict (n + 1) = rows_upto env dict n ++ [row_at env dict n] := by
  simp [rows_upto, List.range_succ]

theorem length_rows_upto (env : store_env) (dict : keyvalue_t) (n : Nat) :
    (rows_upto env dict n).length = n := by
  simp [rows_upto]

theorem getElem?_rows_upto (env : store_env) (dict : keyvalue_t) (n k : Nat)
    (row : preorder_row) (h : (rows_upto env dict n)[k]? = some row) :
    k < n ∧ row = row_at env dict k := by
  unfold rows_upto at h
  rw [List.getElem?_map] at h
  by_cases hk : k < n
  · rw [List.getElem?_range hk] at h
    simp at h
    exact ⟨hk, h.symm⟩
  · rw [List.getElem?_eq_none (by simpa using hk)] at h
    simp at h

/-- The pass with `retrycount = k`, started on `dict_at env dict k`. -/
theorem pass_eq (env : store_env) (dict : keyvalue_t) (k : Nat) :
    insert_preorder_record_pass env k (dict_at env dict k) =
      if env.mem k = false then .returned GPG_ERR_ENOMEM (dict_at env dict k) none
      else if bind_all (env.bind k) ≠ 0 then
        .returned GPG_ERR_GENERAL (dict_at env dict (k + 1)) none
      else if env.step k (row_at env dict k) = SQLITE_DONE then
        .returned GPG_ERR_NO_ERROR (dict_at env dict (k + 1)) (some (row_at env dict k))
      else if env.step k (row_at env dict k) = SQLITE_CONSTRAINT_PRIMARYKEY ∧ k + 1 < 11000 then
        .again (dict_at env dict (k + 1)) (row_at env dict k)
      else .returned GPG_ERR_GENERAL (dict_at env dict (k + 1)) (some (row_at env dict k)) := by
  unfold insert_preorder_record_pass
  cases hm : env.mem k
  · simp [put_present_fail _ _ _ SEPA_Ref_ne_nil]
  · simp only [put_present_ok _ _ _ SEPA_Ref_ne_nil]
    simp [dict_at, row_at, put_present_ok _ _ _ SEPA_Ref_ne_nil, gpg_error]

theorem retry_spec (env : store_env) (dict : keyvalue_t) :
    ∀ fuel rc, rc < 11000 → 11000 ≤ rc + fuel → (∀ j, j < rc → pass_collides env dict j) →
      ∃ r k, insert_preorder_record_retry env fuel rc (dict_at env dict rc)
          (rows_upto env dict rc) = some r ∧ insert_outcome env dict r k := by
  intro fuel
  induction fuel with
  | zero => intro rc h1 h2; omega
  | succ fuel ih =>
    intro rc h1 h2 hcol
    rw [insert_preorder_record_retry, pass_eq]
    by_cases hm : env.mem rc = false
    · rw [if_pos hm]
      exact ⟨_, rc, rfl, h1, hcol, Or.inl ⟨hm, by simp⟩⟩
    · rw [if_neg hm]
      have hm2 : env.mem rc = true := by simpa using hm
      by_cases hb : bind_all (env.bind rc) ≠ 0
      · rw [if_pos hb]
        exact ⟨_, rc, rfl, h1, hcol, Or.inr (Or.inl ⟨hm2, hb, by simp⟩)⟩
      · rw [if_neg hb]
        have hb2 : bind_all (env.bind rc) = 0 := by simpa using hb
        by_cases hd : env.step rc (row_at env dict rc) = SQLITE_DONE
        · rw [if_pos hd]
          exact ⟨_, rc, rfl, h1, hcol,
            Or.inr (Or.inr (Or.inl ⟨hm2, hb2, hd, by simp [rows_upto_succ]⟩))⟩
        · rw [if_neg hd]
          by_cases hp : env.step rc (row_at env dict rc) = SQLITE_CONSTRAINT_PRIMARYKEY ∧
              rc + 1 < 11000
          · rw [if_pos hp]
            simp only
            rw [← rows_upto_succ]
            apply ih (rc + 1) hp.2 (by omega)
            intro j hj
            by_cases hj2 : j < rc
            · exact hcol j hj2
            · have : j = rc := by omega
              subst this
              exact ⟨hm2, hb2, hp.1⟩
          · rw [if_neg hp]
            refine ⟨_, rc, rfl, h1, hcol,
              Or.inr (Or.inr (Or.inr ⟨hm2, hb2, hd, ?_, by simp [rows_upto_succ]⟩))⟩
            intro hpk
            by_contra hne
            exact hp ⟨hpk, by omega⟩

theorem insert_spec (env : store_env) (dict : keyvalue_t) :
    ∃ r k, insert_preorder_record env dict = some r ∧ insert_outcome env dict r k :=
  retry_spec env dict 11000 0 (by decide) (by decide) (fun j hj => by omega)

theorem open_preorder_db_cases (env : store_env) :
    open_preorder_db env = GPG_ERR_NO_ERROR ∨ open_preorder_db env = GPG_ERR_GENERAL := by
  unfold open_preorder_db gpg_error
  repeat' split
  all_goals simp

/-- Every call of `preorder_store_record` returns: either the database could
not be opened and nothing else happened, or `insert_preorder_record` ended in
one of its four ways. -/
theorem store_spec (env : store_env) (dict : keyvalue_t) :
    ∃ r, preorder_store_record env dict = some r ∧
      ((open_preorder_db env = GPG_ERR_GENERAL ∧
          r = { err := GPG_ERR_GENERAL, dict := dict, attempts := [] }) ∨
       (open_preorder_db env = GPG_ERR_NO_ERROR ∧ ∃ k, insert_outcome env dict r k)) := by
  unfold preorder_store_record
  rcases open_preorder_db_cases env with h | h
  · obtain ⟨r, k, hr, ho⟩ := insert_spec env dict
    exact ⟨r, by simp [h, hr], Or.inr ⟨h, k, ho⟩⟩
  · exact ⟨_, by simp [h], Or.inl ⟨h, rfl⟩⟩

theorem get_dict_at (env : store_env) (dict : keyvalue_t) (n : Nat) (key : CStr)
    (h : key ≠ SEPA_Ref) : keyvalue_get (dict_at env dict n) key = keyvalue_get dict key := by
  induction n with
  | zero => rfl
  | succ n ih =>
    rw [dict_at, get_put_present_other _ _ _ _ SEPA_Ref_ne_nil h, ih]

theorem get_dict_at_sepa (env : store_env) (dict : keyvalue_t) (k : Nat) :
    keyvalue_get (dict_at env dict (k + 1)) SEPA_Ref = some (make_sepa_ref (env.nonce k)) := by
  rw [dict_at, get_put_present _ _ _ SEPA_Ref_ne_nil]

/-- What every outcome says about the rows: there are at most 11000, the row
at position `j` is the row of pass `j`, and all rows but the last one
collided. -/
theorem outcome_attempts (env : store_env) (dict : keyvalue_t) (r : store_result) (k : Nat)
    (h : insert_outcome env dict r k) :
    (r.attempts = rows_upto env dict k ∨ r.attempts = rows_upto env dict (k + 1)) ∧
    r.attempts.length ≤ 11000 ∧
    (∀ j row, r.attempts[j]? = some row → row = row_at env dict j ∧ j ≤ k) ∧
    (∀ j, j < k → env.step j (row_at env dict j) = SQLITE_CONSTRAINT_PRIMARYKEY) := by
  obtain ⟨hk, hcol, hc⟩ := h
  have hatt : r.attempts = rows_upto env dict k ∨ r.attempts = rows_upto env dict (k + 1) := by
    rcases hc with ⟨_, rfl⟩ | ⟨_, _, rfl⟩ | ⟨_, _, _, rfl⟩ | ⟨_, _, _, _, rfl⟩
    · exact Or.inl rfl
    · exact Or.inl rfl
    · exact Or.inr rfl
    · exact Or.inr rfl
  refine ⟨hatt, ?_, ?_, fun j hj => (hcol j hj).2.2⟩
  · rcases hatt with e | e <;> rw [e, length_rows_upto] <;> omega
  · intro j row hj
    rcases hatt with e | e <;> rw [e] at hj <;>
      obtain ⟨h1, h2⟩ := getElem?_rows_upto env dict _ j row hj <;>
      exact ⟨h2, by omega⟩

/-- When every step collides and nothing else fails, the call ends with the
11000th row and the error `GPG_ERR_GENERAL`. -/
theorem always_colliding (env : store_env) (dict : keyvalue_t) (r : store_result) (k : Nat)
    (h : insert_outcome env dict r k) (hmem : ∀ j, env.mem j = true)
    (hbind : ∀ j, bind_all (env.bind j) = 0)
    (hstep : ∀ j row, env.step j row = SQLITE_CONSTRAINT_PRIMARYKEY) :
    r.err = GPG_ERR_GENERAL ∧ r.attempts = rows_upto env dict 11000 := by
  obtain ⟨hk, _, hc⟩ := h
  rcases hc with ⟨hm, _⟩ | ⟨_, hb, _⟩ | ⟨_, _, hd, _⟩ | ⟨_, _, _, hp, rfl⟩
  · rw [hmem k] at hm; cases hm
  · exact absurd (hbind k) hb
  · rw [hstep k] at hd; exact absurd hd (by decide)
  · have := hp (hstep k _)
    exact ⟨rfl, by simp only; rw [this]⟩

/-! ## The preorder store: retry loop -/

/-- C13. The retry loop of Store is bounded: for every behaviour of the
environment Store returns after at most 11000 insert attempts, and attempt
number `j` (counted from 0) uses the reference generated from the nonce drawn
in pass `j`.  When the insert step always reports a primary-key collision
(and the database opens, the allocations and the binds succeed) Store makes
exactly 11000 attempts and then fails. -/
theorem store_retry_bounded (env : store_env) (dict : keyvalue_t) :
    ∃ r, preorder_store_record env dict = some r ∧
      r.attempts.length ≤ 11000 ∧
      (∀ (j : Nat) (row : preorder_row), r.attempts[j]? = some row →
        row.ref = .text ((make_sepa_ref (env.nonce j)).take 5)) ∧
      (open_preorder_db env = GPG_ERR_NO_ERROR → (∀ j, env.mem j = true) →
        (∀ j, bind_all (env.bind j) = 0) →
        (∀ j row, env.step j row = SQLITE_CONSTRAINT_PRIMARYKEY) →
        r.err = GPG_ERR_GENERAL ∧ r.attempts.length = 11000) := by
  obtain ⟨r, hr, h⟩ := store_spec env dict
  refine ⟨r, hr, ?_⟩
  rcases h with ⟨ho, rfl⟩ | ⟨ho, k, hk⟩
  · refine ⟨by simp, fun j row hj => by simp at hj, fun ho2 => ?_⟩
    rw [ho] at ho2
    cases ho2
  · obtain ⟨_, hlen, hrow, _⟩ := outcome_attempts env dict r k hk
    refine ⟨hlen, fun j row hj => ?_, fun _ hmem hbind hstep => ?_⟩
    · rw [(hrow j row hj).1]
      rfl
    · obtain ⟨he, ha⟩ := always_colliding env dict r k hk hmem hbind hstep
      exact ⟨he, by rw [ha, length_rows_upto]⟩

/-- Witness for C13: with a step that always collides Store makes 11000
attempts. -/
theorem store_retry_bounded_witness :
    ∃ r, preorder_store_record (sample_env (fun _ _ => SQLITE_CONSTRAINT_PRIMARYKEY)) [] = some r ∧
      r.err = GPG_ERR_GENERAL ∧ r.attempts.length = 11000 := by
  obtain ⟨r, hr, _, _, h⟩ :=
    store_retry_bounded (sample_env (fun _ _ => SQLITE_CONSTRAINT_PRIMARYKEY)) []
  exact ⟨r, hr, h rfl (fun _ => rfl) (fun _ => rfl) (fun _ _ => rfl)⟩

/-- C14, as stated, fails: Store returns `GPG_ERR_GENERAL` when the retry cap
is exceeded (11000 collisions) and the same `GPG_ERR_GENERAL` when the first
insert fails with the result 1, which is no key collision. -/
theorem store_exhaustion_counterexample :
    (∃ r, preorder_store_record (sample_env (fun _ _ => SQLITE_CONSTRAINT_PRIMARYKEY)) []
        = some r ∧ r.attempts.length = 11000 ∧ r.err = GPG_ERR_GENERAL) ∧
    (∃ r, preorder_store_record (sample_env (fun _ _ => 1)) [] = some r ∧
        r.attempts.length = 1 ∧ r.err = GPG_ERR_GENERAL) := by
  constructor
  · obtain ⟨r, hr, h⟩ := store_spec (sample_env (fun _ _ => SQLITE_CONSTRAINT_PRIMARYKEY)) []
    rcases h with ⟨ho, _⟩ | ⟨_, k, hk⟩
    · cases ho
    · obtain ⟨he, ha⟩ := always_colliding _ _ r k hk (fun _ => rfl) (fun _ => rfl)
        (fun _ _ => rfl)
      exact ⟨r, hr, by rw [ha, length_rows_upto], he⟩
  · obtain ⟨r, hr, h⟩ := store_spec (sample_env (fun _ _ => 1)) []
    have h2 : (preorder_store_record (sample_env (fun _ _ => 1)) []).map
        (fun r => (r.attempts.length, r.err)) = some (1, GPG_ERR_GENERAL) := by decide
    rw [hr] at h2
    simp only [Option.map_some', Option.some.injEq, Prod.mk.injEq] at h2
    exact ⟨r, hr, h2.1, h2.2⟩

/-- C14, amended. When the retry cap is exceeded, that is when the attempt
number 11000 (position 10999) reports a primary-key collision, Store fails
with `GPG_ERR_GENERAL`; this is the same error outcome that it returns when
an attempt reports an insertion failure that is not a key collision. -/
theorem store_exhaustion_general (env : store_env) (dict : keyvalue_t) :
    ∃ r, preorder_store_record env dict = some r ∧
      (∀ row : preorder_row, r.attempts[10999]? = some row →
        env.step 10999 row = SQLITE_CONSTRAINT_PRIMARYKEY → r.err = GPG_ERR_GENERAL) ∧
      (∀ (j : Nat) (row : preorder_row), r.attempts[j]? = some row →
        env.step j row ≠ SQLITE_DONE →
        env.step j row ≠ SQLITE_CONSTRAINT_PRIMARYKEY → r.err = GPG_ERR_GENERAL) := by
  obtain ⟨r, hr, h⟩ := store_spec env dict
  refine ⟨r, hr, ?_⟩
  rcases h with ⟨ho, rfl⟩ | ⟨ho, k, hk⟩
  · exact ⟨fun row hj => by simp at hj, fun j row hj => by simp at hj⟩
  · obtain ⟨_, _, hrow, hcol⟩ := outcome_attempts env dict r k hk
    obtain ⟨hk1, _, hc⟩ := hk
    constructor
    · intro row hj hpk
      obtain ⟨e, hle⟩ := hrow _ row hj
      have hk2 : k = 10999 := by omega
      subst hk2
      subst e
      rcases hc with ⟨_, rfl⟩ | ⟨_, _, rfl⟩ | ⟨_, _, hd, _⟩ | ⟨_, _, _, _, rfl⟩
      · exact absurd hj (by rw [List.getElem?_eq_none (by rw [length_rows_upto])]; simp)
      · exact absurd hj (by rw [List.getElem?_eq_none (by rw [length_rows_upto])]; simp)
      · rw [hpk] at hd
        exact absurd hd (by decide)
      · rfl
    · intro j row hj hnd hnp
      obtain ⟨e, hle⟩ := hrow j row hj
      subst e
      have hjk : j = k := by
        by_contra hne
        exact hnp (hcol j (by omega))
      subst hjk
      rcases hc with ⟨_, rfl⟩ | ⟨_, _, rfl⟩ | ⟨_, _, hd, _⟩ | ⟨_, _, _, _, rfl⟩
      · exact absurd hj (by rw [List.getElem?_eq_none (by rw [length_rows_upto])]; simp)
      · exact absurd hj (by rw [List.getElem?_eq_none (by rw [length_rows_upto])]; simp)
      · exact absurd hd hnd
      · rfl

/-- Witness for C14 amended: a first insert failing with the result 1 makes
Store return `GPG_ERR_GENERAL`. -/
theorem store_exhaustion_general_witness :
    ∃ r, preorder_store_record (sample_env (fun _ _ => 1)) [] = some r ∧
      r.err = GPG_ERR_GENERAL := by
  obtain ⟨r, hr, _, h⟩ := store_exhaustion_general (sample_env (fun _ _ => 1)) []
  have h2 : (preorder_store_record (sample_env (fun _ _ => 1)) []).map
      (fun r => r.attempts[0]?) = some (some (row_at (sample_env (fun _ _ => 1)) [] 0)) := by
    decide
  rw [hr] at h2
  simp only [Option.map_some', Option.some.injEq] at h2
  exact ⟨r, hr, h 0 _ h2 (by decide) (by decide)⟩

/-- C15. An insertion failure that is not a primary-key collision is never
retried: when the attempt at position `j` (the attempt number `j + 1`)
reports a result other than success and other than a primary-key collision,
Store returns the error `GPG_ERR_GENERAL` and has made exactly `j + 1`
attempts. -/
theorem store_no_retry_on_failure (env : store_env) (dict : keyvalue_t) :
    ∃ r, preorder_store_record env dict = some r ∧
      ∀ (j : Nat) (row : preorder_row), r.attempts[j]? = some row →
        env.step j row ≠ SQLITE_DONE →
        env.step j row ≠ SQLITE_CONSTRAINT_PRIMARYKEY →
        r.err = GPG_ERR_GENERAL ∧ r.err ≠ GPG_ERR_NO_ERROR ∧ r.attempts.length = j + 1 := by
  obtain ⟨r, hr, h⟩ := store_spec env dict
  refine ⟨r, hr, ?_⟩
  rcases h with ⟨ho, rfl⟩ | ⟨ho, k, hk⟩
  · exact fun j row hj => by simp at hj
  · obtain ⟨_, _, hrow, hcol⟩ := outcome_attempts env dict r k hk
    obtain ⟨hk1, _, hc⟩ := hk
    intro j row hj hnd hnp
    obtain ⟨e, hle⟩ := hrow j row hj
    subst e
    have hjk : j = k := by
      by_contra hne
      exact hnp (hcol j (by omega))
    subst hjk
    rcases hc with ⟨_, rfl⟩ | ⟨_, _, rfl⟩ | ⟨_, _, hd, _⟩ | ⟨_, _, _, _, rfl⟩
    · exact absurd hj (by rw [List.getElem?_eq_none (by rw [length_rows_upto])]; simp)
    · exact absurd hj (by rw [List.getElem?_eq_none (by rw [length_rows_upto])]; simp)
    · exact absurd hd hnd
    · exact ⟨rfl, by simp, by rw [length_rows_upto]⟩

/-- Witness for C15: two collisions followed by the result 1 end Store after
three attempts. -/
theorem store_no_retry_on_failure_witness :
    ∃ r, preorder_store_record
        (sample_env (fun j _ => if j < 2 then SQLITE_CONSTRAINT_PRIMARYKEY else 1)) [] = some r ∧
      r.err = GPG_ERR_GENERAL ∧ r.attempts.length = 3 := by
  obtain ⟨r, hr, h⟩ := store_no_retry_on_failure
    (sample_env (fun j _ => if j < 2 then SQLITE_CONSTRAINT_PRIMARYKEY else 1)) []
  have h2 : (preorder_store_record
      (sample_env (fun j _ => if j < 2 then SQLITE_CONSTRAINT_PRIMARYKEY else 1)) []).map
      (fun r => r.attempts[2]?) = some (some (row_at
        (sample_env (fun j _ => if j < 2 then SQLITE_CONSTRAINT_PRIMARYKEY else 1)) [] 2)) := by
    decide
  rw [hr] at h2
  simp only [Option.map_some', Option.some.injEq] at h2
  have h3 := h 2 _ h2 (by decide) (by decide)
  exact ⟨r, hr, h3.1, h3.2.2⟩

/-! ## The preorder store: the inserted row and the record -/

theorem make_sepa_ref_parts (nonce : Fin 5 → Fin 256) :
    ∃ (ref : CStr) (nn : Nat),
      make_sepa_ref nonce =
        ref ++ ['-', Char.ofNat ('0'.toNat + nn / 10), Char.ofNat ('0'.toNat + nn % 10)] ∧
      ref.length = 5 ∧ 10 ≤ nn ∧ nn ≤ 99 ∧
      (make_sepa_ref nonce).take 5 = ref ∧ atoi ((make_sepa_ref nonce).drop 6) = (nn : Int) := by
  have hi : 10 ≤ 10 + sepa_ref_n nonce % 90 ∧ 10 + sepa_ref_n nonce % 90 ≤ 99 := by omega
  rw [make_sepa_ref_eq]
  generalize 10 + sepa_ref_n nonce % 90 = i at hi
  refine ⟨[codes.getD ((nonce 0).val % 18) NUL, codes.getD ((nonce 1).val % 28) NUL,
    codes.getD ((nonce 2).val % 28) NUL, codes.getD ((nonce 3).val % 28) NUL,
    codes.getD ((nonce 4).val % 28) NUL], i, rfl, rfl, hi.1, hi.2, rfl, ?_⟩
  show atoi [Char.ofNat ('0'.toNat + i / 10), Char.ofNat ('0'.toNat + i % 10)] = (i : Int)
  rw [atoi_two_digits _ _ (by omega) (by omega)]
  congr 1
  omega

theorem get_string_dict_at (env : store_env) (dict : keyvalue_t) (n : Nat) (key : CStr)
    (h : key ≠ SEPA_Ref) :
    keyvalue_get_string (dict_at env dict n) key = keyvalue_get_string dict key := by
  unfold keyvalue_get_string
  rw [get_dict_at env dict n key h]

/-- C16. When Store succeeds, after any number `k` of collisions, the row
given to the successful step is the last one, and the record's SEPA-Ref field
is the reference of that row: SEPA-Ref is `ref`, `-` and the two digits of
`nn`, where `ref` (5 characters) is the row's primary key and `nn` (between
10 and 99) its `refnn`; the row has `paid` null, `npaid` 0, `amount` the
GetString of `Amount`, `desc` the Get of `Desc` and `email` the Get of
`Email`, which are the same in the record before and after the call. -/
theorem store_success_row (env : store_env) (dict : keyvalue_t) :
    ∃ r, preorder_store_record env dict = some r ∧
      (r.err = GPG_ERR_NO_ERROR →
        ∃ (k : Nat) (row : preorder_row) (ref : CStr) (nn : Nat),
          r.attempts.length = k + 1 ∧ r.attempts[k]? = some row ∧
          env.step k row = SQLITE_DONE ∧
          (∀ (j : Nat) (other : preorder_row), j < k → r.attempts[j]? = some other →
            env.step j other = SQLITE_CONSTRAINT_PRIMARYKEY) ∧
          keyvalue_get r.dict SEPA_Ref =
            some (ref ++ ['-', Char.ofNat ('0'.toNat + nn / 10),
              Char.ofNat ('0'.toNat + nn % 10)]) ∧
          ref.length = 5 ∧ 10 ≤ nn ∧ nn ≤ 99 ∧
          row.ref = .text ref ∧ row.refnn = .integer (nn : Int) ∧
          row.paid = .null ∧ row.npaid = .integer 0 ∧
          row.amount = .text (keyvalue_get_string r.dict "Amount".toList) ∧
          row.desc = bind_text (keyvalue_get r.dict "Desc".toList) ∧
          row.email = bind_text (keyvalue_get r.dict "Email".toList) ∧
          keyvalue_get_string r.dict "Amount".toList = keyvalue_get_string dict "Amount".toList ∧
          keyvalue_get r.dict "Desc".toList = keyvalue_get dict "Desc".toList ∧
          keyvalue_get r.dict "Email".toList = keyvalue_get dict "Email".toList) := by
  obtain ⟨r, hr, h⟩ := store_spec env dict
  refine ⟨r, hr, fun herr => ?_⟩
  rcases h with ⟨ho, rfl⟩ | ⟨ho, k, hk⟩
  · cases herr
  · obtain ⟨_, _, hrow, hcol⟩ := outcome_attempts env dict r k hk
    obtain ⟨hk1, _, hc⟩ := hk
    rcases hc with ⟨_, rfl⟩ | ⟨_, _, rfl⟩ | ⟨_, _, hd, rfl⟩ | ⟨_, _, _, _, rfl⟩
    · cases herr
    · cases herr
    · obtain ⟨ref, nn, hfmt, hlen, h10, h99, htake, hatoi⟩ := make_sepa_ref_parts (env.nonce k)
      refine ⟨k, row_at env dict k, ref, nn, length_rows_upto _ _ _, ?_, hd, ?_, ?_, hlen, h10,
        h99, ?_, ?_, rfl, rfl, rfl, rfl, rfl,
        get_string_dict_at env dict _ _ (by decide), get_dict_at env dict _ _ (by decide),
        get_dict_at env dict _ _ (by decide)⟩
      · simp [rows_upto_succ, length_rows_upto]
      · intro j other hj hoth
        rw [(hrow j other hoth).1]
        exact hcol j hj
      · rw [get_dict_at_sepa, hfmt]
      · show bind_text (some ((make_sepa_ref (env.nonce k)).take 5)) = _
        rw [htake]
        rfl
      · show sqlite_value.integer (atoi ((make_sepa_ref (env.nonce k)).drop 6)) = _
        rw [hatoi]
    · cases herr

/-- Witness for C16: after two collisions the third reference is stored. -/
theorem store_success_row_witness :
    ∃ r, preorder_store_record
        (sample_env (fun j _ => if j < 2 then SQLITE_CONSTRAINT_PRIMARYKEY else SQLITE_DONE))
        [⟨"Amount".toList, some "10.00".toList⟩] = some r ∧
      r.err = GPG_ERR_NO_ERROR ∧
      ∃ (row : preorder_row), r.attempts[2]? = some row ∧ row.paid = .null := by
  obtain ⟨r, hr, h⟩ := store_success_row
    (sample_env (fun j _ => if j < 2 then SQLITE_CONSTRAINT_PRIMARYKEY else SQLITE_DONE))
    [⟨"Amount".toList, some "10.00".toList⟩]
  have h2 : (preorder_store_record
      (sample_env (fun j _ => if j < 2 then SQLITE_CONSTRAINT_PRIMARYKEY else SQLITE_DONE))
      [⟨"Amount".toList, some "10.00".toList⟩]).map
      (fun r => (r.err, r.attempts.length)) = some (GPG_ERR_NO_ERROR, 3) := by decide
  rw [hr] at h2
  simp only [Option.map_some', Option.some.injEq, Prod.mk.injEq] at h2
  obtain ⟨k, row, ref, nn, hlen, hrow, _, _, _, _, _, _, _, _, hpaid, _⟩ := h h2.1
  have hk : k = 2 := by omega
  subst hk
  exact ⟨r, hr, h2.1, row, hrow, hpaid⟩

/-- C17. Every row Store gives to the insert step has the currency `EUR`,
whatever the record holds, in its Currency field or elsewhere. -/
theorem store_currency_eur (env : store_env) (dict : keyvalue_t) :
    ∃ r, preorder_store_record env dict = some r ∧
      ∀ row ∈ r.attempts, row.currency = .text "EUR".toList := by
  obtain ⟨r, hr, h⟩ := store_spec env dict
  refine ⟨r, hr, ?_⟩
  rcases h with ⟨ho, rfl⟩ | ⟨ho, k, hk⟩
  · intro row hrow
    simp at hrow
  · obtain ⟨_, _, hrow, _⟩ := outcome_attempts env dict r k hk
    intro row hmem
    obtain ⟨j, hj⟩ := List.mem_iff_getElem?.1 hmem
    rw [(hrow j row hj).1]
    rfl

/-- Witness for C17: a record with Currency `USD` is stored with `EUR`. -/
theorem store_currency_eur_witness :
    ∃ r, preorder_store_record (sample_env (fun _ _ => SQLITE_DONE))
        [⟨"Currency".toList, some "USD".toList⟩] = some r ∧
      r.attempts.length = 1 ∧ ∀ row ∈ r.attempts, row.currency = .text "EUR".toList := by
  obtain ⟨r, hr, h⟩ := store_currency_eur (sample_env (fun _ _ => SQLITE_DONE))
    [⟨"Currency".toList, some "USD".toList⟩]
  have h2 : (preorder_store_record (sample_env (fun _ _ => SQLITE_DONE))
      [⟨"Currency".toList, some "USD".toList⟩]).map (fun r => r.attempts.length) = some 1 := by
    decide
  rw [hr] at h2
  simp only [Option.map_some', Option.some.injEq] at h2
  exact ⟨r, hr, h2, h⟩

/-- C18, as stated, fails: on the empty record, which has no SEPA-Ref, a
Store whose first insert fails with the result 1 returns `GPG_ERR_GENERAL`
and leaves the SEPA-Ref `AAAAA-10` in the record. -/
theorem store_failure_counterexample :
    keyvalue_get [] SEPA_Ref = none ∧
    (preorder_store_record (sample_env (fun _ _ => 1)) []).map
      (fun r => (r.err, keyvalue_get r.dict SEPA_Ref)) =
        some (GPG_ERR_GENERAL, some "AAAAA-10".toList) := by
  constructor <;> decide

/-- C18, amended. A failed Store changes nothing in the record but SEPA-Ref:
Get of every other key returns what it returned before the call.  When Store
returns `GPG_ERR_GENERAL` after the database was opened (a binding failure, an
insertion failure that is no collision, or the exceeded retry cap), the
record's SEPA-Ref field holds the reference generated in the last pass.  When
the database cannot be opened, or the copy of the first reference cannot be
allocated, the record is unchanged. -/
theorem store_failure_record (env : store_env) (dict : keyvalue_t) :
    ∃ r, preorder_store_record env dict = some r ∧
      (∀ key : CStr, key ≠ SEPA_Ref → keyvalue_get r.dict key = keyvalue_get dict key) ∧
      (open_preorder_db env = GPG_ERR_NO_ERROR → r.err = GPG_ERR_GENERAL →
        ∃ k, k < 11000 ∧ (r.attempts.length = k ∨ r.attempts.length = k + 1) ∧
          keyvalue_get r.dict SEPA_Ref = some (make_sepa_ref (env.nonce k))) ∧
      (open_preorder_db env ≠ GPG_ERR_NO_ERROR → r.err ≠ GPG_ERR_NO_ERROR ∧ r.dict = dict) ∧
      (env.mem 0 = false → r.err ≠ GPG_ERR_NO_ERROR ∧ r.dict = dict) := by
  obtain ⟨r, hr, h⟩ := store_spec env dict
  refine ⟨r, hr, ?_⟩
  rcases h with ⟨ho, rfl⟩ | ⟨ho, k, hk⟩
  · refine ⟨fun _ _ => rfl, fun ho2 => ?_, fun _ => ⟨by simp, rfl⟩, fun _ => ⟨by simp, rfl⟩⟩
    rw [ho] at ho2
    cases ho2
  · obtain ⟨hk1, hcol, hc⟩ := hk
    have hframe : ∀ key : CStr, key ≠ SEPA_Ref →
        keyvalue_get r.dict key = keyvalue_get dict key := by
      intro key hkey
      rcases hc with ⟨_, rfl⟩ | ⟨_, _, rfl⟩ | ⟨_, _, _, rfl⟩ | ⟨_, _, _, _, rfl⟩ <;>
        exact get_dict_at env dict _ key hkey
    refine ⟨hframe, fun _ herr => ?_, fun hno => absurd ho hno, fun hm0 => ?_⟩
    · rcases hc with ⟨_, rfl⟩ | ⟨_, _, rfl⟩ | ⟨_, _, _, rfl⟩ | ⟨_, _, _, _, rfl⟩
      · cases herr
      · exact ⟨k, hk1, Or.inl (length_rows_upto _ _ _), get_dict_at_sepa env dict k⟩
      · cases herr
      · exact ⟨k, hk1, Or.inr (length_rows_upto _ _ _), get_dict_at_sepa env dict k⟩
    · have hk0 : k = 0 := by
        by_contra hne
        have := (hcol 0 (by omega)).1
        rw [hm0] at this
        cases this
      subst hk0
      rcases hc with ⟨_, rfl⟩ | ⟨hm, _⟩ | ⟨hm, _⟩ | ⟨hm, _⟩
      · exact ⟨by simp, rfl⟩
      · rw [hm0] at hm; cases hm
      · rw [hm0] at hm; cases hm
      · rw [hm0] at hm; cases hm

/-- Witness for C18 amended: after a failing first insert the record holds
the reference generated in that pass. -/
theorem store_failure_record_witness :
    ∃ r, preorder_store_record (sample_env (fun _ _ => 1)) [] = some r ∧
      ∃ k, k < 11000 ∧ keyvalue_get r.dict SEPA_Ref = some "AAAAA-10".toList := by
  obtain ⟨r, hr, _, h, _⟩ := store_failure_record (sample_env (fun _ _ => 1)) []
  have h2 : (preorder_store_record (sample_env (fun _ _ => 1)) []).map
      (fun r => r.err) = some GPG_ERR_GENERAL := by decide
  rw [hr] at h2
  simp only [Option.map_some', Option.some.injEq] at h2
  obtain ⟨k, hk, _, hget⟩ := h rfl h2
  have e : make_sepa_ref (fun _ => 0) = "AAAAA-10".toList := by decide
  exact ⟨r, hr, k, hk, hget.trans (congrArg some e)⟩

/-! ## The gateway client: checks and query -/

theorem del_eq_set (mem : Bool) (list : keyvalue_t) (k : CStr) (hk : k ≠ []) :
    (keyvalue_del mem list (some k)).2 =
      match keyvalue_find list k with
      | some i => set_value list i none
      | none => list := by
  rw [del_eq_put]
  unfold keyvalue_put
  cases hf : keyvalue_find list k <;> simp [hk, hf]

theorem get_del_self (mem : Bool) (list : keyvalue_t) (k : CStr) (hk : k ≠ []) :
    keyvalue_get (keyvalue_del mem list (some k)).2 k = none := by
  rw [del_eq_set mem list k hk]
  cases hf : keyvalue_find list k with
  | none => exact get_eq_none_of_find list k hf
  | some i => exact get_set_value_found list k i none hf

theorem get_del_other (mem : Bool) (list : keyvalue_t) (k other : CStr) (hk : k ≠ [])
    (hne : other ≠ k) :
    keyvalue_get (keyvalue_del mem list (some k)).2 other = keyvalue_get list other := by
  rw [del_eq_set mem list k hk]
  cases hf : keyvalue_find list k with
  | none => rfl
  | some i => exact get_set_value_other list k other i none hf hne

theorem get_string_del_other (mem : Bool) (list : keyvalue_t) (k other : CStr) (hk : k ≠ [])
    (hne : other ≠ k) :
    keyvalue_get_string (keyvalue_del mem list (some k)).2 other =
      keyvalue_get_string list other := by
  unfold keyvalue_get_string
  rw [get_del_other mem list k other hk hne]

theorem putf_present_ok (list : keyvalue_t) (k v : CStr) (hk : k ≠ []) :
    keyvalue_putf true list (some k) (some v) = keyvalue_put true list (some k) (some v) := by
  unfold keyvalue_putf
  simp only [hk, if_false]

/-! ### The blocks of the query construction -/

theorem token_number_empty (mem : Bool) (dict : keyvalue_t) (h : ¬ number_ok dict) :
    token_number mem dict = (GPG_ERR_MISSING_VALUE, dict, []) := by
  have h2 : keyvalue_get_string dict "Number".toList = [] := by
    unfold number_ok at h
    exact not_not.1 h
  unfold token_number
  simp only [h2, if_true]
  rfl

theorem token_number_ok (mem : Bool) (dict : keyvalue_t)
    (h : (token_number mem dict).1 = GPG_ERR_NO_ERROR) :
    number_ok dict ∧
      (token_number mem dict).2.1 = (keyvalue_del true dict (some "Number".toList)).2 := by
  unfold token_number at h ⊢
  by_cases h1 : keyvalue_get_string dict "Number".toList = []
  · simp only [h1, if_true] at h
    cases h
  · simp only [h1, if_false] at h ⊢
    split_ifs at h ⊢ with h2
    · exact absurd h h2
    · exact ⟨h1, rfl⟩

theorem token_number_mem (dict : keyvalue_t) (h : number_ok dict) :
    (token_number true dict).1 = GPG_ERR_NO_ERROR := by
  unfold number_ok at h
  unfold token_number
  simp only [h, if_false, put_present_ok _ _ _ (by decide : "card[number]".toList ≠ [])]
  simp

theorem token_int_field_ok (memf memp : Bool) (key qkey : CStr) (lo hi : Int)
    (v : query_state)
    (h : (token_int_field memf memp key qkey lo hi v).1 = GPG_ERR_NO_ERROR) :
    v.1 = GPG_ERR_NO_ERROR ∧ int_field_ok v.2.1 key lo hi ∧
      (token_int_field memf memp key qkey lo hi v).2.1 =
        (keyvalue_del true v.2.1 (some key)).2 := by
  unfold token_int_field at h ⊢
  dsimp only at h ⊢
  generalize (if memf = true then some (format_d (atoi (keyvalue_get_string v.2.1 key)))
      else none) = fmt at h ⊢
  by_cases h0 : v.1 ≠ GPG_ERR_NO_ERROR
  · rw [if_pos h0] at h
    exact absurd h h0
  · rw [if_neg h0] at h ⊢
    by_cases h1 : keyvalue_get_string v.2.1 key = [] ∨
        atoi (keyvalue_get_string v.2.1 key) < lo ∨ atoi (keyvalue_get_string v.2.1 key) > hi
    · rw [if_pos h1] at h
      exact absurd h (by simp [gpg_error])
    · rw [if_neg h1] at h ⊢
      by_cases h2 : (keyvalue_putf memp v.2.2 (some qkey) fmt).1 ≠ GPG_ERR_NO_ERROR
      · rw [if_pos h2] at h
        exact absurd h h2
      · rw [if_neg h2]
        rw [not_or, not_or] at h1
        exact ⟨not_not.1 h0, ⟨h1.1, by omega, by omega⟩, rfl⟩

theorem token_int_field_invalid (memf memp : Bool) (key qkey : CStr) (lo hi : Int)
    (v : query_state) (h0 : v.1 = GPG_ERR_NO_ERROR) (h : ¬ int_field_ok v.2.1 key lo hi) :
    token_int_field memf memp key qkey lo hi v = (GPG_ERR_INV_VALUE, v.2.1, v.2.2) := by
  unfold token_int_field
  simp only [h0, ne_eq, not_true_eq_false, if_false]
  have h1 : keyvalue_get_string v.2.1 key = [] ∨ atoi (keyvalue_get_string v.2.1 key) < lo ∨
      atoi (keyvalue_get_string v.2.1 key) > hi := by
    unfold int_field_ok at h
    by_contra hc
    rw [not_or, not_or] at hc
    exact h ⟨hc.1, by omega, by omega⟩
  simp only [h1, if_true]
  rfl

theorem token_int_field_mem (key qkey : CStr) (lo hi : Int) (v : query_state)
    (h0 : v.1 = GPG_ERR_NO_ERROR) (hq : qkey ≠ []) (h : int_field_ok v.2.1 key lo hi) :
    (token_int_field true true key qkey lo hi v).1 = GPG_ERR_NO_ERROR := by
  unfold token_int_field
  simp only [h0, ne_eq, not_true_eq_false, if_false]
  have h1 : ¬ (keyvalue_get_string v.2.1 key = [] ∨ atoi (keyvalue_get_string v.2.1 key) < lo ∨
      atoi (keyvalue_get_string v.2.1 key) > hi) := by
    unfold int_field_ok at h
    rw [not_or, not_or]
    exact ⟨h.1, by omega, by omega⟩
  simp only [h1, if_false, if_true, putf_present_ok _ _ _ hq, put_present_ok _ _ _ hq]
  simp

theorem token_int_field_dict (memf memp : Bool) (key qkey : CStr) (lo hi : Int)
    (v : query_state) (h : (token_int_field memf memp key qkey lo hi v).1 ≠ GPG_ERR_NO_ERROR) :
      (token_int_field memf memp key qkey lo hi v).2.1 = v.2.1 := by
  unfold token_int_field at h ⊢
  dsimp only at h ⊢
  generalize (if memf = true then some (format_d (atoi (keyvalue_get_string v.2.1 key)))
    else none) = fmt at h ⊢
  by_cases h0 : v.1 ≠ GPG_ERR_NO_ERROR
  · rw [if_pos h0]
  · rw [if_neg h0] at h ⊢
    by_cases h1 : keyvalue_get_string v.2.1 key = [] ∨
        atoi (keyvalue_get_string v.2.1 key) < lo ∨ atoi (keyvalue_get_string v.2.1 key) > hi
    · rw [if_pos h1]
    · rw [if_neg h1] at h ⊢
      by_cases h2 : (keyvalue_putf memp v.2.2 (some qkey) fmt).1 ≠ GPG_ERR_NO_ERROR
      · rw [if_pos h2]
      · rw [if_neg h2] at h
        exact absurd rfl h

theorem token_name_ok (mem : Bool) (v : query_state) :
    ((token_name mem v).1 = GPG_ERR_NO_ERROR → v.1 = GPG_ERR_NO_ERROR) ∧
      (token_name mem v).2.1 = v.2.1 := by
  unfold token_name
  dsimp only
  by_cases h0 : v.1 ≠ GPG_ERR_NO_ERROR
  · rw [if_pos h0]
    exact ⟨fun h => h, rfl⟩
  · rw [if_neg h0]
    by_cases h1 : keyvalue_get_string v.2.1 "Name".toList ≠ []
    · rw [if_pos h1]
      exact ⟨fun _ => not_not.1 h0, rfl⟩
    · rw [if_neg h1]
      exact ⟨fun h => h, rfl⟩

theorem token_name_mem (v : query_state) (h0 : v.1 = GPG_ERR_NO_ERROR) :
    (token_name true v).1 = GPG_ERR_NO_ERROR := by
  unfold token_name
  dsimp only
  rw [if_neg (not_not.2 h0)]
  by_cases h1 : keyvalue_get_string v.2.1 "Name".toList ≠ []
  · rw [if_pos h1, put_present_ok _ _ _ (by decide : "card[name]".toList ≠ [])]
  · rw [if_neg h1]
    exact h0

/-- When the query construction ends without error, all four checks passed
on the dictionary it was called with, and the dictionary it leaves is that
one with the four card fields deleted. -/
theorem query_ok (env : stripe_env) (dict : keyvalue_t)
    (h : (stripe_create_card_token_query env dict).1 = GPG_ERR_NO_ERROR) :
    card_valid dict ∧ (stripe_create_card_token_query env dict).2.1 = card_fields_deleted dict := by
  unfold stripe_create_card_token_query at h ⊢
  have hn := (token_name_ok _ _).1 h
  have hd := (token_name_ok (env.mem 7)
    (token_int_field (env.mem 5) (env.mem 6) "Cvc".toList "card[cvc]".toList 100 9999
      (token_int_field (env.mem 3) (env.mem 4) "Exp-Month".toList "card[exp_month]".toList 1 12
        (token_int_field (env.mem 1) (env.mem 2) "Exp-Year".toList "card[exp_year]".toList
          2014 2199 (token_number (env.mem 0) dict))))).2
  obtain ⟨h3, c3, d3⟩ := token_int_field_ok _ _ _ _ _ _ _ hn
  obtain ⟨h2, c2, d2⟩ := token_int_field_ok _ _ _ _ _ _ _ h3
  obtain ⟨h1, c1, d1⟩ := token_int_field_ok _ _ _ _ _ _ _ h2
  obtain ⟨c0, d0⟩ := token_number_ok _ _ h1
  rw [hd, d3, d2, d1, d0]
  refine ⟨⟨c0, ?_, ?_, ?_⟩, rfl⟩
  · rw [d0] at c1
    unfold int_field_ok at c1 ⊢
    rwa [get_string_del_other _ _ _ _ (by decide) (by decide)] at c1
  · rw [d1, d0] at c2
    unfold int_field_ok at c2 ⊢
    rwa [get_string_del_other _ _ _ _ (by decide) (by decide),
      get_string_del_other _ _ _ _ (by decide) (by decide)] at c2
  · rw [d2, d1, d0] at c3
    unfold int_field_ok at c3 ⊢
    rwa [get_string_del_other _ _ _ _ (by decide) (by decide),
      get_string_del_other _ _ _ _ (by decide) (by decide),
      get_string_del_other _ _ _ _ (by decide) (by decide)] at c3

theorem token_int_field_err (memf memp : Bool) (key qkey : CStr) (lo hi : Int)
    (v : query_state) (h : v.1 ≠ GPG_ERR_NO_ERROR) :
    token_int_field memf memp key qkey lo hi v = v := by
  unfold token_int_field
  rw [if_pos h]

theorem token_name_err (mem : Bool) (v : query_state) (h : v.1 ≠ GPG_ERR_NO_ERROR) :
    token_name mem v = v := by
  unfold token_name
  rw [if_pos h]

/-- With an empty `Number` the query construction ends at once. -/
theorem query_number_empty (env : stripe_env) (dict : keyvalue_t) (h : ¬ number_ok dict) :
    stripe_create_card_token_query env dict = (GPG_ERR_MISSING_VALUE, dict, []) := by
  unfold stripe_create_card_token_query
  rw [token_number_empty _ _ h, token_int_field_err _ _ "Exp-Year".toList _ _ _ _ (by simp),
    token_int_field_err _ _ "Exp-Month".toList _ _ _ _ (by simp),
    token_int_field_err _ _ "Cvc".toList _ _ _ _ (by simp), token_name_err _ _ (by simp)]

/-- When all allocations succeed and all checks pass, the query construction
ends without error. -/
theorem query_valid_mem (env : stripe_env) (dict : keyvalue_t) (hmem : ∀ i, env.mem i = true)
    (h : card_valid dict) : (stripe_create_card_token_query env dict).1 = GPG_ERR_NO_ERROR := by
  obtain ⟨c0, c1, c2, c3⟩ := h
  unfold stripe_create_card_token_query
  simp only [hmem]
  have h0 := token_number_mem dict c0
  have d0 := (token_number_ok true dict h0).2
  have h1 := token_int_field_mem "Exp-Year".toList "card[exp_year]".toList 2014 2199
    (token_number true dict) h0 (by decide) (by
      rw [d0]
      unfold int_field_ok at c1 ⊢
      rwa [get_string_del_other _ _ _ _ (by decide) (by decide)])
  have d1 := (token_int_field_ok _ _ _ _ _ _ _ h1).2.2
  have h2 := token_int_field_mem "Exp-Month".toList "card[exp_month]".toList 1 12 _ h1
    (by decide) (by
      rw [d1, d0]
      unfold int_field_ok at c2 ⊢
      rwa [get_string_del_other _ _ _ _ (by decide) (by decide),
        get_string_del_other _ _ _ _ (by decide) (by decide)])
  have d2 := (token_int_field_ok _ _ _ _ _ _ _ h2).2.2
  have h3 := token_int_field_mem "Cvc".toList "card[cvc]".toList 100 9999 _ h2
    (by decide) (by
      rw [d2, d1, d0]
      unfold int_field_ok at c3 ⊢
      rwa [get_string_del_other _ _ _ _ (by decide) (by decide),
        get_string_del_other _ _ _ _ (by decide) (by decide),
        get_string_del_other _ _ _ _ (by decide) (by decide)])
  exact token_name_mem _ h3

/-- When all allocations succeed, `Number` is not empty and one of the other
checks fails, the query construction ends with `GPG_ERR_INV_VALUE`. -/
theorem query_invalid_mem (env : stripe_env) (dict : keyvalue_t) (hmem : ∀ i, env.mem i = true)
    (c0 : number_ok dict) (h : ¬ expiry_cvc_ok dict) :
    (stripe_create_card_token_query env dict).1 = GPG_ERR_INV_VALUE := by
  unfold stripe_create_card_token_query
  simp only [hmem]
  have h0 := token_number_mem dict c0
  have d0 := (token_number_ok true dict h0).2
  by_cases c1 : int_field_ok dict "Exp-Year".toList 2014 2199
  · have h1 := token_int_field_mem "Exp-Year".toList "card[exp_year]".toList 2014 2199
      (token_number true dict) h0 (by decide) (by
        rw [d0]
        unfold int_field_ok at c1 ⊢
        rwa [get_string_del_other _ _ _ _ (by decide) (by decide)])
    have d1 := (token_int_field_ok _ _ _ _ _ _ _ h1).2.2
    by_cases c2 : int_field_ok dict "Exp-Month".toList 1 12
    · have h2 := token_int_field_mem "Exp-Month".toList "card[exp_month]".toList 1 12 _ h1
        (by decide) (by
          rw [d1, d0]
          unfold int_field_ok at c2 ⊢
          rwa [get_string_del_other _ _ _ _ (by decide) (by decide),
            get_string_del_other _ _ _ _ (by decide) (by decide)])
      have d2 := (token_int_field_ok _ _ _ _ _ _ _ h2).2.2
      have c3 : ¬ int_field_ok dict "Cvc".toList 100 9999 := fun c3 => h ⟨c1, c2, c3⟩
      rw [token_int_field_invalid true true "Cvc".toList _ 100 9999 _ h2 (by
          rw [d2, d1, d0]
          unfold int_field_ok at c3 ⊢
          rwa [get_string_del_other _ _ _ _ (by decide) (by decide),
            get_string_del_other _ _ _ _ (by decide) (by decide),
            get_string_del_other _ _ _ _ (by decide) (by decide)]),
        token_name_err _ _ (by simp)]
    · rw [token_int_field_invalid true true "Exp-Month".toList _ 1 12 _ h1 (by
          rw [d1, d0]
          unfold int_field_ok at c2 ⊢
          rwa [get_string_del_other _ _ _ _ (by decide) (by decide),
            get_string_del_other _ _ _ _ (by decide) (by decide)]),
        token_int_field_err _ _ "Cvc".toList _ _ _ _ (by simp), token_name_err _ _ (by simp)]
  · rw [token_int_field_invalid true true "Exp-Year".toList _ 2014 2199 _ h0 (by
        rw [d0]
        unfold int_field_ok at c1 ⊢
        rwa [get_string_del_other _ _ _ _ (by decide) (by decide)]),
      token_int_field_err _ _ "Exp-Month".toList _ _ _ _ (by simp),
      token_int_field_err _ _ "Cvc".toList _ _ _ _ (by simp), token_name_err _ _ (by simp)]

/-! ### The call of the gateway -/

theorem call_stripe_calls (mem : Bool) (http : CStr → keyvalue_t → http_reply)
    (method : CStr) (formdata : keyvalue_t) :
    (call_stripe mem http method none formdata).2.length ≤ 1 ∧
    (mem = true → (call_stripe mem http method none formdata).2.length = 1) := by
  unfold call_stripe
  cases mem
  · simp [strconcat, do_strconcat, do_strconcat_collect, DIM_argv]
  · simp only [strconcat, do_strconcat, do_strconcat_collect, DIM_argv]
    simp only [List.append_nil]
    norm_num
    split_ifs <;> try simp
    all_goals split <;> simp

theorem create_card_token_no_call (env : stripe_env) (dict : keyvalue_t)
    (h : (stripe_create_card_token_query env dict).1 ≠ GPG_ERR_NO_ERROR) :
    stripe_create_card_token env dict =
      { err := (stripe_create_card_token_query env dict).1,
        dict := (stripe_create_card_token_query env dict).2.1, calls := [] } := by
  unfold stripe_create_card_token
  dsimp only
  rw [if_pos h]

theorem create_card_token_calls (env : stripe_env) (dict : keyvalue_t)
    (h : (stripe_create_card_token_query env dict).1 = GPG_ERR_NO_ERROR) :
    (stripe_create_card_token env dict).calls =
      (call_stripe (env.mem 8) env.http "tokens".toList none
        (stripe_create_card_token_query env dict).2.2).2 := by
  unfold stripe_create_card_token
  dsimp only
  rw [if_neg (not_not.2 h)]
  split
  · rfl
  · split_ifs <;> rfl

theorem call_stripe_ok (http : CStr → keyvalue_t → http_reply) (method : CStr)
    (formdata : keyvalue_t) (json : cjson)
    (h : ∀ url q, http url q = { err := GPG_ERR_NO_ERROR, status := 200, body := .ok json }) :
    (call_stripe true http method none formdata).1 = .ok 200 json := by
  unfold call_stripe
  simp only [strconcat, do_strconcat, do_strconcat_collect, DIM_argv, h]
  simp

theorem create_card_token_ok (env : stripe_env) (dict : keyvalue_t) (json : cjson)
    (hq : (stripe_create_card_token_query env dict).1 = GPG_ERR_NO_ERROR)
    (hc : (call_stripe (env.mem 8) env.http "tokens".toList none
      (stripe_create_card_token_query env dict).2.2).1 = .ok 200 json) :
    (stripe_create_card_token env dict).err =
      (stripe_create_card_token_response env
        (stripe_create_card_token_query env dict).2.1 json).1 ∧
    (stripe_create_card_token env dict).dict =
      (stripe_create_card_token_response env
        (stripe_create_card_token_query env dict).2.1 json).2 := by
  unfold stripe_create_card_token
  dsimp only
  rw [if_neg (not_not.2 hq), hc]
  simp

theorem response_ok (env : stripe_env) (dict : keyvalue_t) (json card : cjson)
    (id last4 : CStr) (livemode : Bool) (hmem : ∀ i, env.mem i = true)
    (hid : cJSON_GetObjectItem json "id".toList = some (.string id))
    (hlive : cJSON_GetObjectItem json "livemode".toList = some (.bool livemode))
    (hcard : cJSON_GetObjectItem json "card".toList = some card)
    (hlast : cJSON_GetObjectItem card "last4".toList = some (.string last4)) :
    stripe_create_card_token_response env dict json =
      keyvalue_put true (keyvalue_put true (keyvalue_put true dict (some "Live".toList)
        (some (if livemode then "t".toList else "f".toList))).2 (some "Last4".toList)
        (some last4)).2 (some "Token".toList) (some id) := by
  unfold stripe_create_card_token_response
  simp only [hid, hlive, hcard, hlast, Option.bind, hmem]
  rw [put_present_ok _ _ _ (by decide : "Live".toList ≠ []),
    put_present_ok _ _ _ (by decide : "Last4".toList ≠ [])]
  simp

theorem get_card_fields_deleted (dict : keyvalue_t) :
    keyvalue_get (card_fields_deleted dict) "Number".toList = none ∧
    keyvalue_get (card_fields_deleted dict) "Exp-Year".toList = none ∧
    keyvalue_get (card_fields_deleted dict) "Exp-Month".toList = none ∧
    keyvalue_get (card_fields_deleted dict) "Cvc".toList = none := by
  unfold card_fields_deleted
  refine ⟨?_, ?_, ?_, ?_⟩
  · rw [get_del_other _ _ _ _ (by decide) (by decide),
      get_del_other _ _ _ _ (by decide) (by decide),
      get_del_other _ _ _ _ (by decide) (by decide), get_del_self _ _ _ (by decide)]
  · rw [get_del_other _ _ _ _ (by decide) (by decide),
      get_del_other _ _ _ _ (by decide) (by decide), get_del_self _ _ _ (by decide)]
  · rw [get_del_other _ _ _ _ (by decide) (by decide), get_del_self _ _ _ (by decide)]
  · rw [get_del_self _ _ _ (by decide)]

/-! ## What atoi reads -/

/-- The result of `atoi` is an `int`. -/
theorem atoi_range (s : CStr) : -2147483648 ≤ atoi s ∧ atoi s ≤ 2147483647 := by
  unfold atoi long_to_int
  omega

/-- The digits of a number that does not fit an `int` wrap around, and what
follows the digits is ignored. -/
theorem atoi_examples :
    atoi "4294969326".toList = 2030 ∧ atoi "2030abc".toList = 2030 ∧
    atoi "2000".toList = 2000 ∧ atoi "-12".toList = -12 ∧ atoi "abc".toList = 0 := by
  decide

theorem isdigit_not_isspace (c : Char) (h : isdigit c = true) : isspace c = false := by
  unfold isdigit at h
  unfold isspace
  have h1 := of_decide_eq_true h
  have e1 : c ≠ ' ' := by rintro rfl; exact absurd h1 (by decide)
  have e2 : c ≠ '\t' := by rintro rfl; exact absurd h1 (by decide)
  have e3 : c ≠ '\n' := by rintro rfl; exact absurd h1 (by decide)
  have e4 : c ≠ Char.ofNat 11 := by rintro rfl; exact absurd h1 (by decide)
  have e5 : c ≠ Char.ofNat 12 := by rintro rfl; exact absurd h1 (by decide)
  have e6 : c ≠ '\r' := by rintro rfl; exact absurd h1 (by decide)
  simp [e1, e2, e3, e4, e5, e6]

/-- On a string of decimal digits whose number fits an `int`, `atoi` returns
that number. -/
theorem atoi_of_digits (s : CStr) (hs : s ≠ []) (hd : ∀ c ∈ s, isdigit c = true)
    (hv : (atoi_digits 0 s : Int) ≤ 2147483647) : atoi s = (atoi_digits 0 s : Int) := by
  cases s with
  | nil => exact absurd rfl hs
  | cons c rest =>
    have hc := hd c (List.mem_cons_self _ _)
    have hsp := isdigit_not_isspace c hc
    have h1 : c ≠ '-' := by
      rintro rfl
      exact absurd hc (by decide)
    have h2 : c ≠ '+' := by
      rintro rfl
      exact absurd hc (by decide)
    unfold atoi strtol
    rw [List.dropWhile_cons, hsp]
    simp only [Bool.false_eq_true, if_false, h1, h2]
    unfold long_to_int LONG_MAX
    omega

/-- A field that holds an integer in the range, in the words of the spec,
passes the check of the code, when the range lies within `int`. -/
theorem int_field_ok_of_integer (dict : keyvalue_t) (key : CStr) (lo hi : Int)
    (hhi : hi ≤ 2147483647)
    (h : integer_in_range (keyvalue_get_string dict key) lo hi) :
    int_field_ok dict key lo hi := by
  obtain ⟨h1, h2, h3, h4⟩ := h
  unfold int_field_ok
  rw [atoi_of_digits _ h1 h2 (le_trans h4 hhi)]
  exact ⟨h1, h3, h4⟩

/-! ## The gateway client: what Tokenize does -/

/-- C19, counterexample. `Exp-Year` = `2030abc` is no integer, yet Tokenize
hands a request to the gateway and succeeds: `atoi` reads the leading digits,
and the year sent is 2030. -/
theorem token_non_integer_counterexample :
    ¬ integer_in_range (keyvalue_get_string year_2030abc_card "Exp-Year".toList) 2014 2199 ∧
    (stripe_create_card_token sample_stripe_env year_2030abc_card).calls.length = 1 ∧
    (stripe_create_card_token sample_stripe_env year_2030abc_card).calls.map
      (fun c => keyvalue_get c.2 "card[exp_year]".toList) = [some "2030".toList] ∧
    (stripe_create_card_token sample_stripe_env year_2030abc_card).err = GPG_ERR_NO_ERROR := by
  decide

/-- C19, amended. Tokenize hands at most one request to the gateway, and
hands one only if all four checks of the code pass: `Number` is not empty,
and `Exp-Year`, `Exp-Month` and `Cvc` are not empty and the `int` that `atoi`
reads from them (leading digits, the rest ignored, wrapping to 32 bits) lies
in [2014, 2199], [1, 12] and [100, 9999].  When the checks pass (and the
allocations succeed) it hands exactly one.  With an empty `Number` it returns
`GPG_ERR_MISSING_VALUE`, with another failing check (the allocations before
it succeeding) `GPG_ERR_INV_VALUE`, and in both cases hands no request to the
gateway.  Fields that are integers in these ranges in the words of the spec
pass the checks. -/
theorem token_gateway_calls (env : stripe_env) (dict : keyvalue_t) :
    (stripe_create_card_token env dict).calls.length ≤ 1 ∧
    ((stripe_create_card_token env dict).calls ≠ [] → card_valid dict) ∧
    ((∀ i, env.mem i = true) → card_valid dict →
      (stripe_create_card_token env dict).calls.length = 1) ∧
    (¬ number_ok dict →
      (stripe_create_card_token env dict).err = GPG_ERR_MISSING_VALUE ∧
      (stripe_create_card_token env dict).calls = []) ∧
    ((∀ i, env.mem i = true) → number_ok dict → ¬ expiry_cvc_ok dict →
      (stripe_create_card_token env dict).err = GPG_ERR_INV_VALUE ∧
      (stripe_create_card_token env dict).calls = []) ∧
    (number_ok dict →
      integer_in_range (keyvalue_get_string dict "Exp-Year".toList) 2014 2199 →
      integer_in_range (keyvalue_get_string dict "Exp-Month".toList) 1 12 →
      integer_in_range (keyvalue_get_string dict "Cvc".toList) 100 9999 →
      card_valid dict) := by
  refine ⟨?_, ?_, ?_, ?_, ?_, ?_⟩
  · by_cases hq : (stripe_create_card_token_query env dict).1 = GPG_ERR_NO_ERROR
    · rw [create_card_token_calls env dict hq]
      exact (call_stripe_calls _ _ _ _).1
    · rw [create_card_token_no_call env dict hq]
      simp
  · intro hc
    by_cases hq : (stripe_create_card_token_query env dict).1 = GPG_ERR_NO_ERROR
    · exact (query_ok env dict hq).1
    · rw [create_card_token_no_call env dict hq] at hc
      exact absurd rfl hc
  · intro hmem hv
    rw [create_card_token_calls env dict (query_valid_mem env dict hmem hv)]
    exact (call_stripe_calls _ _ _ _).2 (hmem 8)
  · intro hn
    have hq := query_number_empty env dict hn
    rw [create_card_token_no_call env dict (by rw [hq]; simp), hq]
    exact ⟨rfl, rfl⟩
  · intro hmem hn hx
    have hq := query_invalid_mem env dict hmem hn hx
    rw [create_card_token_no_call env dict (by rw [hq]; simp), hq]
    exact ⟨rfl, rfl⟩
  · intro hn h1 h2 h3
    exact ⟨hn, int_field_ok_of_integer dict _ _ _ (by decide) h1,
      int_field_ok_of_integer dict _ _ _ (by decide) h2,
      int_field_ok_of_integer dict _ _ _ (by decide) h3⟩

/-- Witness for C19: with `Exp-Year` 2000 Tokenize returns
`GPG_ERR_INV_VALUE` and hands nothing to the gateway. -/
theorem token_gateway_calls_witness :
    number_ok [⟨"Number".toList, some "4242424242424242".toList⟩,
      ⟨"Exp-Year".toList, some "2000".toList⟩, ⟨"Exp-Month".toList, some "12".toList⟩,
      ⟨"Cvc".toList, some "123".toList⟩] ∧
    ¬ expiry_cvc_ok [⟨"Number".toList, some "4242424242424242".toList⟩,
      ⟨"Exp-Year".toList, some "2000".toList⟩, ⟨"Exp-Month".toList, some "12".toList⟩,
      ⟨"Cvc".toList, some "123".toList⟩] ∧
    ∀ http : CStr → keyvalue_t → http_reply,
      (stripe_create_card_token { mem := fun _ => true, http := http }
        [⟨"Number".toList, some "4242424242424242".toList⟩,
          ⟨"Exp-Year".toList, some "2000".toList⟩, ⟨"Exp-Month".toList, some "12".toList⟩,
          ⟨"Cvc".toList, some "123".toList⟩]).err = GPG_ERR_INV_VALUE ∧
      (stripe_create_card_token { mem := fun _ => true, http := http }
        [⟨"Number".toList, some "4242424242424242".toList⟩,
          ⟨"Exp-Year".toList, some "2000".toList⟩, ⟨"Exp-Month".toList, some "12".toList⟩,
          ⟨"Cvc".toList, some "123".toList⟩]).calls = [] :=
  ⟨by decide, by decide, fun http =>
    (token_gateway_calls { mem := fun _ => true, http := http } _).2.2.2.2.1 (fun _ => rfl)
      (by decide) (by decide)⟩

/-- C20. For every card input that passes the four checks and every reply
with status 200 whose body has a string `id`, a boolean `livemode` and a
string `last4` in `card`, Tokenize (its allocations succeeding) returns
success after one request and leaves `Token` = id, `Live` = `t` if livemode
is true and `f` if not, `Last4` = last4, while Get returns absent for
`Number`, `Exp-Year`, `Exp-Month` and `Cvc`. -/
theorem token_success (env : stripe_env) (dict : keyvalue_t) (json card : cjson)
    (id last4 : CStr) (livemode : Bool) (hmem : ∀ i, env.mem i = true)
    (hvalid : card_valid dict)
    (hreply : ∀ url q, env.http url q =
      { err := GPG_ERR_NO_ERROR, status := 200, body := .ok json })
    (hid : cJSON_GetObjectItem json "id".toList = some (.string id))
    (hlive : cJSON_GetObjectItem json "livemode".toList = some (.bool livemode))
    (hcard : cJSON_GetObjectItem json "card".toList = some card)
    (hlast : cJSON_GetObjectItem card "last4".toList = some (.string last4)) :
    (stripe_create_card_token env dict).err = GPG_ERR_NO_ERROR ∧
    (stripe_create_card_token env dict).calls.length = 1 ∧
    keyvalue_get (stripe_create_card_token env dict).dict "Token".toList = some id ∧
    keyvalue_get (stripe_create_card_token env dict).dict "Live".toList =
      some (if livemode then "t".toList else "f".toList) ∧
    keyvalue_get (stripe_create_card_token env dict).dict "Last4".toList = some last4 ∧
    keyvalue_get (stripe_create_card_token env dict).dict "Number".toList = none ∧
    keyvalue_get (stripe_create_card_token env dict).dict "Exp-Year".toList = none ∧
    keyvalue_get (stripe_create_card_token env dict).dict "Exp-Month".toList = none ∧
    keyvalue_get (stripe_create_card_token env dict).dict "Cvc".toList = none := by
  have hq := query_valid_mem env dict hmem hvalid
  have hd := (query_ok env dict hq).2
  have hc : (call_stripe (env.mem 8) env.http "tokens".toList none
      (stripe_create_card_token_query env dict).2.2).1 = .ok 200 json := by
    rw [hmem 8]
    exact call_stripe_ok _ _ _ json hreply
  obtain ⟨he, hdict⟩ := create_card_token_ok env dict json hq hc
  rw [response_ok env _ json card id last4 livemode hmem hid hlive hcard hlast, hd] at he hdict
  obtain ⟨g1, g2, g3, g4⟩ := get_card_fields_deleted dict
  refine ⟨?_, ?_, ?_, ?_, ?_, ?_, ?_, ?_, ?_⟩
  · rw [he, put_present_ok _ _ _ (by decide)]
  · rw [create_card_token_calls env dict hq]
    exact (call_stripe_calls _ _ _ _).2 (hmem 8)
  · rw [hdict, get_put_present _ _ _ (by decide)]
  · rw [hdict, get_put_present_other _ _ _ _ (by decide) (by decide),
      get_put_present_other _ _ _ _ (by decide) (by decide), get_put_present _ _ _ (by decide)]
  · rw [hdict, get_put_present_other _ _ _ _ (by decide) (by decide),
      get_put_present _ _ _ (by decide)]
  · rw [hdict, get_put_present_other _ _ _ _ (by decide) (by decide),
      get_put_present_other _ _ _ _ (by decide) (by decide),
      get_put_present_other _ _ _ _ (by decide) (by decide), g1]
  · rw [hdict, get_put_present_other _ _ _ _ (by decide) (by decide),
      get_put_present_other _ _ _ _ (by decide) (by decide),
      get_put_present_other _ _ _ _ (by decide) (by decide), g2]
  · rw [hdict, get_put_present_other _ _ _ _ (by decide) (by decide),
      get_put_present_other _ _ _ _ (by decide) (by decide),
      get_put_present_other _ _ _ _ (by decide) (by decide), g3]
  · rw [hdict, get_put_present_other _ _ _ _ (by decide) (by decide),
      get_put_present_other _ _ _ _ (by decide) (by decide),
      get_put_present_other _ _ _ _ (by decide) (by decide), g4]

/-- Witness for C20: the example card and the example reply give `Token`
`tok_1`, `Live` `f` and `Last4` `4242`, and `Number` is gone. -/
theorem token_success_witness :
    card_valid sample_card ∧
    (stripe_create_card_token sample_stripe_env sample_card).err = GPG_ERR_NO_ERROR ∧
    keyvalue_get (stripe_create_card_token sample_stripe_env sample_card).dict "Token".toList
      = some "tok_1".toList ∧
    keyvalue_get (stripe_create_card_token sample_stripe_env sample_card).dict "Live".toList
      = some "f".toList ∧
    keyvalue_get (stripe_create_card_token sample_stripe_env sample_card).dict "Last4".toList
      = some "4242".toList ∧
    keyvalue_get (stripe_create_card_token sample_stripe_env sample_card).dict "Number".toList
      = none :=
  have h := token_success sample_stripe_env sample_card sample_token_json
    (.object [("last4".toList, .string "4242".toList)]) "tok_1".toList "4242".toList false
    (fun _ => rfl) (by decide) (fun _ _ => rfl) rfl rfl rfl rfl
  ⟨by decide, h.1, h.2.2.1, h.2.2.2.1, h.2.2.2.2.1, h.2.2.2.2.2.1⟩

/-! ## Put with any value -/

theorem put_any_ok (list : keyvalue_t) (k : CStr) (v : Option CStr) (hk : k ≠ []) :
    (keyvalue_put true list (some k) v).1 = GPG_ERR_NO_ERROR := by
  cases v with
  | some s => rw [put_present_ok list k s hk]
  | none =>
    unfold keyvalue_put
    cases hf : keyvalue_find list k <;> simp [hk, hf]

theorem get_put_any_self (list : keyvalue_t) (k : CStr) (v : Option CStr) (hk : k ≠ []) :
    keyvalue_get (keyvalue_put true list (some k) v).2 k = v := by
  cases v with
  | some s => exact get_put_present list k s hk
  | none =>
    rw [← del_eq_put]
    exact get_del_self true list k hk

theorem get_put_any_other (mem : Bool) (list : keyvalue_t) (k other : CStr)
    (v : Option CStr) (hne : other ≠ k) :
    keyvalue_get (keyvalue_put mem list (some k) v).2 other = keyvalue_get list other := by
  by_cases hk : k = []
  · simp [keyvalue_put, hk]
  · cases hf : keyvalue_find list k with
    | some i =>
      rcases put_found mem list k v i hf with e | e <;> rw [e]
      exact get_set_value_other list k other i v hf hne
    | none =>
      unfold keyvalue_put
      simp only [hk, if_false, hf]
      have hne2 : ¬ k = other := fun e => hne e.symm
      cases v <;> cases mem <;> simp [keyvalue_create, xtrystrdup, keyvalue_get, hne2]

theorem get_putf_other (mem : Bool) (list : keyvalue_t) (k other : CStr)
    (v : Option CStr) (hne : other ≠ k) :
    keyvalue_get (keyvalue_putf mem list (some k) v).2 other = keyvalue_get list other := by
  unfold keyvalue_putf
  by_cases hk : k = []
  · simp [hk]
  · simp only [hk, if_false]
    cases v with
    | none => rfl
    | some s => exact get_put_any_other mem list k other (some s) hne

/-! ## Error replies -/

/-- What `extract_error_from_json` does, its allocations succeeding, for a
body with an error object whose `type` is a string. -/
theorem extract_error_spec (dict : keyvalue_t) (json : cjson) (members : List (CStr × cjson))
    (type : CStr)
    (herr : cJSON_GetObjectItem json "error".toList = some (.object members))
    (htype : cJSON_GetObjectItem (.object members) "type".toList = some (.string type)) :
    (extract_error_from_json true true dict json).1 = GPG_ERR_NO_ERROR ∧
    failure_reported dict (extract_error_from_json true true dict json).2 type
      (string_or_empty (cJSON_GetObjectItem (.object members) "code".toList))
      (string_or_empty (cJSON_GetObjectItem (.object members) "message".toList)) := by
  unfold extract_error_from_json failure_reported failure_for
  simp only [herr, htype]
  by_cases h1 : type = "invalid_request_error".toList
  · have h1c : ¬ type = "card_error".toList := by rw [h1]; decide
    rw [if_pos h1, if_pos h1]
    simp only [h1c, false_and, if_false]
    exact ⟨put_any_ok _ _ _ (by decide), get_put_any_self _ _ _ (by decide),
      get_put_any_other _ _ _ _ _ (by decide),
      fun key hk _ => get_put_any_other _ _ _ _ _ hk⟩
  · by_cases h2 : type = "api_error".toList
    · have h2c : ¬ type = "card_error".toList := by rw [h2]; decide
      rw [if_neg h1, if_pos h2, if_neg h1, if_pos h2]
      simp only [h2c, if_false, false_and]
      exact ⟨put_any_ok _ _ _ (by decide), get_put_any_self _ _ _ (by decide),
        get_put_any_other _ _ _ _ _ (by decide),
        fun key hk _ => get_put_any_other _ _ _ _ _ hk⟩
    · by_cases h3 : type = "card_error".toList
      · rw [if_neg h1, if_neg h2, if_pos h3, if_neg h1, if_neg h2, if_pos h3]
        simp only [h3, true_and]
        rw [put_any_ok _ _ _ (by decide)]
        by_cases hm : string_or_empty (cJSON_GetObjectItem (.object members)
            "message".toList) ≠ []
        · simp only [hm, true_and, if_true, ne_eq, not_false_eq_true]
          refine ⟨put_any_ok _ _ _ (by decide), ?_, get_put_any_self _ _ _ (by decide),
            fun key hk hk2 => ?_⟩
          · rw [get_put_any_other _ _ _ _ _ (by decide), get_put_any_self _ _ _ (by decide)]
          · rw [get_put_any_other _ _ _ _ _ hk2, get_put_any_other _ _ _ _ _ hk]
        · simp only [hm, and_false, if_false]
          exact ⟨put_any_ok _ _ _ (by decide), get_put_any_self _ _ _ (by decide),
            get_put_any_other _ _ _ _ _ (by decide),
            fun key hk _ => get_put_any_other _ _ _ _ _ hk⟩
      · rw [if_neg h1, if_neg h2, if_neg h3, if_neg h1, if_neg h2, if_neg h3]
        simp only [h3, if_false, false_and]
        exact ⟨put_any_ok _ _ _ (by decide), get_put_any_self _ _ _ (by decide),
          get_put_any_other _ _ _ _ _ (by decide),
          fun key hk _ => get_put_any_other _ _ _ _ _ hk⟩

theorem call_stripe_reply (http : CStr → keyvalue_t → http_reply) (method : CStr)
    (formdata : keyvalue_t) (status : Nat) (json : cjson)
    (h : ∀ url q, http url q = { err := GPG_ERR_NO_ERROR, status := status, body := .ok json })
    (hs : status / 100 = 2 ∨ status / 100 = 4) :
    (call_stripe true http method none formdata).1 = .ok status json := by
  unfold call_stripe
  simp only [strconcat, do_strconcat, do_strconcat_collect, DIM_argv, h]
  simp [hs]

theorem create_card_token_status (env : stripe_env) (dict : keyvalue_t) (json : cjson)
    (status : Nat)
    (hq : (stripe_create_card_token_query env dict).1 = GPG_ERR_NO_ERROR)
    (hc : (call_stripe (env.mem 8) env.http "tokens".toList none
      (stripe_create_card_token_query env dict).2.2).1 = .ok status json)
    (hs : status ≠ 200) :
    (stripe_create_card_token env dict).err =
      (if (extract_error_from_json (env.mem 9) (env.mem 10)
          (stripe_create_card_token_query env dict).2.1 json).1 ≠ GPG_ERR_NO_ERROR then
        (extract_error_from_json (env.mem 9) (env.mem 10)
          (stripe_create_card_token_query env dict).2.1 json).1
       else GPG_ERR_GENERAL) ∧
    (stripe_create_card_token env dict).dict =
      (extract_error_from_json (env.mem 9) (env.mem 10)
        (stripe_create_card_token_query env dict).2.1 json).2 := by
  unfold stripe_create_card_token
  dsimp only
  rw [if_neg (not_not.2 hq), hc]
  dsimp only
  rw [if_pos hs]
  exact ⟨rfl, rfl⟩

theorem create_card_token_failed (env : stripe_env) (dict : keyvalue_t) (err : gpg_error_t)
    (status : Nat)
    (hq : (stripe_create_card_token_query env dict).1 = GPG_ERR_NO_ERROR)
    (hc : (call_stripe (env.mem 8) env.http "tokens".toList none
      (stripe_create_card_token_query env dict).2.2).1 = .failed err status) :
    (stripe_create_card_token env dict).err = err ∧
    (stripe_create_card_token env dict).dict = (stripe_create_card_token_query env dict).2.1 := by
  unfold stripe_create_card_token
  dsimp only
  rw [if_neg (not_not.2 hq), hc]
  exact ⟨rfl, rfl⟩

/-! ## The blocks of the charge query -/

theorem charge_required_dict (mem : Bool) (key qkey : CStr) (v : query_state) :
    (charge_required mem key qkey v).2.1 = v.2.1 := by
  unfold charge_required
  dsimp only
  by_cases h0 : v.1 ≠ GPG_ERR_NO_ERROR
  · rw [if_pos h0]
  · rw [if_neg h0]
    by_cases h1 : keyvalue_get_string v.2.1 key = []
    · rw [if_pos h1]
    · rw [if_neg h1]

theorem charge_required_ok (mem : Bool) (key qkey : CStr) (v : query_state)
    (h : (charge_required mem key qkey v).1 = GPG_ERR_NO_ERROR) :
    v.1 = GPG_ERR_NO_ERROR ∧ keyvalue_get_string v.2.1 key ≠ [] := by
  unfold charge_required at h
  dsimp only at h
  by_cases h0 : v.1 ≠ GPG_ERR_NO_ERROR
  · rw [if_pos h0] at h
    exact absurd h h0
  · rw [if_neg h0] at h
    by_cases h1 : keyvalue_get_string v.2.1 key = []
    · rw [if_pos h1] at h
      exact absurd h (by simp [gpg_error])
    · exact ⟨not_not.1 h0, h1⟩

theorem charge_required_missing (mem : Bool) (key qkey : CStr) (v : query_state)
    (h0 : v.1 = GPG_ERR_NO_ERROR) (h : keyvalue_get_string v.2.1 key = []) :
    charge_required mem key qkey v = (GPG_ERR_MISSING_VALUE, v.2.1, v.2.2) := by
  unfold charge_required
  dsimp only
  rw [if_neg (not_not.2 h0), if_pos h]
  rfl

theorem charge_required_mem (key qkey : CStr) (v : query_state)
    (h0 : v.1 = GPG_ERR_NO_ERROR) (hq : qkey ≠ []) (h : keyvalue_get_string v.2.1 key ≠ []) :
    (charge_required true key qkey v).1 = GPG_ERR_NO_ERROR := by
  unfold charge_required
  dsimp only
  rw [if_neg (not_not.2 h0), if_neg h]
  exact put_any_ok _ _ _ hq

theorem charge_required_err (mem : Bool) (key qkey : CStr) (v : query_state)
    (h : v.1 ≠ GPG_ERR_NO_ERROR) : charge_required mem key qkey v = v := by
  unfold charge_required
  rw [if_pos h]

theorem charge_consume_token_err (v : query_state) (h : v.1 ≠ GPG_ERR_NO_ERROR) :
    charge_consume_token v = v := by
  unfold charge_consume_token
  rw [if_pos h]

theorem charge_consume_token_ok (v : query_state) (h : v.1 = GPG_ERR_NO_ERROR) :
    charge_consume_token v =
      (GPG_ERR_NO_ERROR, (keyvalue_del true v.2.1 (some "Card-Token".toList)).2, v.2.2) := by
  unfold charge_consume_token
  rw [if_neg (not_not.2 h), h]

theorem charge_consume_token_err_iff (v : query_state) :
    (charge_consume_token v).1 = v.1 := by
  unfold charge_consume_token
  split_ifs <;> rfl

theorem charge_optional_err (mem : Bool) (key qkey : CStr) (v : query_state)
    (h : v.1 ≠ GPG_ERR_NO_ERROR) : charge_optional mem key qkey v = v := by
  unfold charge_optional
  rw [if_pos h]

theorem charge_optional_ok (mem : Bool) (key qkey : CStr) (v : query_state) :
    ((charge_optional mem key qkey v).1 = GPG_ERR_NO_ERROR → v.1 = GPG_ERR_NO_ERROR) ∧
      (charge_optional mem key qkey v).2.1 = v.2.1 := by
  unfold charge_optional
  dsimp only
  by_cases h0 : v.1 ≠ GPG_ERR_NO_ERROR
  · rw [if_pos h0]
    exact ⟨fun h => h, rfl⟩
  · rw [if_neg h0]
    by_cases h1 : keyvalue_get_string v.2.1 key ≠ []
    · rw [if_pos h1]
      exact ⟨fun _ => not_not.1 h0, rfl⟩
    · rw [if_neg h1]
      exact ⟨fun h => h, rfl⟩

theorem charge_optional_mem (key qkey : CStr) (v : query_state)
    (h0 : v.1 = GPG_ERR_NO_ERROR) (hq : qkey ≠ []) :
    (charge_optional true key qkey v).1 = GPG_ERR_NO_ERROR := by
  unfold charge_optional
  dsimp only
  rw [if_neg (not_not.2 h0)]
  by_cases h1 : keyvalue_get_string v.2.1 key ≠ []
  · rw [if_pos h1]
    exact put_any_ok _ _ _ hq
  · rw [if_neg h1]
    exact h0

/-- When the query construction of Charge ends without error, the three
required fields are not empty in the dictionary it was called with, and the
dictionary it leaves is that one with `Card-Token` deleted. -/
theorem charge_query_ok (env : stripe_env) (dict : keyvalue_t)
    (h : (stripe_charge_card_query env dict).1 = GPG_ERR_NO_ERROR) :
    charge_valid dict ∧
      (stripe_charge_card_query env dict).2.1 =
        (keyvalue_del true dict (some "Card-Token".toList)).2 := by
  unfold stripe_charge_card_query at h ⊢
  have h5 := (charge_optional_ok _ _ _ _).1 h
  have h4 := (charge_optional_ok _ _ _ _).1 h5
  rw [charge_consume_token_err_iff] at h4
  obtain ⟨h3, c3⟩ := charge_required_ok _ _ _ _ h4
  obtain ⟨h2, c2⟩ := charge_required_ok _ _ _ _ h3
  obtain ⟨_, c1⟩ := charge_required_ok _ _ _ _ h2
  rw [charge_required_dict, charge_required_dict] at c3
  rw [charge_required_dict] at c2
  refine ⟨⟨c1, c2, c3⟩, ?_⟩
  rw [(charge_optional_ok _ _ _ _).2, (charge_optional_ok _ _ _ _).2,
    charge_consume_token_ok _ h4]
  simp only [charge_required_dict]

/-- When all allocations succeed and the three required fields are not
empty, the query construction of Charge ends without error. -/
theorem charge_query_valid_mem (env : stripe_env) (dict : keyvalue_t)
    (hmem : ∀ i, env.mem i = true) (h : charge_valid dict) :
    (stripe_charge_card_query env dict).1 = GPG_ERR_NO_ERROR := by
  obtain ⟨c1, c2, c3⟩ := h
  unfold stripe_charge_card_query
  simp only [hmem]
  have h1 := charge_required_mem "Currency".toList "currency".toList
    (GPG_ERR_NO_ERROR, dict, []) rfl (by decide) c1
  have h2 := charge_required_mem "_amount".toList "amount".toList _ h1 (by decide)
    (by rw [charge_required_dict]; exact c2)
  have h3 := charge_required_mem "Card-Token".toList "card".toList _ h2 (by decide)
    (by rw [charge_required_dict, charge_required_dict]; exact c3)
  have h4 : (charge_consume_token (charge_required true "Card-Token".toList "card".toList
      (charge_required true "_amount".toList "amount".toList
        (charge_required true "Currency".toList "currency".toList
          (GPG_ERR_NO_ERROR, dict, []))))).1 = GPG_ERR_NO_ERROR := by
    rw [charge_consume_token_err_iff]
    exact h3
  exact charge_optional_mem _ _ _ (charge_optional_mem _ _ _ h4 (by decide)) (by decide)

/-- When all allocations succeed and one of the three required fields is
empty, the query construction of Charge ends with `GPG_ERR_MISSING_VALUE`. -/
theorem charge_query_missing (env : stripe_env) (dict : keyvalue_t)
    (hmem : ∀ i, env.mem i = true) (h : ¬ charge_valid dict) :
    (stripe_charge_card_query env dict).1 = GPG_ERR_MISSING_VALUE := by
  unfold stripe_charge_card_query
  simp only [hmem]
  by_cases c1 : keyvalue_get_string dict "Currency".toList = []
  · rw [charge_required_missing true "Currency".toList _ (GPG_ERR_NO_ERROR, dict, []) rfl c1,
      charge_required_err _ "_amount".toList _ _ (by simp),
      charge_required_err _ "Card-Token".toList _ _ (by simp),
      charge_consume_token_err _ (by simp),
      charge_optional_err _ "Desc".toList _ _ (by simp),
      charge_optional_err _ "Stmt-Desc".toList _ _ (by simp)]
  · have h1 := charge_required_mem "Currency".toList "currency".toList
      (GPG_ERR_NO_ERROR, dict, []) rfl (by decide) c1
    by_cases c2 : keyvalue_get_string dict "_amount".toList = []
    · rw [charge_required_missing true "_amount".toList _ _ h1
          (by rw [charge_required_dict]; exact c2),
        charge_required_err _ "Card-Token".toList _ _ (by simp),
        charge_consume_token_err _ (by simp),
        charge_optional_err _ "Desc".toList _ _ (by simp),
        charge_optional_err _ "Stmt-Desc".toList _ _ (by simp)]
    · have h2 := charge_required_mem "_amount".toList "amount".toList _ h1 (by decide)
        (by rw [charge_required_dict]; exact c2)
      have c3 : keyvalue_get_string dict "Card-Token".toList = [] := by
        by_contra hc
        exact h ⟨c1, c2, hc⟩
      rw [charge_required_missing true "Card-Token".toList _ _ h2
          (by rw [charge_required_dict, charge_required_dict]; exact c3),
        charge_consume_token_err _ (by simp),
        charge_optional_err _ "Desc".toList _ _ (by simp),
        charge_optional_err _ "Stmt-Desc".toList _ _ (by simp)]

/-! ## Charge: the call and the reply -/

theorem charge_no_call (env : stripe_env) (dict : keyvalue_t)
    (h : (stripe_charge_card_query env dict).1 ≠ GPG_ERR_NO_ERROR) :
    stripe_charge_card env dict =
      { err := (stripe_charge_card_query env dict).1,
        dict := (stripe_charge_card_query env dict).2.1, calls := [] } := by
  unfold stripe_charge_card
  dsimp only
  rw [if_pos h]

theorem charge_calls (env : stripe_env) (dict : keyvalue_t)
    (h : (stripe_charge_card_query env dict).1 = GPG_ERR_NO_ERROR) :
    (stripe_charge_card env dict).calls =
      (call_stripe (env.mem 5) env.http "charges".toList none
        (stripe_charge_card_query env dict).2.2).2 := by
  unfold stripe_charge_card
  dsimp only
  rw [if_neg (not_not.2 h)]
  split
  · rfl
  · split_ifs <;> rfl

theorem charge_ok (env : stripe_env) (dict : keyvalue_t) (json : cjson)
    (hq : (stripe_charge_card_query env dict).1 = GPG_ERR_NO_ERROR)
    (hc : (call_stripe (env.mem 5) env.http "charges".toList none
      (stripe_charge_card_query env dict).2.2).1 = .ok 200 json) :
    (stripe_charge_card env dict).err =
      (stripe_charge_card_response env (stripe_charge_card_query env dict).2.1 json).1 ∧
    (stripe_charge_card env dict).dict =
      (stripe_charge_card_response env (stripe_charge_card_query env dict).2.1 json).2 := by
  unfold stripe_charge_card
  dsimp only
  rw [if_neg (not_not.2 hq), hc]
  simp

theorem charge_status (env : stripe_env) (dict : keyvalue_t) (json : cjson) (status : Nat)
    (hq : (stripe_charge_card_query env dict).1 = GPG_ERR_NO_ERROR)
    (hc : (call_stripe (env.mem 5) env.http "charges".toList none
      (stripe_charge_card_query env dict).2.2).1 = .ok status json)
    (hs : status ≠ 200) :
    (stripe_charge_card env dict).err =
      (if (extract_error_from_json (env.mem 6) (env.mem 7)
          (stripe_charge_card_query env dict).2.1 json).1 ≠ GPG_ERR_NO_ERROR then
        (extract_error_from_json (env.mem 6) (env.mem 7)
          (stripe_charge_card_query env dict).2.1 json).1
       else GPG_ERR_GENERAL) ∧
    (stripe_charge_card env dict).dict =
      (extract_error_from_json (env.mem 6) (env.mem 7)
        (stripe_charge_card_query env dict).2.1 json).2 := by
  unfold stripe_charge_card
  dsimp only
  rw [if_neg (not_not.2 hq), hc]
  dsimp only
  rw [if_pos hs]
  exact ⟨rfl, rfl⟩

theorem charge_failed (env : stripe_env) (dict : keyvalue_t) (err : gpg_error_t)
    (status : Nat)
    (hq : (stripe_charge_card_query env dict).1 = GPG_ERR_NO_ERROR)
    (hc : (call_stripe (env.mem 5) env.http "charges".toList none
      (stripe_charge_card_query env dict).2.2).1 = .failed err status) :
    (stripe_charge_card env dict).err = err ∧
    (stripe_charge_card env dict).dict = (stripe_charge_card_query env dict).2.1 := by
  unfold stripe_charge_card
  dsimp only
  rw [if_neg (not_not.2 hq), hc]
  exact ⟨rfl, rfl⟩

/-! ## The gateway client: malformed replies and partial consumption -/

theorem response_bad (env : stripe_env) (dict : keyvalue_t) (json : cjson)
    (hbad : ¬ ((∃ id, cJSON_GetObjectItem json "id".toList = some (.string id)) ∧
      (∃ b, cJSON_GetObjectItem json "livemode".toList = some (.bool b)) ∧
      (∃ last4, (cJSON_GetObjectItem json "card".toList).bind
        (fun j_card => cJSON_GetObjectItem j_card "last4".toList) = some (.string last4)))) :
    stripe_create_card_token_response env dict json = (GPG_ERR_GENERAL, dict) := by
  unfold stripe_create_card_token_response
  split
  · rename_i id hid
    split
    · rename_i b hb
      split
      · rename_i last4 hl
        exact absurd ⟨⟨id, hid⟩, ⟨b, hb⟩, ⟨last4, hl⟩⟩ hbad
      · rfl
    · rfl
  · rfl

theorem get_card_fields_deleted_other (dict : keyvalue_t) (key : CStr)
    (h1 : key ≠ "Number".toList) (h2 : key ≠ "Exp-Year".toList)
    (h3 : key ≠ "Exp-Month".toList) (h4 : key ≠ "Cvc".toList) :
    keyvalue_get (card_fields_deleted dict) key = keyvalue_get dict key := by
  unfold card_fields_deleted
  rw [get_del_other _ _ _ _ (by decide) h4, get_del_other _ _ _ _ (by decide) h3,
    get_del_other _ _ _ _ (by decide) h2, get_del_other _ _ _ _ (by decide) h1]

/-- C21. When the reply with status 200 to Tokenize lacks `id`, `livemode`
or `card.last4`, or has one of them with another JSON type than string,
boolean and string, Tokenize returns the error `GPG_ERR_GENERAL` and puts
nothing into the record: the record is the one left by the checks, and Get
of `Token`, `Live` and `Last4` returns what it returned before the call. -/
theorem token_bad_reply (env : stripe_env) (dict : keyvalue_t) (json : cjson)
    (hmem : ∀ i, env.mem i = true) (hvalid : card_valid dict)
    (hreply : ∀ url q, env.http url q =
      { err := GPG_ERR_NO_ERROR, status := 200, body := .ok json })
    (hbad : ¬ ((∃ id, cJSON_GetObjectItem json "id".toList = some (.string id)) ∧
      (∃ b, cJSON_GetObjectItem json "livemode".toList = some (.bool b)) ∧
      (∃ last4, (cJSON_GetObjectItem json "card".toList).bind
        (fun j_card => cJSON_GetObjectItem j_card "last4".toList) = some (.string last4)))) :
    (stripe_create_card_token env dict).err = GPG_ERR_GENERAL ∧
    (stripe_create_card_token env dict).dict = card_fields_deleted dict ∧
    keyvalue_get (stripe_create_card_token env dict).dict "Token".toList =
      keyvalue_get dict "Token".toList ∧
    keyvalue_get (stripe_create_card_token env dict).dict "Live".toList =
      keyvalue_get dict "Live".toList ∧
    keyvalue_get (stripe_create_card_token env dict).dict "Last4".toList =
      keyvalue_get dict "Last4".toList := by
  have hq := query_valid_mem env dict hmem hvalid
  have hd := (query_ok env dict hq).2
  have hc : (call_stripe (env.mem 8) env.http "tokens".toList none
      (stripe_create_card_token_query env dict).2.2).1 = .ok 200 json := by
    rw [hmem 8]
    exact call_stripe_ok _ _ _ json hreply
  obtain ⟨he, hdict⟩ := create_card_token_ok env dict json hq hc
  rw [response_bad env _ json hbad] at he hdict
  rw [hd] at hdict
  refine ⟨he, hdict, ?_, ?_, ?_⟩ <;> rw [hdict] <;>
    exact get_card_fields_deleted_other dict _ (by decide) (by decide) (by decide) (by decide)

/-- Witness for C21: a reply whose `livemode` is a string. -/
theorem token_bad_reply_witness :
    card_valid sample_card ∧
    (stripe_create_card_token (reply_env 200 bad_token_json) sample_card).err
      = GPG_ERR_GENERAL ∧
    keyvalue_get (stripe_create_card_token (reply_env 200 bad_token_json) sample_card).dict
      "Token".toList = none :=
  have h := token_bad_reply (reply_env 200 bad_token_json) sample_card bad_token_json
    (fun _ => rfl) (by decide) (fun _ _ => rfl)
    (by
      rintro ⟨_, ⟨b, hb⟩, _⟩
      have e : cJSON_GetObjectItem bad_token_json "livemode".toList
          = some (.string "no".toList) := rfl
      rw [e] at hb
      cases hb)
  ⟨by decide, h.1, h.2.2.1.trans (by decide)⟩

/-- The state in which the query construction ends when the allocations
succeed, `Number` is not empty and the check of `Exp-Year` fails. -/
theorem query_year_invalid (env : stripe_env) (dict : keyvalue_t)
    (hmem : ∀ i, env.mem i = true) (c0 : number_ok dict)
    (c1 : ¬ int_field_ok dict "Exp-Year".toList 2014 2199) :
    (stripe_create_card_token_query env dict).1 = GPG_ERR_INV_VALUE ∧
    (stripe_create_card_token_query env dict).2.1 =
      (keyvalue_del true dict (some "Number".toList)).2 := by
  unfold stripe_create_card_token_query
  simp only [hmem]
  have h0 := token_number_mem dict c0
  have d0 := (token_number_ok true dict h0).2
  rw [token_int_field_invalid true true "Exp-Year".toList _ 2014 2199 _ h0 (by
        rw [d0]
        unfold int_field_ok at c1 ⊢
        rwa [get_string_del_other _ _ _ _ (by decide) (by decide)]),
      token_int_field_err _ _ "Exp-Month".toList _ _ _ _ (by simp),
      token_int_field_err _ _ "Cvc".toList _ _ _ _ (by simp), token_name_err _ _ (by simp)]
  exact ⟨rfl, d0⟩

/-- The state in which the query construction ends when the allocations
succeed, the first two checks pass and the check of `Exp-Month` fails. -/
theorem query_month_invalid (env : stripe_env) (dict : keyvalue_t)
    (hmem : ∀ i, env.mem i = true) (c0 : number_ok dict)
    (c1 : int_field_ok dict "Exp-Year".toList 2014 2199)
    (c2 : ¬ int_field_ok dict "Exp-Month".toList 1 12) :
    (stripe_create_card_token_query env dict).1 = GPG_ERR_INV_VALUE ∧
    (stripe_create_card_token_query env dict).2.1 =
      (keyvalue_del true (keyvalue_del true dict (some "Number".toList)).2
        (some "Exp-Year".toList)).2 := by
  unfold stripe_create_card_token_query
  simp only [hmem]
  have h0 := token_number_mem dict c0
  have d0 := (token_number_ok true dict h0).2
  have h1 := token_int_field_mem "Exp-Year".toList "card[exp_year]".toList 2014 2199
    (token_number true dict) h0 (by decide) (by
      rw [d0]
      unfold int_field_ok at c1 ⊢
      rwa [get_string_del_other _ _ _ _ (by decide) (by decide)])
  have d1 := (token_int_field_ok _ _ _ _ _ _ _ h1).2.2
  rw [token_int_field_invalid true true "Exp-Month".toList _ 1 12 _ h1 (by
        rw [d1, d0]
        unfold int_field_ok at c2 ⊢
        rwa [get_string_del_other _ _ _ _ (by decide) (by decide),
          get_string_del_other _ _ _ _ (by decide) (by decide)]),
      token_int_field_err _ _ "Cvc".toList _ _ _ _ (by simp), token_name_err _ _ (by simp)]
  exact ⟨rfl, by rw [d1, d0]⟩

/-- The state in which the query construction ends when the allocations
succeed, the first three checks pass and the check of `Cvc` fails. -/
theorem query_cvc_invalid (env : stripe_env) (dict : keyvalue_t)
    (hmem : ∀ i, env.mem i = true) (c0 : number_ok dict)
    (c1 : int_field_ok dict "Exp-Year".toList 2014 2199)
    (c2 : int_field_ok dict "Exp-Month".toList 1 12)
    (c3 : ¬ int_field_ok dict "Cvc".toList 100 9999) :
    (stripe_create_card_token_query env dict).1 = GPG_ERR_INV_VALUE ∧
    (stripe_create_card_token_query env dict).2.1 =
      (keyvalue_del true (keyvalue_del true (keyvalue_del true dict (some "Number".toList)).2
        (some "Exp-Year".toList)).2 (some "Exp-Month".toList)).2 := by
  unfold stripe_create_card_token_query
  simp only [hmem]
  have h0 := token_number_mem dict c0
  have d0 := (token_number_ok true dict h0).2
  have h1 := token_int_field_mem "Exp-Year".toList "card[exp_year]".toList 2014 2199
    (token_number true dict) h0 (by decide) (by
      rw [d0]
      unfold int_field_ok at c1 ⊢
      rwa [get_string_del_other _ _ _ _ (by decide) (by decide)])
  have d1 := (token_int_field_ok _ _ _ _ _ _ _ h1).2.2
  have h2 := token_int_field_mem "Exp-Month".toList "card[exp_month]".toList 1 12 _ h1
    (by decide) (by
      rw [d1, d0]
      unfold int_field_ok at c2 ⊢
      rwa [get_string_del_other _ _ _ _ (by decide) (by decide),
        get_string_del_other _ _ _ _ (by decide) (by decide)])
  have d2 := (token_int_field_ok _ _ _ _ _ _ _ h2).2.2
  rw [token_int_field_invalid true true "Cvc".toList _ 100 9999 _ h2 (by
        rw [d2, d1, d0]
        unfold int_field_ok at c3 ⊢
        rwa [get_string_del_other _ _ _ _ (by decide) (by decide),
          get_string_del_other _ _ _ _ (by decide) (by decide),
          get_string_del_other _ _ _ _ (by decide) (by decide)]),
      token_name_err _ _ (by simp)]
  exact ⟨rfl, by rw [d2, d1, d0]⟩

theorem create_card_token_invalid (env : stripe_env) (dict : keyvalue_t)
    (h : (stripe_create_card_token_query env dict).1 = GPG_ERR_INV_VALUE) :
    (stripe_create_card_token env dict).err = GPG_ERR_INV_VALUE ∧
    (stripe_create_card_token env dict).dict = (stripe_create_card_token_query env dict).2.1 := by
  rw [create_card_token_no_call env dict (by rw [h]; simp), h]
  exact ⟨rfl, rfl⟩

/-- C29. When Tokenize fails a check (the allocations before it succeeding),
the card fields are consumed only up to the failing one; a check fails, as in
the code, when the field is empty or the `int` that `atoi` reads from it lies
outside the range.  With an empty `Number` the record is unchanged.  When the first failing check is the one
of `Exp-Year`, `Exp-Month` or `Cvc`, Tokenize returns `GPG_ERR_INV_VALUE`,
Get returns absent for the fields checked before it, and the failing field
and the fields checked after it keep their values. -/
theorem token_partial_consumption (env : stripe_env) (dict : keyvalue_t)
    (hmem : ∀ i, env.mem i = true) :
    (¬ number_ok dict → (stripe_create_card_token env dict).dict = dict) ∧
    (number_ok dict → ¬ int_field_ok dict "Exp-Year".toList 2014 2199 →
      (stripe_create_card_token env dict).err = GPG_ERR_INV_VALUE ∧
      keyvalue_get (stripe_create_card_token env dict).dict "Number".toList = none ∧
      keyvalue_get (stripe_create_card_token env dict).dict "Exp-Year".toList =
        keyvalue_get dict "Exp-Year".toList ∧
      keyvalue_get (stripe_create_card_token env dict).dict "Exp-Month".toList =
        keyvalue_get dict "Exp-Month".toList ∧
      keyvalue_get (stripe_create_card_token env dict).dict "Cvc".toList =
        keyvalue_get dict "Cvc".toList) ∧
    (number_ok dict → int_field_ok dict "Exp-Year".toList 2014 2199 →
      ¬ int_field_ok dict "Exp-Month".toList 1 12 →
      (stripe_create_card_token env dict).err = GPG_ERR_INV_VALUE ∧
      keyvalue_get (stripe_create_card_token env dict).dict "Number".toList = none ∧
      keyvalue_get (stripe_create_card_token env dict).dict "Exp-Year".toList = none ∧
      keyvalue_get (stripe_create_card_token env dict).dict "Exp-Month".toList =
        keyvalue_get dict "Exp-Month".toList ∧
      keyvalue_get (stripe_create_card_token env dict).dict "Cvc".toList =
        keyvalue_get dict "Cvc".toList) ∧
    (number_ok dict → int_field_ok dict "Exp-Year".toList 2014 2199 →
      int_field_ok dict "Exp-Month".toList 1 12 →
      ¬ int_field_ok dict "Cvc".toList 100 9999 →
      (stripe_create_card_token env dict).err = GPG_ERR_INV_VALUE ∧
      keyvalue_get (stripe_create_card_token env dict).dict "Number".toList = none ∧
      keyvalue_get (stripe_create_card_token env dict).dict "Exp-Year".toList = none ∧
      keyvalue_get (stripe_create_card_token env dict).dict "Exp-Month".toList = none ∧
      keyvalue_get (stripe_create_card_token env dict).dict "Cvc".toList =
        keyvalue_get dict "Cvc".toList) := by
  refine ⟨fun hn => ?_, fun c0 c1 => ?_, fun c0 c1 c2 => ?_, fun c0 c1 c2 c3 => ?_⟩
  · have hq := query_number_empty env dict hn
    rw [create_card_token_no_call env dict (by rw [hq]; simp), hq]
  · obtain ⟨hq, hd⟩ := query_year_invalid env dict hmem c0 c1
    obtain ⟨he, hdict⟩ := create_card_token_invalid env dict hq
    rw [hdict, hd]
    exact ⟨he, get_del_self _ _ _ (by decide),
      get_del_other _ _ _ _ (by decide) (by decide),
      get_del_other _ _ _ _ (by decide) (by decide),
      get_del_other _ _ _ _ (by decide) (by decide)⟩
  · obtain ⟨hq, hd⟩ := query_month_invalid env dict hmem c0 c1 c2
    obtain ⟨he, hdict⟩ := create_card_token_invalid env dict hq
    rw [hdict, hd]
    refine ⟨he, ?_, get_del_self _ _ _ (by decide), ?_, ?_⟩
    · rw [get_del_other _ _ _ _ (by decide) (by decide), get_del_self _ _ _ (by decide)]
    · rw [get_del_other _ _ _ _ (by decide) (by decide),
        get_del_other _ _ _ _ (by decide) (by decide)]
    · rw [get_del_other _ _ _ _ (by decide) (by decide),
        get_del_other _ _ _ _ (by decide) (by decide)]
  · obtain ⟨hq, hd⟩ := query_cvc_invalid env dict hmem c0 c1 c2 c3
    obtain ⟨he, hdict⟩ := create_card_token_invalid env dict hq
    rw [hdict, hd]
    refine ⟨he, ?_, ?_, get_del_self _ _ _ (by decide), ?_⟩
    · rw [get_del_other _ _ _ _ (by decide) (by decide),
        get_del_other _ _ _ _ (by decide) (by decide), get_del_self _ _ _ (by decide)]
    · rw [get_del_other _ _ _ _ (by decide) (by decide), get_del_self _ _ _ (by decide)]
    · rw [get_del_other _ _ _ _ (by decide) (by decide),
        get_del_other _ _ _ _ (by decide) (by decide),
        get_del_other _ _ _ _ (by decide) (by decide)]

/-- Witness for C29: with a valid `Number` and `Exp-Year` 2000, `Number` is
gone and `Exp-Year`, `Exp-Month` and `Cvc` remain. -/
theorem token_partial_consumption_witness :
    number_ok year_2000_card ∧ ¬ int_field_ok year_2000_card "Exp-Year".toList 2014 2199 ∧
    keyvalue_get (stripe_create_card_token sample_stripe_env year_2000_card).dict
      "Number".toList = none ∧
    keyvalue_get (stripe_create_card_token sample_stripe_env year_2000_card).dict
      "Exp-Year".toList = some "2000".toList ∧
    keyvalue_get (stripe_create_card_token sample_stripe_env year_2000_card).dict
      "Exp-Month".toList = some "12".toList ∧
    keyvalue_get (stripe_create_card_token sample_stripe_env year_2000_card).dict
      "Cvc".toList = some "123".toList :=
  have h := (token_partial_consumption sample_stripe_env year_2000_card
    (fun _ => rfl)).2.1 (by decide) (by decide)
  ⟨by decide, by decide, h.2.1, h.2.2.1.trans (by decide), h.2.2.2.1.trans (by decide),
    h.2.2.2.2.trans (by decide)⟩

/-! ## The time stamp -/

theorem db_datetime_now_buffer (c0 c1 c2 c3 c4 c5 c6 c7 c8 c9 c10 c11 c12 c13 c14 : Char)
    (p0 p1 p2 p3 : Char) :
    db_datetime_now [c0, c1, c2, c3, c4, c5, c6, c7, c8, c9, c10, c11, c12, c13, c14, NUL,
        p0, p1, p2, p3] =
      [c0, c1, c2, c3, '-', c4, c5, '-', c6, c7, ' ', c9, c10, ':', c11, c12, ':', c13, c14,
        NUL] := by
  simp only [db_datetime_now, List.set_cons_succ, List.set_cons_zero, List.getD_cons_succ,
    List.getD_cons_zero]

theorem buffer_cstr_append_nul (s rest : List Char) (h : NUL ∉ s) :
    buffer_cstr (s ++ NUL :: rest) = s := by
  unfold buffer_cstr
  rw [List.takeWhile_append_of_pos]
  · simp
  · intro a ha
    simp only [ne_eq, decide_eq_true_eq]
    intro e
    exact h (e ▸ ha)

/-- C27. The stored creation time has the layout `YYYY-MM-DD HH:MM:SS`: for
every compact time stamp `c` of 15 characters (none of them NUL) that
`get_current_time` writes, NUL-terminated, into the buffer of 20 bytes,
whatever the last four bytes hold, the conversion in place leaves the string
of the 19 characters `c[0..3]`, `-`, `c[4..5]`, `-`, `c[6..7]`, a blank,
`c[9..10]`, `:`, `c[11..12]`, `:`, `c[13..14]`; the character `c[8]` (the
`T`) is the only one dropped. -/
theorem db_datetime_now_layout (c pad : List Char) (hc : c.length = 15) (hnul : NUL ∉ c)
    (hpad : pad.length = 4) :
    buffer_cstr (db_datetime_now (c ++ NUL :: pad)) =
      c.take 4 ++ '-' :: (c.drop 4).take 2 ++ '-' :: (c.drop 6).take 2 ++ ' ' ::
        (c.drop 9).take 2 ++ ':' :: (c.drop 11).take 2 ++ ':' :: (c.drop 13).take 2 ∧
    (buffer_cstr (db_datetime_now (c ++ NUL :: pad))).length = 19 := by
  match c, hc with
  | [c0, c1, c2, c3, c4, c5, c6, c7, c8, c9, c10, c11, c12, c13, c14], _ =>
    match pad, hpad with
    | [p0, p1, p2, p3], _ =>
      have e : [c0, c1, c2, c3, c4, c5, c6, c7, c8, c9, c10, c11, c12, c13, c14] ++
          NUL :: [p0, p1, p2, p3] =
          [c0, c1, c2, c3, c4, c5, c6, c7, c8, c9, c10, c11, c12, c13, c14, NUL,
            p0, p1, p2, p3] := rfl
      have e2 : [c0, c1, c2, c3, '-', c4, c5, '-', c6, c7, ' ', c9, c10, ':', c11, c12, ':',
          c13, c14, NUL] =
          [c0, c1, c2, c3, '-', c4, c5, '-', c6, c7, ' ', c9, c10, ':', c11, c12, ':',
            c13, c14] ++ NUL :: [] := rfl
      rw [e, db_datetime_now_buffer, e2, buffer_cstr_append_nul]
      · exact ⟨rfl, rfl⟩
      · simp only [List.mem_cons, List.mem_singleton, not_or, List.not_mem_nil, or_false]
          at hnul ⊢
        obtain ⟨h0, h1, h2, h3, h4, h5, h6, h7, h8, h9, h10, h11, h12, h13, h14⟩ := hnul
        exact ⟨h0, h1, h2, h3, by decide, h4, h5, by decide, h6, h7, by decide, h9, h10,
          by decide, h11, h12, by decide, h13, h14⟩

/-- Witness for C27: noon of 1970-01-01. -/
theorem db_datetime_now_layout_witness :
    "19700101T120000".toList.length = 15 ∧ NUL ∉ "19700101T120000".toList ∧
    buffer_cstr (db_datetime_now ("19700101T120000".toList ++ NUL :: ['w', 'x', 'y', 'z'])) =
      "1970-01-01 12:00:00".toList :=
  ⟨by decide, by decide,
    (db_datetime_now_layout "19700101T120000".toList ['w', 'x', 'y', 'z'] (by decide)
      (by decide) (by decide)).1.trans (by decide)⟩

/-! ## The gateway client: error replies -/

/-- C22. For every reply with a status 4xx whose body has an error object
with a string `type`, Tokenize and Charge, on input that passes their checks
and with all allocations succeeding, return the error `GPG_ERR_GENERAL`, and
the record is the one left by the checks with the failure reported in it:
`failure` is set by the type (for `card_error` the code if not empty, else
"card error"), `failure-mesg` is written only for `card_error` with a
message that is not empty, and Get of every other key, such as `Charge-Id`,
returns what it returned before. -/
theorem error_reply_failure (env : stripe_env) (status : Nat) (json : cjson)
    (members : List (CStr × cjson)) (type : CStr)
    (hmem : ∀ i, env.mem i = true)
    (hreply : ∀ url q, env.http url q =
      { err := GPG_ERR_NO_ERROR, status := status, body := .ok json })
    (hs : status / 100 = 4)
    (herr : cJSON_GetObjectItem json "error".toList = some (.object members))
    (htype : cJSON_GetObjectItem (.object members) "type".toList = some (.string type)) :
    (∀ dict, card_valid dict →
      (stripe_create_card_token env dict).err = GPG_ERR_GENERAL ∧
      failure_reported (card_fields_deleted dict) (stripe_create_card_token env dict).dict type
        (string_or_empty (cJSON_GetObjectItem (.object members) "code".toList))
        (string_or_empty (cJSON_GetObjectItem (.object members) "message".toList)) ∧
      ∀ key : CStr, key ∈ ["Token".toList, "Live".toList, "Last4".toList] →
        keyvalue_get (stripe_create_card_token env dict).dict key = keyvalue_get dict key) ∧
    (∀ dict, charge_valid dict →
      (stripe_charge_card env dict).err = GPG_ERR_GENERAL ∧
      failure_reported (keyvalue_del true dict (some "Card-Token".toList)).2
        (stripe_charge_card env dict).dict type
        (string_or_empty (cJSON_GetObjectItem (.object members) "code".toList))
        (string_or_empty (cJSON_GetObjectItem (.object members) "message".toList)) ∧
      ∀ key : CStr, key ∈ ["Charge-Id".toList, "balance-transaction".toList, "Live".toList,
          "Currency".toList, "_amount".toList, "Last4".toList] →
        keyvalue_get (stripe_charge_card env dict).dict key = keyvalue_get dict key) := by
  have hne : status ≠ 200 := by
    intro e
    rw [e] at hs
    exact absurd hs (by decide)
  constructor
  · intro dict hvalid
    have hq := query_valid_mem env dict hmem hvalid
    have hd := (query_ok env dict hq).2
    have hc : (call_stripe (env.mem 8) env.http "tokens".toList none
        (stripe_create_card_token_query env dict).2.2).1 = .ok status json := by
      rw [hmem 8]
      exact call_stripe_reply _ _ _ status json hreply (Or.inr hs)
    obtain ⟨he, hdict⟩ := create_card_token_status env dict json status hq hc hne
    rw [hmem 9, hmem 10, hd] at he hdict
    obtain ⟨h0, hrep⟩ := extract_error_spec (card_fields_deleted dict) json members type
      herr htype
    rw [if_neg (not_not.2 h0)] at he
    rw [hdict]
    refine ⟨he, hrep, fun key hkey => ?_⟩
    have hk : key ≠ "failure".toList ∧ key ≠ "failure-mesg".toList ∧
        key ≠ "Number".toList ∧ key ≠ "Exp-Year".toList ∧ key ≠ "Exp-Month".toList ∧
        key ≠ "Cvc".toList := by
      simp only [List.mem_cons, List.mem_singleton, List.mem_nil_iff, or_false] at hkey
      rcases hkey with e | e | e <;> rw [e] <;> decide
    rw [hrep.2.2 key hk.1 hk.2.1]
    exact get_card_fields_deleted_other dict key hk.2.2.1 hk.2.2.2.1 hk.2.2.2.2.1 hk.2.2.2.2.2
  · intro dict hvalid
    have hq := charge_query_valid_mem env dict hmem hvalid
    have hd := (charge_query_ok env dict hq).2
    have hc : (call_stripe (env.mem 5) env.http "charges".toList none
        (stripe_charge_card_query env dict).2.2).1 = .ok status json := by
      rw [hmem 5]
      exact call_stripe_reply _ _ _ status json hreply (Or.inr hs)
    obtain ⟨he, hdict⟩ := charge_status env dict json status hq hc hne
    rw [hmem 6, hmem 7, hd] at he hdict
    obtain ⟨h0, hrep⟩ := extract_error_spec (keyvalue_del true dict
      (some "Card-Token".toList)).2 json members type herr htype
    rw [if_neg (not_not.2 h0)] at he
    rw [hdict]
    refine ⟨he, hrep, fun key hkey => ?_⟩
    have hk : key ≠ "failure".toList ∧ key ≠ "failure-mesg".toList ∧
        key ≠ "Card-Token".toList := by
      simp only [List.mem_cons, List.mem_singleton, List.mem_nil_iff, or_false] at hkey
      rcases hkey with e | e | e | e | e | e <;> rw [e] <;> decide
    rw [hrep.2.2 key hk.1 hk.2.1]
    exact get_del_other _ _ _ _ (by decide) hk.2.2

/-- Witness for C22: the declined card of the example, status 402. -/
theorem error_reply_failure_witness :
    charge_valid sample_charge ∧
    (stripe_charge_card (reply_env 402 declined_json) sample_charge).err = GPG_ERR_GENERAL ∧
    keyvalue_get (stripe_charge_card (reply_env 402 declined_json) sample_charge).dict
      "failure".toList = some "card_declined".toList ∧
    keyvalue_get (stripe_charge_card (reply_env 402 declined_json) sample_charge).dict
      "Charge-Id".toList = none :=
  have h := (error_reply_failure (reply_env 402 declined_json) 402 declined_json
    [("type".toList, .string "card_error".toList),
     ("code".toList, .string "card_declined".toList),
     ("message".toList, .string "Your card was declined.".toList)] "card_error".toList
    (fun _ => rfl) (fun _ _ => rfl) (by decide) rfl rfl).2 sample_charge (by decide)
  ⟨by decide, h.1, h.2.1.1.trans (by decide),
    (h.2.2 "Charge-Id".toList (by decide)).trans (by decide)⟩

theorem from_syserror_ne (e : Errno) : gpg_error_from_syserror e ≠ GPG_ERR_NO_ERROR := by
  cases e <;> simp [gpg_error_from_syserror, gpg_error, gpg_err_code_from_syserror]

/-- A reply that `call_stripe` turns into an error: a failure of the
transport, a status that is neither 2xx nor 4xx, or a body that cannot be
read and parsed. -/
theorem call_stripe_fails (mem : Bool) (http : CStr → keyvalue_t → http_reply)
    (method : CStr) (formdata : keyvalue_t)
    (hreply : ∀ url q, (http url q).err ≠ GPG_ERR_NO_ERROR ∨
      ¬ ((http url q).status / 100 = 2 ∨ (http url q).status / 100 = 4) ∨
      ∃ e, (http url q).body = .error e) :
    ∃ err status, (call_stripe mem http method none formdata).1 = .failed err status ∧
      err ≠ GPG_ERR_NO_ERROR := by
  unfold call_stripe
  cases hs : strconcat mem (some STRIPE_HOST) (["/v1/".toList, method] ++ []) with
  | error e => exact ⟨_, 0, rfl, from_syserror_ne e⟩
  | ok url =>
    dsimp only
    by_cases h1 : (http url formdata).err ≠ GPG_ERR_NO_ERROR
    · rw [if_pos h1]
      exact ⟨_, 0, rfl, h1⟩
    · rw [if_neg h1]
      by_cases h2 : (http url formdata).status / 100 = 2 ∨ (http url formdata).status / 100 = 4
      · rw [if_pos h2]
        rcases hreply url formdata with h | h | ⟨e, h⟩
        · exact absurd h h1
        · exact absurd h2 h
        · rw [h]
          exact ⟨_, _, rfl, from_syserror_ne e⟩
      · rw [if_neg h2]
        exact ⟨_, _, rfl, by simp [gpg_error]⟩

theorem token_number_get_other (mem : Bool) (dict : keyvalue_t) (other : CStr)
    (hne : other ≠ "Number".toList) :
    keyvalue_get (token_number mem dict).2.1 other = keyvalue_get dict other := by
  unfold token_number
  dsimp only
  split_ifs
  · rfl
  · rfl
  · exact get_del_other _ _ _ _ (by decide) hne

theorem token_int_field_get_other (memf memp : Bool) (key qkey : CStr) (lo hi : Int)
    (v : query_state) (other : CStr) (hk : key ≠ []) (hne : other ≠ key) :
    keyvalue_get (token_int_field memf memp key qkey lo hi v).2.1 other =
      keyvalue_get v.2.1 other := by
  by_cases h : (token_int_field memf memp key qkey lo hi v).1 = GPG_ERR_NO_ERROR
  · rw [(token_int_field_ok _ _ _ _ _ _ _ h).2.2]
    exact get_del_other _ _ _ _ hk hne
  · rw [token_int_field_dict _ _ _ _ _ _ _ h]

/-- The query construction of Tokenize changes nothing but the four card
fields, however it ends. -/
theorem token_query_get_other (env : stripe_env) (dict : keyvalue_t) (other : CStr)
    (h1 : other ≠ "Number".toList) (h2 : other ≠ "Exp-Year".toList)
    (h3 : other ≠ "Exp-Month".toList) (h4 : other ≠ "Cvc".toList) :
    keyvalue_get (stripe_create_card_token_query env dict).2.1 other =
      keyvalue_get dict other := by
  unfold stripe_create_card_token_query
  rw [(token_name_ok _ _).2, token_int_field_get_other _ _ _ _ _ _ _ _ (by decide) h4,
    token_int_field_get_other _ _ _ _ _ _ _ _ (by decide) h3,
    token_int_field_get_other _ _ _ _ _ _ _ _ (by decide) h2,
    token_number_get_other _ _ _ h1]

theorem charge_consume_token_get_other (v : query_state) (other : CStr)
    (hne : other ≠ "Card-Token".toList) :
    keyvalue_get (charge_consume_token v).2.1 other = keyvalue_get v.2.1 other := by
  unfold charge_consume_token
  split_ifs
  · rfl
  · exact get_del_other _ _ _ _ (by decide) hne

/-- The query construction of Charge changes nothing but `Card-Token`,
however it ends. -/
theorem charge_query_get_other (env : stripe_env) (dict : keyvalue_t) (other : CStr)
    (hne : other ≠ "Card-Token".toList) :
    keyvalue_get (stripe_charge_card_query env dict).2.1 other = keyvalue_get dict other := by
  unfold stripe_charge_card_query
  rw [(charge_optional_ok _ _ _ _).2, (charge_optional_ok _ _ _ _).2,
    charge_consume_token_get_other _ _ hne, charge_required_dict, charge_required_dict,
    charge_required_dict]

/-- The dictionary and the error of Tokenize when `call_stripe` cannot end
without error: the dictionary is the one left by the query construction. -/
theorem create_card_token_call_fails (env : stripe_env) (dict : keyvalue_t)
    (hcall : ∃ err status, (call_stripe (env.mem 8) env.http "tokens".toList none
      (stripe_create_card_token_query env dict).2.2).1 = .failed err status ∧
      err ≠ GPG_ERR_NO_ERROR) :
    (stripe_create_card_token env dict).err ≠ GPG_ERR_NO_ERROR ∧
    (stripe_create_card_token env dict).dict = (stripe_create_card_token_query env dict).2.1 := by
  by_cases hq : (stripe_create_card_token_query env dict).1 = GPG_ERR_NO_ERROR
  · obtain ⟨err, status, hc, hne⟩ := hcall
    obtain ⟨he, hd⟩ := create_card_token_failed env dict err status hq hc
    rw [he]
    exact ⟨hne, hd⟩
  · rw [create_card_token_no_call env dict hq]
    exact ⟨hq, rfl⟩

theorem charge_call_fails (env : stripe_env) (dict : keyvalue_t)
    (hcall : ∃ err status, (call_stripe (env.mem 5) env.http "charges".toList none
      (stripe_charge_card_query env dict).2.2).1 = .failed err status ∧
      err ≠ GPG_ERR_NO_ERROR) :
    (stripe_charge_card env dict).err ≠ GPG_ERR_NO_ERROR ∧
    (stripe_charge_card env dict).dict = (stripe_charge_card_query env dict).2.1 := by
  by_cases hq : (stripe_charge_card_query env dict).1 = GPG_ERR_NO_ERROR
  · obtain ⟨err, status, hc, hne⟩ := hcall
    obtain ⟨he, hd⟩ := charge_failed env dict err status hq hc
    rw [he]
    exact ⟨hne, hd⟩
  · rw [charge_no_call env dict hq]
    exact ⟨hq, rfl⟩

/-- C23, counterexample. Status 201 is neither 200 nor 4xx, yet for a reply
with status 201 whose body has an error object Tokenize and Charge write
`failure` and `failure-mesg` into the record. -/
theorem status_201_counterexample :
    (201 : Nat) ≠ 200 ∧ ¬ ((201 : Nat) / 100 = 4) ∧
    card_valid sample_card ∧ keyvalue_get sample_card "failure".toList = none ∧
    keyvalue_get (stripe_create_card_token (reply_env 201 declined_json) sample_card).dict
      "failure".toList = some "card_declined".toList ∧
    charge_valid sample_charge ∧ keyvalue_get sample_charge "failure-mesg".toList = none ∧
    keyvalue_get (stripe_charge_card (reply_env 201 declined_json) sample_charge).dict
      "failure-mesg".toList = some "Your card was declined.".toList := by
  decide

/-- C23, amended. When every reply is a failure of the transport, has a
status that is neither 2xx nor 4xx, or has a body that cannot be read and
parsed, Tokenize and Charge return an error, whatever the record and the
allocations, and Get of `failure` and of `failure-mesg` returns what it
returned before the call: the record is the one left by the checks. -/
theorem gateway_failure_no_detail (env : stripe_env) (dict : keyvalue_t)
    (hreply : ∀ url q, (env.http url q).err ≠ GPG_ERR_NO_ERROR ∨
      ¬ ((env.http url q).status / 100 = 2 ∨ (env.http url q).status / 100 = 4) ∨
      ∃ e, (env.http url q).body = .error e) :
    ((stripe_create_card_token env dict).err ≠ GPG_ERR_NO_ERROR ∧
      (stripe_create_card_token env dict).dict = (stripe_create_card_token_query env dict).2.1 ∧
      keyvalue_get (stripe_create_card_token env dict).dict "failure".toList =
        keyvalue_get dict "failure".toList ∧
      keyvalue_get (stripe_create_card_token env dict).dict "failure-mesg".toList =
        keyvalue_get dict "failure-mesg".toList) ∧
    ((stripe_charge_card env dict).err ≠ GPG_ERR_NO_ERROR ∧
      (stripe_charge_card env dict).dict = (stripe_charge_card_query env dict).2.1 ∧
      keyvalue_get (stripe_charge_card env dict).dict "failure".toList =
        keyvalue_get dict "failure".toList ∧
      keyvalue_get (stripe_charge_card env dict).dict "failure-mesg".toList =
        keyvalue_get dict "failure-mesg".toList) := by
  obtain ⟨he, hd⟩ := create_card_token_call_fails env dict
    (call_stripe_fails _ env.http _ _ hreply)
  obtain ⟨he2, hd2⟩ := charge_call_fails env dict (call_stripe_fails _ env.http _ _ hreply)
  refine ⟨⟨he, hd, ?_, ?_⟩, he2, hd2, ?_, ?_⟩
  · rw [hd]
    exact token_query_get_other env dict _ (by decide) (by decide) (by decide) (by decide)
  · rw [hd]
    exact token_query_get_other env dict _ (by decide) (by decide) (by decide) (by decide)
  · rw [hd2]
    exact charge_query_get_other env dict _ (by decide)
  · rw [hd2]
    exact charge_query_get_other env dict _ (by decide)

/-- Witness for C23: the gateway answers with status 500 and an error object
in the body. -/
theorem gateway_failure_no_detail_witness :
    (stripe_charge_card (reply_env 500 declined_json) sample_charge).err
      ≠ GPG_ERR_NO_ERROR ∧
    keyvalue_get (stripe_charge_card (reply_env 500 declined_json) sample_charge).dict
      "failure".toList = none :=
  have h := (gateway_failure_no_detail (reply_env 500 declined_json) sample_charge
    (fun _ _ => Or.inr (Or.inl
      (show ¬ ((500 : Nat) / 100 = 2 ∨ (500 : Nat) / 100 = 4) from by decide)))).2
  ⟨h.1, h.2.2.1.trans (by decide)⟩

/-! ## The gateway client: what Charge does -/

/-- C24. Charge hands at most one request to the gateway, and hands one only
if `Currency`, `_amount` and `Card-Token` are all present and not empty.
When they are (and the allocations succeed) it hands exactly one.  When one
of them is absent or empty it hands no request to the gateway, and (the
allocations succeeding) returns `GPG_ERR_MISSING_VALUE`. -/
theorem charge_gateway_calls (env : stripe_env) (dict : keyvalue_t) :
    (stripe_charge_card env dict).calls.length ≤ 1 ∧
    ((stripe_charge_card env dict).calls ≠ [] → charge_valid dict) ∧
    ((∀ i, env.mem i = true) → charge_valid dict →
      (stripe_charge_card env dict).calls.length = 1) ∧
    (¬ charge_valid dict → (stripe_charge_card env dict).calls = [] ∧
      (stripe_charge_card env dict).err ≠ GPG_ERR_NO_ERROR) ∧
    ((∀ i, env.mem i = true) → ¬ charge_valid dict →
      (stripe_charge_card env dict).err = GPG_ERR_MISSING_VALUE ∧
      (stripe_charge_card env dict).calls = []) := by
  refine ⟨?_, ?_, ?_, ?_, ?_⟩
  · by_cases hq : (stripe_charge_card_query env dict).1 = GPG_ERR_NO_ERROR
    · rw [charge_calls env dict hq]
      exact (call_stripe_calls _ _ _ _).1
    · rw [charge_no_call env dict hq]
      simp
  · intro hc
    by_cases hq : (stripe_charge_card_query env dict).1 = GPG_ERR_NO_ERROR
    · exact (charge_query_ok env dict hq).1
    · rw [charge_no_call env dict hq] at hc
      exact absurd rfl hc
  · intro hmem hv
    rw [charge_calls env dict (charge_query_valid_mem env dict hmem hv)]
    exact (call_stripe_calls _ _ _ _).2 (hmem 5)
  · intro hn
    have hq : (stripe_charge_card_query env dict).1 ≠ GPG_ERR_NO_ERROR :=
      fun h => hn (charge_query_ok env dict h).1
    rw [charge_no_call env dict hq]
    exact ⟨rfl, hq⟩
  · intro hmem hn
    have hq := charge_query_missing env dict hmem hn
    rw [charge_no_call env dict (by rw [hq]; simp), hq]
    exact ⟨rfl, rfl⟩

/-- Witness for C24: without `Card-Token` Charge returns
`GPG_ERR_MISSING_VALUE` and hands nothing to the gateway, whatever the
transport. -/
theorem charge_gateway_calls_witness :
    ¬ charge_valid [⟨"Currency".toList, some "EUR".toList⟩,
      ⟨"_amount".toList, some "500".toList⟩] ∧
    ∀ http : CStr → keyvalue_t → http_reply,
      (stripe_charge_card { mem := fun _ => true, http := http }
        [⟨"Currency".toList, some "EUR".toList⟩,
          ⟨"_amount".toList, some "500".toList⟩]).err = GPG_ERR_MISSING_VALUE ∧
      (stripe_charge_card { mem := fun _ => true, http := http }
        [⟨"Currency".toList, some "EUR".toList⟩,
          ⟨"_amount".toList, some "500".toList⟩]).calls = [] :=
  ⟨by decide, fun http =>
    (charge_gateway_calls { mem := fun _ => true, http := http } _).2.2.2.2 (fun _ => rfl)
      (by decide)⟩

theorem charge_id_ok (json : cjson) (dict : keyvalue_t) (id : CStr)
    (hid : cJSON_GetObjectItem json "id".toList = some (.string id)) :
    charge_id true json dict = keyvalue_put true dict (some "Charge-Id".toList) (some id) := by
  unfold charge_id
  rw [hid]

theorem charge_balance_ok (json : cjson) (r : gpg_error_t × keyvalue_t)
    (h : r.1 = GPG_ERR_NO_ERROR) :
    charge_balance true json r = keyvalue_put true r.2 (some "balance-transaction".toList)
      (string_or_null (cJSON_GetObjectItem json "balance_transaction".toList)) := by
  unfold charge_balance
  rw [if_neg (not_not.2 h)]

theorem charge_live_ok (json : cjson) (r : gpg_error_t × keyvalue_t) (livemode : Bool)
    (h : r.1 = GPG_ERR_NO_ERROR)
    (hlive : cJSON_GetObjectItem json "livemode".toList = some (.bool livemode)) :
    charge_live true json r = keyvalue_put true r.2 (some "Live".toList)
      (some (if livemode then "t".toList else "f".toList)) := by
  unfold charge_live
  rw [if_neg (not_not.2 h), hlive]

theorem charge_currency_ok (json : cjson) (r : gpg_error_t × keyvalue_t) (currency : CStr)
    (h : r.1 = GPG_ERR_NO_ERROR)
    (hcur : cJSON_GetObjectItem json "currency".toList = some (.string currency)) :
    charge_currency true json r =
      keyvalue_put true r.2 (some "Currency".toList) (some currency) := by
  unfold charge_currency
  rw [if_neg (not_not.2 h), hcur]

theorem charge_amount_ok (json : cjson) (r : gpg_error_t × keyvalue_t) (amount : Int)
    (h : r.1 = GPG_ERR_NO_ERROR)
    (hamount : cJSON_GetObjectItem json "amount".toList = some (.number amount)) :
    charge_amount true true json r =
      keyvalue_put true r.2 (some "_amount".toList) (some (format_d amount)) := by
  unfold charge_amount
  rw [if_neg (not_not.2 h), hamount]
  exact putf_present_ok _ _ _ (by decide)

theorem charge_last4_ok (json : cjson) (r : gpg_error_t × keyvalue_t)
    (h : r.1 = GPG_ERR_NO_ERROR) :
    charge_last4 true json r = keyvalue_put true r.2 (some "Last4".toList)
      (string_or_null ((cJSON_GetObjectItem json "card".toList).bind
        (fun j_tmp => cJSON_GetObjectItem j_tmp "last4".toList))) := by
  unfold charge_last4
  rw [if_neg (not_not.2 h)]

theorem get_string_of_get (list : keyvalue_t) (key : CStr) (item : Option cjson)
    (h : keyvalue_get list key = string_or_null item) :
    keyvalue_get_string list key = string_or_empty item := by
  unfold keyvalue_get_string
  rw [h]
  cases item with
  | none => rfl
  | some j => cases j <;> rfl

/-- The part of Charge after a reply with status 200 that has the four
required fields, the allocations succeeding: the six results are put one after
the other. -/
theorem charge_response_ok (env : stripe_env) (dict : keyvalue_t) (json : cjson)
    (id currency : CStr) (livemode : Bool) (amount : Int) (hmem : ∀ i, env.mem i = true)
    (hid : cJSON_GetObjectItem json "id".toList = some (.string id))
    (hlive : cJSON_GetObjectItem json "livemode".toList = some (.bool livemode))
    (hcur : cJSON_GetObjectItem json "currency".toList = some (.string currency))
    (hamount : cJSON_GetObjectItem json "amount".toList = some (.number amount)) :
    stripe_charge_card_response env dict json =
      keyvalue_put true (keyvalue_put true (keyvalue_put true (keyvalue_put true
        (keyvalue_put true (keyvalue_put true dict (some "Charge-Id".toList) (some id)).2
          (some "balance-transaction".toList)
          (string_or_null (cJSON_GetObjectItem json "balance_transaction".toList))).2
        (some "Live".toList) (some (if livemode then "t".toList else "f".toList))).2
        (some "Currency".toList) (some currency)).2
        (some "_amount".toList) (some (format_d amount))).2
        (some "Last4".toList)
        (string_or_null ((cJSON_GetObjectItem json "card".toList).bind
          (fun j_tmp => cJSON_GetObjectItem j_tmp "last4".toList))) := by
  unfold stripe_charge_card_response
  simp only [hmem]
  rw [charge_id_ok json dict id hid,
    charge_balance_ok json _ (put_any_ok _ _ _ (by decide)),
    charge_live_ok json _ livemode (put_any_ok _ _ _ (by decide)) hlive,
    charge_currency_ok json _ currency (put_any_ok _ _ _ (by decide)) hcur,
    charge_amount_ok json _ amount (put_any_ok _ _ _ (by decide)) hamount,
    charge_last4_ok json _ (put_any_ok _ _ _ (by decide))]

/-- C25. For every Charge input that passes the checks and every reply with
status 200 whose body has a string `id`, a boolean `livemode`, a string
`currency` and a number `amount`, Charge (its allocations succeeding) returns
success after one request and leaves `Charge-Id` = id, `Live` = `t` if
livemode is true and `f` if not, `Currency` = the currency of the reply,
`_amount` = the decimal rendering of the amount; `balance-transaction` and
`Last4` hold the strings `balance_transaction` and `card.last4` of the reply
if it has them and are absent (GetString: empty) otherwise, whatever the
record held before; and Get returns absent for `Card-Token`. -/
theorem charge_success (env : stripe_env) (dict : keyvalue_t) (json : cjson)
    (id currency : CStr) (livemode : Bool) (amount : Int) (hmem : ∀ i, env.mem i = true)
    (hvalid : charge_valid dict)
    (hreply : ∀ url q, env.http url q =
      { err := GPG_ERR_NO_ERROR, status := 200, body := .ok json })
    (hid : cJSON_GetObjectItem json "id".toList = some (.string id))
    (hlive : cJSON_GetObjectItem json "livemode".toList = some (.bool livemode))
    (hcur : cJSON_GetObjectItem json "currency".toList = some (.string currency))
    (hamount : cJSON_GetObjectItem json "amount".toList = some (.number amount)) :
    (stripe_charge_card env dict).err = GPG_ERR_NO_ERROR ∧
    (stripe_charge_card env dict).calls.length = 1 ∧
    keyvalue_get (stripe_charge_card env dict).dict "Charge-Id".toList = some id ∧
    keyvalue_get (stripe_charge_card env dict).dict "Live".toList =
      some (if livemode then "t".toList else "f".toList) ∧
    keyvalue_get (stripe_charge_card env dict).dict "Currency".toList = some currency ∧
    keyvalue_get (stripe_charge_card env dict).dict "_amount".toList =
      some (format_d amount) ∧
    keyvalue_get (stripe_charge_card env dict).dict "balance-transaction".toList =
      string_or_null (cJSON_GetObjectItem json "balance_transaction".toList) ∧
    keyvalue_get_string (stripe_charge_card env dict).dict "balance-transaction".toList =
      string_or_empty (cJSON_GetObjectItem json "balance_transaction".toList) ∧
    keyvalue_get (stripe_charge_card env dict).dict "Last4".toList =
      string_or_null ((cJSON_GetObjectItem json "card".toList).bind
        (fun j_tmp => cJSON_GetObjectItem j_tmp "last4".toList)) ∧
    keyvalue_get_string (stripe_charge_card env dict).dict "Last4".toList =
      string_or_empty ((cJSON_GetObjectItem json "card".toList).bind
        (fun j_tmp => cJSON_GetObjectItem j_tmp "last4".toList)) ∧
    keyvalue_get (stripe_charge_card env dict).dict "Card-Token".toList = none := by
  have hq := charge_query_valid_mem env dict hmem hvalid
  have hd := (charge_query_ok env dict hq).2
  have hc : (call_stripe (env.mem 5) env.http "charges".toList none
      (stripe_charge_card_query env dict).2.2).1 = .ok 200 json := by
    rw [hmem 5]
    exact call_stripe_ok _ _ _ json hreply
  obtain ⟨he, hdict⟩ := charge_ok env dict json hq hc
  rw [charge_response_ok env _ json id currency livemode amount hmem hid hlive hcur hamount,
    hd] at he hdict
  have hbal : keyvalue_get (stripe_charge_card env dict).dict "balance-transaction".toList =
      string_or_null (cJSON_GetObjectItem json "balance_transaction".toList) := by
    rw [hdict, get_put_any_other _ _ _ _ _ (by decide), get_put_any_other _ _ _ _ _ (by decide),
      get_put_any_other _ _ _ _ _ (by decide), get_put_any_other _ _ _ _ _ (by decide),
      get_put_any_self _ _ _ (by decide)]
  have hlast : keyvalue_get (stripe_charge_card env dict).dict "Last4".toList =
      string_or_null ((cJSON_GetObjectItem json "card".toList).bind
        (fun j_tmp => cJSON_GetObjectItem j_tmp "last4".toList)) := by
    rw [hdict, get_put_any_self _ _ _ (by decide)]
  refine ⟨?_, ?_, ?_, ?_, ?_, ?_, hbal, get_string_of_get _ _ _ hbal, hlast,
    get_string_of_get _ _ _ hlast, ?_⟩
  · rw [he]
    exact put_any_ok _ _ _ (by decide)
  · rw [charge_calls env dict hq]
    exact (call_stripe_calls _ _ _ _).2 (hmem 5)
  · rw [hdict, get_put_any_other _ _ _ _ _ (by decide), get_put_any_other _ _ _ _ _ (by decide),
      get_put_any_other _ _ _ _ _ (by decide), get_put_any_other _ _ _ _ _ (by decide),
      get_put_any_other _ _ _ _ _ (by decide), get_put_any_self _ _ _ (by decide)]
  · rw [hdict, get_put_any_other _ _ _ _ _ (by decide), get_put_any_other _ _ _ _ _ (by decide),
      get_put_any_other _ _ _ _ _ (by decide), get_put_any_self _ _ _ (by decide)]
  · rw [hdict, get_put_any_other _ _ _ _ _ (by decide), get_put_any_other _ _ _ _ _ (by decide),
      get_put_any_self _ _ _ (by decide)]
  · rw [hdict, get_put_any_other _ _ _ _ _ (by decide), get_put_any_self _ _ _ (by decide)]
  · rw [hdict, get_put_any_other _ _ _ _ _ (by decide), get_put_any_other _ _ _ _ _ (by decide),
      get_put_any_other _ _ _ _ _ (by decide), get_put_any_other _ _ _ _ _ (by decide),
      get_put_any_other _ _ _ _ _ (by decide), get_put_any_other _ _ _ _ _ (by decide),
      get_del_self _ _ _ (by decide)]

/-- Witness for C25: the charge of the example, answered with a body that
has neither a settlement transaction nor a card. -/
theorem charge_success_witness :
    charge_valid sample_charge ∧
    (stripe_charge_card (reply_env 200 sample_charge_json) sample_charge).err
      = GPG_ERR_NO_ERROR ∧
    keyvalue_get (stripe_charge_card (reply_env 200 sample_charge_json) sample_charge).dict
      "Charge-Id".toList = some "ch_1".toList ∧
    keyvalue_get (stripe_charge_card (reply_env 200 sample_charge_json) sample_charge).dict
      "_amount".toList = some "500".toList ∧
    keyvalue_get_string
      (stripe_charge_card (reply_env 200 sample_charge_json) sample_charge).dict
      "balance-transaction".toList = [] ∧
    keyvalue_get (stripe_charge_card (reply_env 200 sample_charge_json) sample_charge).dict
      "Card-Token".toList = none :=
  have h := charge_success (reply_env 200 sample_charge_json) sample_charge
    sample_charge_json "ch_1".toList "eur".toList true 500
    (fun _ => rfl) (by decide) (fun _ _ => rfl) rfl rfl rfl rfl
  ⟨by decide, h.1, h.2.2.1, h.2.2.2.2.2.1.trans (by decide), h.2.2.2.2.2.2.2.1,
    h.2.2.2.2.2.2.2.2.2.2⟩

/-- C26. A failed Charge can leave result fields behind: for the charge of
the example and a reply with status 200 whose body has the string `id` and a
`balance_transaction` but no `livemode`, Charge returns `GPG_ERR_GENERAL`,
and the record, which had neither field before, has `Charge-Id` = `ch_1` and
`balance-transaction` = `txn_1` afterwards. -/
theorem charge_failure_leaves_fields :
    charge_valid sample_charge ∧
    (cJSON_GetObjectItem partial_charge_json "livemode".toList).isNone = true ∧
    keyvalue_get sample_charge "Charge-Id".toList = none ∧
    keyvalue_get sample_charge "balance-transaction".toList = none ∧
    (stripe_charge_card (reply_env 200 partial_charge_json) sample_charge).err
      = GPG_ERR_GENERAL ∧
    keyvalue_get (stripe_charge_card (reply_env 200 partial_charge_json) sample_charge).dict
      "Charge-Id".toList = some "ch_1".toList ∧
    keyvalue_get (stripe_charge_card (reply_env 200 partial_charge_json) sample_charge).dict
      "balance-transaction".toList = some "txn_1".toList := by
  decide

/-! ## Tombstones and removal -/

theorem removal_get_map (r : removal_record) (k v x : CStr) :
    removal_get (r.map (fun e => if e.1 = k then (e.1, v) else e)) x =
      if x = k then (removal_get r k).map (fun _ => v) else removal_get r x := by
  induction r with
  | nil => simp [removal_get]
  | cons e rest ih =>
    simp only [List.map_cons, removal_get]
    by_cases hx : x = k
    · subst hx
      rw [if_pos rfl] at ih ⊢
      by_cases hek : e.1 = x
      · simp [hek]
      · simp [hek, ih]
    · rw [if_neg hx] at ih ⊢
      by_cases hek : e.1 = k
      · have : ¬ k = x := fun h => hx h.symm
        simp [hek, this, ih]
      · simp only [if_neg hek]
        by_cases hex : e.1 = x
        · rw [if_pos hex, if_pos hex]
        · rw [if_neg hex, if_neg hex, ih]

theorem removal_get_put (r : removal_record) (k v x : CStr) :
    removal_get (removal_put r k v) x =
      if k ≠ [] ∧ x = k then some v else removal_get r x := by
  unfold removal_put
  by_cases hk : k = []
  · simp [hk]
  · rw [if_neg hk]
    cases hg : removal_get r k with
    | none =>
      by_cases hx : x = k
      · simp [removal_get, hx, hk]
      · have : ¬ k = x := fun h => hx h.symm
        simp [removal_get, hx, this]
    | some old =>
      simp only [removal_get_map, hg, Option.map_some']
      by_cases hx : x = k <;> simp [hx, hk]

theorem removal_get_delete (r : removal_record) (k x : CStr) :
    removal_get (removal_delete r k) x = if x = k then none else removal_get r x := by
  unfold removal_delete
  induction r with
  | nil => simp [removal_get]
  | cons e rest ih =>
    rw [List.filter_cons]
    by_cases hek : e.1 = k
    · have hp : decide (e.1 ≠ k) = false := by simp [hek]
      rw [hp, if_neg (by simp), ih]
      by_cases hx : x = k
      · rw [if_pos hx, if_pos hx]
      · have : ¬ e.1 = x := fun h => hx (h.symm.trans hek)
        rw [if_neg hx, if_neg hx, removal_get, if_neg this]
    · have hp : decide (e.1 ≠ k) = true := by simp [hek]
      rw [hp, if_pos rfl, removal_get, removal_get, ih]
      by_cases hex : e.1 = x
      · have : ¬ x = k := fun h => hek (hex.trans h)
        rw [if_pos hex, if_pos hex, if_neg this]
      · rw [if_neg hex, if_neg hex]

/-- The removal record follows the spec: Get after an operation is
`get_after` of Get before it. -/
theorem removal_get_apply (r : removal_record) (op : RecordOp) (x : CStr) :
    removal_get (removal_apply r op) x = get_after (removal_get r) op x := by
  cases op with
  | Put k value =>
    cases value with
    | none => exact removal_get_delete r k x
    | some v => exact removal_get_put r k v x
  | Putf k f => exact removal_get_put r k f x
  | Delete k => exact removal_get_delete r k x
  | AppendLine k t =>
    simp only [removal_apply, get_after]
    cases hg : removal_get r k with
    | none => exact removal_get_put r k t x
    | some old => exact removal_get_put r k _ x
  | StripNewlines k =>
    simp only [removal_apply, get_after]
    cases hg : removal_get r k with
    | none => rfl
    | some old => exact removal_get_put r k _ x
  | Snatch k => exact removal_get_delete r k x

theorem find_getElem (list : keyvalue_t) (k : CStr) (i : Nat)
    (h : keyvalue_find list k = some i) :
    ∃ node, list[i]? = some node ∧ node.name = k ∧ node.value = keyvalue_get list k := by
  induction list generalizing i with
  | nil => simp [keyvalue_find] at h
  | cons kv next ih =>
    by_cases hn : kv.name = k
    · simp [keyvalue_find, hn] at h
      subst h
      exact ⟨kv, by simp, hn, by simp [keyvalue_get, hn]⟩
    · simp only [keyvalue_find, hn, if_false, Option.map_eq_some'] at h
      obtain ⟨j, hj, rfl⟩ := h
      obtain ⟨node, h1, h2, h3⟩ := ih j hj
      exact ⟨node, by simpa using h1, h2, by simp [keyvalue_get, hn, h3]⟩

theorem set_eq_set_value (list : keyvalue_t) (i : Nat) (node : keyvalue_s)
    (buf : Option CStr) (h : list[i]? = some node) :
    list.set i { name := node.name, value := buf } = set_value list i buf := by
  induction list generalizing i with
  | nil => simp at h
  | cons kv next ih =>
    cases i with
    | zero =>
      simp at h
      subst h
      rfl
    | succ j =>
      simp only [List.set_cons_succ, set_value]
      rw [ih j (by simpa using h)]

theorem set_self (list : keyvalue_t) (i : Nat) (node : keyvalue_s)
    (h : list[i]? = some node) : list.set i node = list := by
  induction list generalizing i with
  | nil => rfl
  | cons kv next ih =>
    cases i with
    | zero =>
      simp at h
      subst h
      rfl
    | succ j =>
      simp only [List.set_cons_succ]
      rw [ih j (by simpa using h)]

theorem get_set_value (list : keyvalue_t) (k x : CStr) (i : Nat) (buf : Option CStr)
    (h : keyvalue_find list k = some i) :
    keyvalue_get (set_value list i buf) x = if x = k then buf else keyvalue_get list x := by
  by_cases hx : x = k
  · rw [if_pos hx, hx]
    exact get_set_value_found list k i buf h
  · rw [if_neg hx]
    exact get_set_value_other list k x i buf h hx

theorem get_put_some (list : keyvalue_t) (k v x : CStr) :
    keyvalue_get (keyvalue_put true list (some k) (some v)).2 x =
      if k ≠ [] ∧ x = k then some v else keyvalue_get list x := by
  by_cases hk : k = []
  · simp [keyvalue_put, hk]
  · by_cases hx : x = k
    · rw [if_pos ⟨hk, hx⟩, hx]
      exact get_put_present list k v hk
    · rw [if_neg (fun h => hx h.2)]
      exact get_put_present_other list k x v hk hx

theorem get_put_none (list : keyvalue_t) (k x : CStr)
    (hempty : keyvalue_find list [] = none) :
    keyvalue_get (keyvalue_put true list (some k) none).2 x =
      if x = k then none else keyvalue_get list x := by
  by_cases hk : k = []
  · have : (keyvalue_put true list (some k) none).2 = list := by simp [keyvalue_put, hk]
    rw [this]
    by_cases hx : x = k
    · rw [if_pos hx, hx, hk]
      exact get_eq_none_of_find list [] hempty
    · rw [if_neg hx]
  · rw [← del_eq_put]
    by_cases hx : x = k
    · rw [if_pos hx, hx]
      exact get_del_self true list k hk
    · rw [if_neg hx]
      exact get_del_other true list k x hk hx

/-- The source's record follows the spec: Get after an operation is
`get_after` of Get before it. -/
theorem record_get_apply (list : keyvalue_t) (op : RecordOp) (x : CStr)
    (hempty : keyvalue_find list [] = none)
    (hcs : ∀ k v, keyvalue_get list k = some v → NUL ∉ v) :
    keyvalue_get (RecordOp.apply list op) x = get_after (keyvalue_get list) op x := by
  cases op with
  | Put k value =>
    cases value with
    | none => exact get_put_none list k x hempty
    | some v => exact get_put_some list k v x
  | Putf k f =>
    simp only [RecordOp.apply, get_after]
    by_cases hk : k = []
    · simp [keyvalue_putf, hk]
    · rw [putf_present_ok list k f hk]
      exact get_put_some list k f x
  | Delete k =>
    simp only [RecordOp.apply, get_after]
    rw [del_eq_put]
    exact get_put_none list k x hempty
  | AppendLine k t =>
    simp only [RecordOp.apply, get_after]
    cases hf : keyvalue_find list k with
    | none =>
      rw [get_eq_none_of_find list k hf]
      exact get_put_some list k t x
    | some i =>
      obtain ⟨node, h1, h2, h3⟩ := find_getElem list k i hf
      have hk : k ≠ [] := by
        intro hk
        rw [hk, hempty] at hf
        cases hf
      cases hg : keyvalue_get list k with
      | none => exact get_put_some list k t x
      | some old =>
        have hnode : node = { name := k, value := some old } := by
          cases node
          simp only [hg] at h2 h3
          simp [h2, h3]
        simp only [Op.apply, h1, hnode, append_with_nl_present]
        rw [show ({ name := k, value := some (old ++ '\n' :: t) } : keyvalue_s) =
          { name := node.name, value := some (old ++ '\n' :: t) } from by rw [h2],
          set_eq_set_value list i node _ h1, get_set_value list k x i _ hf]
        by_cases hx : x = k <;> simp [hx, hk]
  | StripNewlines k =>
    simp only [RecordOp.apply, get_after]
    cases hf : keyvalue_find list k with
    | none =>
      rw [get_eq_none_of_find list k hf]
      rfl
    | some i =>
      obtain ⟨node, h1, h2, h3⟩ := find_getElem list k i hf
      have hk : k ≠ [] := by
        intro hk
        rw [hk, hempty] at hf
        cases hf
      cases hg : keyvalue_get list k with
      | none =>
        have hnode : keyvalue_remove_nl (some node) = some node := by
          rw [hg] at h3
          simp [keyvalue_remove_nl, h3]
        simp only [Op.apply, h1, hnode]
        rw [set_self list i node h1]
      | some old =>
        have hnode : node = { name := k, value := some old } := by
          cases node
          simp only [hg] at h2 h3
          simp [h2, h3]
        simp only [Op.apply, h1]
        rw [hnode, remove_nl_value k old (hcs k old hg)]
        simp only []
        rw [show ({ name := k, value := some (old.filter (fun c => c ≠ '\n')) } : keyvalue_s) =
          { name := node.name, value := some (old.filter (fun c => c ≠ '\n')) } from by rw [h2],
          set_eq_set_value list i node _ h1, get_set_value list k x i _ hf]
        by_cases hx : x = k <;> simp [hx, hk]
  | Snatch k =>
    simp only [RecordOp.apply, get_after]
    rw [snatch_eq]
    cases hf : keyvalue_find list k with
    | none =>
      simp only []
      by_cases hx : x = k
      · rw [if_pos hx, hx]
        exact get_eq_none_of_find list k hf
      · rw [if_neg hx]
    | some i => exact get_set_value list k x i none hf

theorem record_apply_eq (list : keyvalue_t) (op : RecordOp) :
    ∃ op2 : Op, RecordOp.apply list op = op2.apply list := by
  cases op with
  | Put k v => exact ⟨.put true (some k) v, rfl⟩
  | Putf k f => exact ⟨.putf true (some k) (some f), rfl⟩
  | Delete k => exact ⟨.del true (some k), rfl⟩
  | AppendLine k t =>
    cases hg : keyvalue_get list k with
    | none => exact ⟨.put true (some k) (some t), by simp [RecordOp.apply, hg, Op.apply]⟩
    | some old =>
      cases hf : keyvalue_find list k with
      | none => exact ⟨.put true (some k) (some t), by simp [RecordOp.apply, hg, hf, Op.apply]⟩
      | some i => exact ⟨.append_with_nl true i t, by simp [RecordOp.apply, hg, hf]⟩
  | StripNewlines k => exact ⟨.remove_nl (keyvalue_find list k), rfl⟩
  | Snatch k => exact ⟨.snatch k, rfl⟩

theorem record_find_empty (list : keyvalue_t) (op : RecordOp)
    (hempty : keyvalue_find list [] = none) :
    keyvalue_find (RecordOp.apply list op) [] = none := by
  obtain ⟨op2, h⟩ := record_apply_eq list op
  rw [h, find_eq_none_iff]
  rw [find_eq_none_iff] at hempty
  rcases keys_step_apply list op2 with hk | ⟨k, _, hk, _, hkeys⟩
  · rw [hk]
    exact hempty
  · rw [hkeys]
    intro hm
    rcases List.mem_cons.1 hm with e | e
    · exact hk e.symm
    · exact hempty e

theorem not_mem_of_contains (v : List Char) (h : (!v.contains NUL) = true) : NUL ∉ v := by
  simpa using h

theorem nul_not_mem_filter (v : List Char) (p : Char → Bool) (h : NUL ∉ v) :
    NUL ∉ v.filter p := fun hm => h (List.mem_filter.1 hm).1

theorem get_after_cstrings (g : CStr → Option CStr) (op : RecordOp)
    (hg : ∀ k v, g k = some v → NUL ∉ v) (hop : op.cstrings = true) :
    ∀ k v, get_after g op k = some v → NUL ∉ v := by
  intro x v h
  cases op with
  | Put k value =>
    cases value with
    | none =>
      simp only [get_after] at h
      split_ifs at h
      exact hg x v h
    | some w =>
      simp only [get_after] at h
      split_ifs at h
      · injection h with h
        rw [← h]
        exact not_mem_of_contains w hop
      · exact hg x v h
  | Putf k f =>
    simp only [get_after] at h
    split_ifs at h
    · injection h with h
      rw [← h]
      exact not_mem_of_contains f hop
    · exact hg x v h
  | Delete k =>
    simp only [get_after] at h
    split_ifs at h
    exact hg x v h
  | AppendLine k t =>
    have ht : NUL ∉ t := not_mem_of_contains t hop
    simp only [get_after] at h
    cases hk : g k with
    | none =>
      simp only [hk] at h
      split_ifs at h
      · injection h with h
        rw [← h]
        exact ht
      · exact hg x v h
    | some old =>
      simp only [hk] at h
      split_ifs at h
      · injection h with h
        rw [← h]
        intro hm
        rcases List.mem_append.1 hm with e | e
        · exact hg k old hk e
        · rcases List.mem_cons.1 e with e | e
          · exact absurd e (by decide)
          · exact ht e
      · exact hg x v h
  | StripNewlines k =>
    simp only [get_after] at h
    cases hk : g k with
    | none =>
      simp only [hk] at h
      exact hg x v h
    | some old =>
      simp only [hk] at h
      split_ifs at h
      · injection h with h
        rw [← h]
        exact nul_not_mem_filter old _ (hg k old hk)
      · exact hg x v h
  | Snatch k =>
    simp only [get_after] at h
    split_ifs at h
    exact hg x v h

/-- The two records agree on Get after a sequence of operations when they
agreed before it. -/
theorem record_run_get (ops : List RecordOp) (list : keyvalue_t) (r : removal_record)
    (hR : ∀ x, keyvalue_get list x = removal_get r x)
    (hempty : keyvalue_find list [] = none)
    (hcs : ∀ k v, keyvalue_get list k = some v → NUL ∉ v)
    (hops : ∀ op ∈ ops, RecordOp.cstrings op = true) :
    ∀ x, keyvalue_get (record_run ops list) x = removal_get (removal_run ops r) x := by
  induction ops generalizing list r with
  | nil => exact hR
  | cons op ops ih =>
    have hfun : keyvalue_get list = removal_get r := funext hR
    have hstep : ∀ x, keyvalue_get (RecordOp.apply list op) x =
        get_after (keyvalue_get list) op x :=
      fun x => record_get_apply list op x hempty hcs
    show ∀ x, keyvalue_get (record_run ops (RecordOp.apply list op)) x =
      removal_get (removal_run ops (removal_apply r op)) x
    apply ih
    · intro x
      rw [hstep x, removal_get_apply r op x, hfun]
    · exact record_find_empty list op hempty
    · intro k v hk
      rw [hstep k] at hk
      exact get_after_cstrings _ op hcs (hops op (List.mem_cons_self _ _)) k v hk
    · exact fun o ho => hops o (List.mem_cons_of_mem _ ho)

/-- C28. Tombstoning cannot be told from removal: for every sequence of Put,
Putf, Delete, AppendLine, StripNewlines and Snatch applied to the empty
record, the values being C strings, the source's record, in which Delete
leaves the node with an absent value, and the record that removes the entry
return the same for Get, GetString, GetInt and Snatch of every key. -/
theorem tombstone_refines_removal (ops : List RecordOp) (key : CStr)
    (hops : ∀ op ∈ ops, RecordOp.cstrings op = true) :
    keyvalue_get (record_run ops []) key = removal_get (removal_run ops []) key ∧
    keyvalue_get_string (record_run ops []) key =
      removal_get_string (removal_run ops []) key ∧
    keyvalue_get_int (record_run ops []) key = removal_get_int (removal_run ops []) key ∧
    (keyvalue_snatch (record_run ops []) key).1 =
      (removal_snatch (removal_run ops []) key).1 := by
  have h := record_run_get ops [] [] (fun _ => rfl) rfl (fun k v hk => by cases hk) hops key
  refine ⟨h, ?_, ?_, ?_⟩
  · unfold keyvalue_get_string removal_get_string
    rw [h]
  · unfold keyvalue_get_int removal_get_int
    rw [h]
  · rw [snatch_eq]
    exact h

/-- Witness for C28: AppendLine after Delete, the case in which the source's
record holds a tombstone; both records return `x`. -/
theorem tombstone_refines_removal_witness :
    (∀ op ∈ [RecordOp.Put ['k'] (some ['v']), .Delete ['k'], .AppendLine ['k'] ['x']],
      RecordOp.cstrings op = true) ∧
    keyvalue_find (record_run [.Put ['k'] (some ['v']), .Delete ['k']] []) ['k'] = some 0 ∧
    keyvalue_get (record_run [.Put ['k'] (some ['v']), .Delete ['k'],
      .AppendLine ['k'] ['x']] []) ['k'] = some ['x'] ∧
    removal_get (removal_run [.Put ['k'] (some ['v']), .Delete ['k'],
      .AppendLine ['k'] ['x']] []) ['k'] = some ['x'] :=
  have h := (tombstone_refines_removal [.Put ['k'] (some ['v']), .Delete ['k'],
    .AppendLine ['k'] ['x']] ['k'] (by decide)).1
  ⟨by decide, by decide, by decide, h.symm.trans (by decide)⟩

/-! ## memstr -/

/-- C30. With a NUL byte in the buffer `memstr` compares past the
terminating NUL of SUB: for the buffer `ab\0` of length 3 and SUB = `ab`,
which occurs at position 0, it returns `NULL` when the byte after the
terminator of SUB is `x`, and position 0 when that byte is NUL, so what it
returns depends on memory that is no part of the string. -/
theorem memstr_reads_past_terminator :
    buffer_cstr ['a', 'b', NUL, 'x'] = ['a', 'b'] ∧
    buffer_cstr ['a', 'b', NUL, NUL] = ['a', 'b'] ∧
    occurs_at ['a', 'b', NUL] 3 ['a', 'b'] 0 ∧
    memstr ['a', 'b', NUL] 3 ['a', 'b', NUL, 'x'] = none ∧
    memstr ['a', 'b', NUL] 3 ['a', 'b', NUL, NUL] = some 0 := by
  decide

/-! ## memstr on buffers without NUL bytes -/

theorem sub_getD_lt (s rest : List Char) (k : Nat) (hk : k < s.length) :
    (s ++ NUL :: rest).getD k NUL = s.getD k NUL := by
  simp [List.getD_eq_getElem?_getD, List.getElem?_append_left hk]

theorem sub_getD_length (s rest : List Char) :
    (s ++ NUL :: rest).getD s.length NUL = NUL := by
  induction s with
  | nil => rfl
  | cons c s ih =>
    rw [List.cons_append, List.length_cons, List.getD_cons_succ]
    exact ih

theorem getD_ne_NUL (s : List Char) (k : Nat) (hk : k < s.length) (hnul : NUL ∉ s) :
    s.getD k NUL ≠ NUL := by
  intro h
  apply hnul
  rw [List.getD_eq_getElem?_getD, List.getElem?_eq_getElem hk] at h
  simp only [Option.getD_some] at h
  rw [← h]
  exact List.getElem_mem hk

/-- The inner loop on a stretch of the buffer without NUL byte stops at the
terminator of SUB exactly when the rest of SUB is matched. -/
theorem memstr_inner_spec (buffer s rest : List Char) (hnul : NUL ∉ s) (n t k : Nat)
    (hk : k ≤ s.length) (hbuf : ∀ j, j < n → buffer.getD (t + j) NUL ≠ NUL) :
    (s ++ NUL :: rest).getD (memstr_inner buffer (s ++ NUL :: rest) n t k) NUL = NUL ↔
      (s.length - k ≤ n ∧
        ∀ j, j < s.length - k → buffer.getD (t + j) NUL = s.getD (k + j) NUL) := by
  induction n generalizing t k with
  | zero =>
    unfold memstr_inner
    constructor
    · intro h
      have hk2 : k = s.length := by
        by_contra hne
        have hlt : k < s.length := lt_of_le_of_ne hk hne
        rw [sub_getD_lt s rest k hlt] at h
        exact getD_ne_NUL s k hlt hnul h
      subst hk2
      exact ⟨by simp, fun j hj => absurd hj (by simp)⟩
    · rintro ⟨h, _⟩
      have hk2 : k = s.length := by omega
      subst hk2
      exact sub_getD_length s rest
  | succ n ih =>
    unfold memstr_inner
    have hc := hbuf 0 (Nat.succ_pos n)
    rw [Nat.add_zero] at hc
    by_cases heq : buffer.getD t NUL = (s ++ NUL :: rest).getD k NUL
    · rw [if_pos heq]
      have hlt : k < s.length := by
        by_contra hne
        have hk2 : k = s.length := by omega
        rw [hk2, sub_getD_length] at heq
        exact hc heq
      rw [sub_getD_lt s rest k hlt] at heq
      rw [ih (t + 1) (k + 1) hlt (fun j hj => by
        have := hbuf (j + 1) (by omega)
        rwa [show t + (j + 1) = t + 1 + j from by omega] at this)]
      constructor
      · rintro ⟨h1, h2⟩
        refine ⟨by omega, fun j hj => ?_⟩
        cases j with
        | zero => simpa using heq
        | succ j =>
          have := h2 j (by omega)
          rwa [show t + 1 + j = t + (j + 1) from by omega,
            show k + 1 + j = k + (j + 1) from by omega] at this
      · rintro ⟨h1, h2⟩
        refine ⟨by omega, fun j hj => ?_⟩
        have := h2 (j + 1) (by omega)
        rwa [show t + (j + 1) = t + 1 + j from by omega,
          show k + (j + 1) = k + 1 + j from by omega] at this
    · rw [if_neg heq]
      constructor
      · intro h
        have hk2 : k = s.length := by
          by_contra hne
          have hlt : k < s.length := lt_of_le_of_ne hk hne
          rw [sub_getD_lt s rest k hlt] at h
          exact getD_ne_NUL s k hlt hnul h
        subst hk2
        exact ⟨by simp, fun j hj => absurd hj (by simp)⟩
      · rintro ⟨_, h2⟩
        by_cases hk2 : k = s.length
        · subst hk2
          exact sub_getD_length s rest
        · have hlt : k < s.length := lt_of_le_of_ne hk hk2
          have := h2 0 (by omega)
          rw [Nat.add_zero, Nat.add_zero, ← sub_getD_lt s rest k hlt] at this
          exact absurd this heq

/-- One pass of the outer loop on a buffer without NUL byte: the test of the
first character and the inner loop succeed exactly when SUB occurs at `t`. -/
theorem memstr_match_iff (buffer s rest : List Char) (buflen : Nat) (hs : s ≠ [])
    (hnul : NUL ∉ s) (hbuf : ∀ j, j < buflen → buffer.getD j NUL ≠ NUL) (n t : Nat)
    (hn : t + (n + 1) = buflen) :
    (buffer.getD t NUL = (s ++ NUL :: rest).getD 0 NUL ∧
      (s ++ NUL :: rest).getD (memstr_inner buffer (s ++ NUL :: rest) n (t + 1) 1) NUL = NUL) ↔
    occurs_at buffer buflen s t := by
  have hpos : 0 < s.length := List.length_pos.2 hs
  rw [sub_getD_lt s rest 0 hpos, memstr_inner_spec buffer s rest hnul n (t + 1) 1 hpos
    (fun j hj => hbuf (t + 1 + j) (by omega))]
  unfold occurs_at
  constructor
  · rintro ⟨h0, h1, h2⟩
    refine ⟨by omega, fun j hj => ?_⟩
    cases j with
    | zero => simpa using h0
    | succ j =>
      have := h2 j (by omega)
      rwa [show t + 1 + j = t + (j + 1) from by omega,
        show 1 + j = j + 1 from by omega] at this
  · rintro ⟨h1, h2⟩
    refine ⟨by simpa using h2 0 hpos, by omega, fun j hj => ?_⟩
    have := h2 (j + 1) (by omega)
    rwa [show t + (j + 1) = t + 1 + j from by omega,
      show j + 1 = 1 + j from by omega] at this

theorem memstr_loop_spec (buffer s rest : List Char) (buflen : Nat) (hs : s ≠ [])
    (hnul : NUL ∉ s) (hbuf : ∀ j, j < buflen → buffer.getD j NUL ≠ NUL) (n t : Nat)
    (hn : t + n = buflen) :
    (∀ i, memstr_loop buffer (s ++ NUL :: rest) n t = some i →
      t ≤ i ∧ occurs_at buffer buflen s i ∧
        ∀ j, t ≤ j → j < i → ¬ occurs_at buffer buflen s j) ∧
    (memstr_loop buffer (s ++ NUL :: rest) n t = none →
      ∀ j, t ≤ j → ¬ occurs_at buffer buflen s j) := by
  have hpos : 0 < s.length := List.length_pos.2 hs
  induction n generalizing t with
  | zero =>
    unfold memstr_loop
    refine ⟨fun i h => (by cases h), fun _ j hj hocc => ?_⟩
    unfold occurs_at at hocc
    omega
  | succ n ih =>
    have hm := memstr_match_iff buffer s rest buflen hs hnul hbuf n t hn
    obtain ⟨ih1, ih2⟩ := ih (t + 1) (by omega)
    unfold memstr_loop
    by_cases h1 : buffer.getD t NUL = (s ++ NUL :: rest).getD 0 NUL
    · rw [if_pos h1]
      by_cases h2 : (s ++ NUL :: rest).getD
          (memstr_inner buffer (s ++ NUL :: rest) n (t + 1) 1) NUL = NUL
      · rw [if_pos h2]
        refine ⟨fun i h => ?_, fun h => (by cases h)⟩
        injection h with h
        subst h
        exact ⟨le_refl _, hm.1 ⟨h1, h2⟩, fun j hj1 hj2 => by omega⟩
      · rw [if_neg h2]
        have hno : ¬ occurs_at buffer buflen s t := fun ho => h2 (hm.2 ho).2
        refine ⟨fun i h => ?_, fun h j hj => ?_⟩
        · obtain ⟨a, b, c⟩ := ih1 i h
          refine ⟨by omega, b, fun j hj1 hj2 => ?_⟩
          by_cases hjt : j = t
          · rw [hjt]; exact hno
          · exact c j (by omega) hj2
        · by_cases hjt : j = t
          · rw [hjt]; exact hno
          · exact ih2 h j (by omega)
    · rw [if_neg h1]
      have hno : ¬ occurs_at buffer buflen s t := fun ho => h1 (hm.2 ho).1
      refine ⟨fun i h => ?_, fun h j hj => ?_⟩
      · obtain ⟨a, b, c⟩ := ih1 i h
        refine ⟨by omega, b, fun j hj1 hj2 => ?_⟩
        by_cases hjt : j = t
        · rw [hjt]; exact hno
        · exact c j (by omega) hj2
      · by_cases hjt : j = t
        · rw [hjt]; exact hno
        · exact ih2 h j (by omega)

/-- On a buffer whose first `buflen` bytes hold no NUL byte `memstr` finds
SUB, whatever follows the terminator of SUB in memory: a returned position
is the first at which the string, which is not empty, occurs wholly within
the first `buflen` bytes, and `NULL` is returned only when it occurs
nowhere. -/
theorem memstr_finds_first (buffer s rest : List Char) (buflen : Nat) (hs : s ≠ [])
    (hnul : NUL ∉ s) (hbuf : ∀ j, j < buflen → buffer.getD j NUL ≠ NUL) :
    (∀ i, memstr buffer buflen (s ++ NUL :: rest) = some i →
      occurs_at buffer buflen s i ∧ ∀ j, j < i → ¬ occurs_at buffer buflen s j) ∧
    (memstr buffer buflen (s ++ NUL :: rest) = none ↔
      ∀ j, ¬ occurs_at buffer buflen s j) := by
  obtain ⟨h1, h2⟩ := memstr_loop_spec buffer s rest buflen hs hnul hbuf buflen 0 (by omega)
  unfold memstr
  refine ⟨fun i h => ⟨(h1 i h).2.1, fun j hj => (h1 i h).2.2 j (Nat.zero_le j) hj⟩,
    fun h j => h2 h j (Nat.zero_le j), fun h => ?_⟩
  cases hr : memstr_loop buffer (s ++ NUL :: rest) buflen 0 with
  | none => rfl
  | some i => exact absurd (h1 i hr).2.1 (h i)

/-- An instance of `memstr_finds_first`: `ab` in the buffer `xab`. -/
theorem memstr_finds_first_example :
    memstr ['x', 'a', 'b'] 3 (['a', 'b'] ++ NUL :: ['x']) = some 1 ∧
    occurs_at ['x', 'a', 'b'] 3 ['a', 'b'] 1 :=
  have h := memstr_finds_first ['x', 'a', 'b'] ['a', 'b'] ['x'] 3 (by decide) (by decide)
    (by decide)
  ⟨by decide, (h.1 1 (by decide)).1⟩

end Payproc
